import Mathlib

/-!
# Global-availability pollers and the HTML fixer of jsar-example

Shallow embedding of the polling utilities

* `JSARAsyncLoader.waitForGlobal` / `JSARAsyncLoader.waitForMultipleGlobals`
  (jsarcase/jsar-async-script-loader.js), and
* `waitForGlobal` / `waitForMultipleGlobals` / `waitForWebGLTestGlobals`
  (jsarcase/test/js/webgl-async-loader.js, duplicated verbatim in
  jsarcase/badcase/dom-operation/jsar-async-loader.js),

and of `needsFix` / `fixHtmlContent` (jsarcase/fix-async-scripts.js).

Modelling conventions.

* JavaScript numbers that reach the pollers are integers (`Int`); the retry
  counter is a `Nat`.
* The identifiers `window` and `global` are, at every tick, either not defined
  (`none`: undeclared or holding `undefined`) or bound to an object.  An object
  is observed only through `typeof obj[name] !== "undefined"`, so it is a
  function `String → Bool`.
* Requested names are identifiers.  What `eval(name)` yields in the scope that
  encloses the poller is given by the host (`Host.direct`).
* One run of the inner function `check` is a tick.  A tick yields the events it
  performs, in program order, and what happens next.  `setTimeout(check, d)` is
  an event; the scheduler runs the scheduled tick as the next tick.
* `Date.now()` is an arbitrary reading per tick (`clock k` at tick `k`), and the
  host may change arbitrarily between ticks (`hosts k`).
-/

/-- Terminal states of a wait. -/
inductive Outcome where
  | success
  | timeout
  | exhausted
  deriving DecidableEq, Repr

/-- Console lines, kept structured: the template and the values it prints. -/
inductive LogLine where
  | timeoutWaiting (names : List String)
  | maxRetriesReached (names : List String)
  | nowAvailable (names : List String)
  | waiting (names : List String) (retries : Nat) (maxRetries : Int)
  | text (msg : String)
  deriving DecidableEq, Repr

/-- Observable events of a tick, in program order. -/
inductive Event where
  | probe
  | consoleError (line : LogLine)
  | consoleLog (line : LogLine)
  | callback
  | onTimeout
  | onError
  | setTimeout (delay : Int)
  deriving DecidableEq, Repr

/-- What follows a tick: a terminal state, a scheduled further tick with the
updated retry counter, or an exception that leaves `check`. -/
inductive Next where
  | stop (o : Outcome)
  | again (retries : Nat)
  | raise
  deriving DecidableEq, Repr

/-- Result of one run of `check`. -/
structure Tick where
  events : List Event
  next : Next
  deriving DecidableEq, Repr

/-- How a run of ticks ended; `pending` means the scheduler was stopped (fuel
ran out) while a tick was still scheduled. -/
inductive Final where
  | finished (o : Outcome)
  | raised
  | pending (retries : Nat)
  deriving DecidableEq, Repr

/-- A run: the events of tick 0, tick 1, ... and how the run ended. -/
structure Run where
  ticks : List (List Event)
  final : Final
  deriving DecidableEq, Repr

/-- The event loop: run `check` at tick `k` with retry counter `retries`; when
the tick scheduled a further tick, run it as tick `k + 1`. -/
def drive (check : Nat → Nat → Tick) : Nat → Nat → Nat → Run
  | 0, _, retries => ⟨[], Final.pending retries⟩
  | fuel + 1, k, retries =>
    match (check k retries).next with
    | Next.stop o => ⟨[(check k retries).events], Final.finished o⟩
    | Next.raise => ⟨[(check k retries).events], Final.raised⟩
    | Next.again r =>
      ⟨(check k retries).events :: (drive check fuel (k + 1) r).ticks,
        (drive check fuel (k + 1) r).final⟩

/-- Number of occurrences of an event in a whole run. -/
def Run.count (r : Run) (e : Event) : Nat :=
  (r.ticks.map (fun evs => evs.count e)).sum

/-- Number of existence checks evaluated in a whole run. -/
def Run.probes (r : Run) : Nat := r.count Event.probe

/-- Outcome of evaluating a name by `eval` in the scope enclosing the poller. -/
inductive EvalResult where
  | raises
  | undefinedValue
  | defined
  deriving DecidableEq, Repr

/-- The hosting environment as seen by one tick. -/
structure Host where
  window : Option (String → Bool)
  global : Option (String → Bool)
  direct : String → EvalResult

/-- The options bag: numeric and debug fields may be absent; for the two
failure handlers only whether one is supplied matters. -/
structure Options where
  maxRetries : Option Int
  retryInterval : Option Int
  timeout : Option Int
  debug : Option Bool
  onTimeout : Bool
  onError : Bool
  deriving DecidableEq, Repr

/-- The call `waitFor...(names, callback)` with `options` omitted. -/
def Options.empty : Options := ⟨none, none, none, none, false, false⟩

/-- Merged configuration of JSARAsyncLoader. -/
structure Config where
  maxRetries : Int
  retryInterval : Int
  timeout : Int
  debug : Bool
  deriving DecidableEq, Repr

/-- Events of `if (cond) console.error(line)` and friends. -/
def emitIf (cond : Bool) (e : Event) : List Event := if cond then [e] else []

/-- The test `typeof obj !== "undefined" && typeof obj[name] !== "undefined"`. -/
def definedIn (obj : Option (String → Bool)) (name : String) : Bool :=
  match obj with
  | some o => o name
  | none => false

/-- The test `typeof obj === "undefined" || typeof obj[name] === "undefined"`. -/
def undefinedIn (obj : Option (String → Bool)) (name : String) : Bool :=
  match obj with
  | none => true
  | some o => !(o name)

namespace JSARAsyncLoader

/-- The field `defaultConfig`. -/
def defaultConfig : Config := ⟨100, 20, 10000, true⟩

/-- The merge `Object.assign({}, this.defaultConfig, options)`. -/
def assignConfig (options : Options) : Config :=
  ⟨options.maxRetries.getD defaultConfig.maxRetries,
   options.retryInterval.getD defaultConfig.retryInterval,
   options.timeout.getD defaultConfig.timeout,
   options.debug.getD defaultConfig.debug⟩

/-- The expression `globalExists` of `waitForGlobal` and the predicate passed
to `every` in `waitForMultipleGlobals`.  Inside this file the identifier
`global` is the parameter of the enclosing function expression, bound when the
file is loaded to `window` if that is defined and to the `global` of the host
otherwise; `Host.global` stands for that parameter here. -/
def globalExists (host : Host) (name : String) : Bool :=
  definedIn host.window name || definedIn host.global name

/-- The predicate passed to `filter` to compute `missing`. -/
def isMissing (host : Host) (name : String) : Bool :=
  undefinedIn host.window name && undefinedIn host.global name

/-- The inner function `check` of `waitForGlobal`, run at time `now`. -/
def waitForGlobalCheck (config : Config) (options : Options) (globalName : String)
    (startTime now : Int) (host : Host) (retries : Nat) : Tick :=
  if now - startTime > config.timeout then
    ⟨emitIf config.debug (Event.consoleError (LogLine.timeoutWaiting [globalName]))
      ++ emitIf options.onTimeout Event.onTimeout, Next.stop Outcome.timeout⟩
  else if (retries : Int) ≥ config.maxRetries then
    ⟨emitIf config.debug (Event.consoleError (LogLine.maxRetriesReached [globalName]))
      ++ emitIf options.onError Event.onError, Next.stop Outcome.exhausted⟩
  else if globalExists host globalName then
    ⟨Event.probe :: emitIf config.debug (Event.consoleLog (LogLine.nowAvailable [globalName]))
      ++ [Event.callback], Next.stop Outcome.success⟩
  else
    ⟨Event.probe :: emitIf (config.debug && (retries + 1) % 10 == 0)
        (Event.consoleLog (LogLine.waiting [globalName] (retries + 1) config.maxRetries))
      ++ [Event.setTimeout config.retryInterval], Next.again (retries + 1)⟩

/-- The inner function `check` of `waitForMultipleGlobals`, run at time `now`. -/
def waitForMultipleGlobalsCheck (config : Config) (options : Options)
    (globalNames : List String) (startTime now : Int) (host : Host) (retries : Nat) : Tick :=
  if now - startTime > config.timeout then
    ⟨emitIf config.debug (Event.consoleError (LogLine.timeoutWaiting globalNames))
      ++ emitIf options.onTimeout Event.onTimeout, Next.stop Outcome.timeout⟩
  else if (retries : Int) ≥ config.maxRetries then
    ⟨emitIf config.debug (Event.consoleError (LogLine.maxRetriesReached globalNames))
      ++ emitIf options.onError Event.onError, Next.stop Outcome.exhausted⟩
  else if globalNames.all (globalExists host) then
    ⟨Event.probe :: emitIf config.debug (Event.consoleLog (LogLine.nowAvailable globalNames))
      ++ [Event.callback], Next.stop Outcome.success⟩
  else
    ⟨Event.probe :: emitIf (config.debug && (retries + 1) % 10 == 0)
        (Event.consoleLog
          (LogLine.waiting (globalNames.filter (isMissing host)) (retries + 1) config.maxRetries))
      ++ [Event.setTimeout config.retryInterval], Next.again (retries + 1)⟩

/-- The method `waitForGlobal`: `startTime` is the reading of `Date.now()` at
the call, tick 0 is the call `check()` that ends the method body. -/
def waitForGlobal (globalName : String) (options : Options) (startTime : Int)
    (clock : Nat → Int) (hosts : Nat → Host) (fuel : Nat) : Run :=
  drive (fun k retries =>
    waitForGlobalCheck (assignConfig options) options globalName startTime (clock k) (hosts k)
      retries) fuel 0 0

/-- The method `waitForMultipleGlobals`. -/
def waitForMultipleGlobals (globalNames : List String) (options : Options) (startTime : Int)
    (clock : Nat → Int) (hosts : Nat → Host) (fuel : Nat) : Run :=
  drive (fun k retries =>
    waitForMultipleGlobalsCheck (assignConfig options) options globalNames startTime (clock k)
      (hosts k) retries) fuel 0 0

/-- The method `waitForWebGLTestDependencies`. -/
def waitForWebGLTestDependencies (options : Options) (startTime : Int)
    (clock : Nat → Int) (hosts : Nat → Host) (fuel : Nat) : Run :=
  waitForMultipleGlobals
    ["WebGLTestUtils", "description", "debug", "runBindAttribLocationAliasingTest"]
    options startTime clock hosts fuel

/-- The method `safeExecute`, with `fn` as the success callback. -/
def safeExecute (dependencies : List String) (options : Options) (startTime : Int)
    (clock : Nat → Int) (hosts : Nat → Host) (fuel : Nat) : Run :=
  waitForMultipleGlobals dependencies options startTime clock hosts fuel

end JSARAsyncLoader

namespace WebglAsyncLoader

/-- The idiom `options.field || fallback`: an absent field and the number 0
are falsy and yield the fallback. -/
def orDefault (field : Option Int) (fallback : Int) : Int :=
  match field with
  | some v => if v = 0 then fallback else v
  | none => fallback

/-- Identifiers bound inside the closure of `waitForGlobal` at the point of the
`eval` call; every one of them holds a value other than `undefined` there
(`globalExists` was set to `false`, `callback` is the function to call). -/
def closureLocals : List String :=
  ["globalExists", "arguments", "globalName", "callback", "options", "maxRetries",
   "retryInterval", "timeout", "retries", "startTime", "check"]

/-- The call `eval(globalName)` inside `check`: a direct eval, so the closure
shadows the enclosing scope. -/
def directEval (host : Host) (globalName : String) : EvalResult :=
  if globalName ∈ closureLocals then EvalResult.defined else host.direct globalName

/-- The `try`/`catch` block that computes `globalExists` in `waitForGlobal`:
an exception of `eval` aborts the whole disjunction and the handler stores
`false`. -/
def globalExists (host : Host) (globalName : String) : Bool :=
  match directEval host globalName with
  | EvalResult.raises => false
  | EvalResult.defined => true
  | EvalResult.undefinedValue => definedIn host.window globalName || definedIn host.global globalName

/-- The unguarded test `typeof obj[name] !== "undefined"`; `none` is the
exception raised when `obj` is not defined. -/
def propDefined (obj : Option (String → Bool)) (name : String) : Option Bool :=
  match obj with
  | none => none
  | some o => some (o name)

/-- The predicate passed to `every` in `waitForMultipleGlobals`:
`typeof window[name] !== "undefined" || typeof global[name] !== "undefined"`. -/
def nameAvailable (host : Host) (name : String) : Option Bool :=
  match propDefined host.window name with
  | none => none
  | some true => some true
  | some false => propDefined host.global name

/-- The predicate passed to `filter` in `waitForMultipleGlobals`:
`typeof window[name] === "undefined" && typeof global[name] === "undefined"`. -/
def nameMissing (host : Host) (name : String) : Option Bool :=
  match propDefined host.window name with
  | none => none
  | some true => some false
  | some false =>
    match propDefined host.global name with
    | none => none
    | some b => some (!b)

/-- The method `Array.prototype.every` with a predicate that may raise. -/
def every (p : String → Option Bool) : List String → Option Bool
  | [] => some true
  | n :: ns =>
    match p n with
    | none => none
    | some false => some false
    | some true => every p ns

/-- The method `Array.prototype.filter` with a predicate that may raise. -/
def filter (p : String → Option Bool) : List String → Option (List String)
  | [] => some []
  | n :: ns =>
    match p n with
    | none => none
    | some b =>
      match filter p ns with
      | none => none
      | some rest => some (if b then n :: rest else rest)

/-- The inner function `check` of `waitForGlobal`, run at time `now`. -/
def waitForGlobalCheck (options : Options) (globalName : String)
    (startTime now : Int) (host : Host) (retries : Nat) : Tick :=
  if now - startTime > orDefault options.timeout 5000 then
    ⟨Event.consoleError (LogLine.timeoutWaiting [globalName])
      :: emitIf options.onTimeout Event.onTimeout, Next.stop Outcome.timeout⟩
  else if (retries : Int) ≥ orDefault options.maxRetries 100 then
    ⟨Event.consoleError (LogLine.maxRetriesReached [globalName])
      :: emitIf options.onError Event.onError, Next.stop Outcome.exhausted⟩
  else if globalExists host globalName then
    ⟨[Event.probe, Event.consoleLog (LogLine.nowAvailable [globalName]), Event.callback],
      Next.stop Outcome.success⟩
  else
    ⟨[Event.probe,
      Event.consoleLog
        (LogLine.waiting [globalName] (retries + 1) (orDefault options.maxRetries 100)),
      Event.setTimeout (orDefault options.retryInterval 10)], Next.again (retries + 1)⟩

/-- The inner function `check` of `waitForMultipleGlobals`, run at time `now`. -/
def waitForMultipleGlobalsCheck (options : Options) (globalNames : List String)
    (startTime now : Int) (host : Host) (retries : Nat) : Tick :=
  if now - startTime > orDefault options.timeout 5000 then
    ⟨Event.consoleError (LogLine.timeoutWaiting globalNames)
      :: emitIf options.onTimeout Event.onTimeout, Next.stop Outcome.timeout⟩
  else if (retries : Int) ≥ orDefault options.maxRetries 100 then
    ⟨Event.consoleError (LogLine.maxRetriesReached globalNames)
      :: emitIf options.onError Event.onError, Next.stop Outcome.exhausted⟩
  else
    match every (nameAvailable host) globalNames with
    | none => ⟨[Event.probe], Next.raise⟩
    | some true =>
      ⟨[Event.probe, Event.consoleLog (LogLine.nowAvailable globalNames), Event.callback],
        Next.stop Outcome.success⟩
    | some false =>
      match filter (nameMissing host) globalNames with
      | none => ⟨[Event.probe], Next.raise⟩
      | some missing =>
        ⟨[Event.probe,
          Event.consoleLog
            (LogLine.waiting missing (retries + 1) (orDefault options.maxRetries 100)),
          Event.setTimeout (orDefault options.retryInterval 10)], Next.again (retries + 1)⟩

/-- The function `waitForGlobal`. -/
def waitForGlobal (globalName : String) (options : Options) (startTime : Int)
    (clock : Nat → Int) (hosts : Nat → Host) (fuel : Nat) : Run :=
  drive (fun k retries =>
    waitForGlobalCheck options globalName startTime (clock k) (hosts k) retries) fuel 0 0

/-- The function `waitForMultipleGlobals`. -/
def waitForMultipleGlobals (globalNames : List String) (options : Options) (startTime : Int)
    (clock : Nat → Int) (hosts : Nat → Host) (fuel : Nat) : Run :=
  drive (fun k retries =>
    waitForMultipleGlobalsCheck options globalNames startTime (clock k) (hosts k) retries)
    fuel 0 0

end WebglAsyncLoader

/-! ## Specification vocabulary -/

/-- A name resolves to a value other than `undefined` in the object bound to
an identifier. -/
def ResolvesIn (obj : Option (String → Bool)) (name : String) : Prop :=
  ∃ o, obj = some o ∧ o name = true

/-- A name resolves in `window` or in `global`. -/
def Resolves (host : Host) (name : String) : Prop :=
  ResolvesIn host.window name ∨ ResolvesIn host.global name

/-- Ideal timers: tick `k` runs `k` retry intervals after the start. -/
def idealClock (startTime retryInterval : Int) (k : Nat) : Int :=
  startTime + k * retryInterval

/-- Per-tick counts of an event: entry `k` is how often tick `k` performed it. -/
def Run.perTick (r : Run) (e : Event) : List Nat :=
  r.ticks.map (fun evs => evs.count e)

/-- Counts of the four events that matter for the outcome of a tick:
existence checks, success callbacks, timeout callbacks, exhaustion callbacks. -/
def tally (evs : List Event) : Nat × Nat × Nat × Nat :=
  (evs.count Event.probe, evs.count Event.callback, evs.count Event.onTimeout,
    evs.count Event.onError)

/-- A tick function follows the poller discipline for a clock `elapsed`, the
two budgets, an availability predicate per tick and the two optional failure
handlers. -/
structure PollerTick (check : Nat → Nat → Tick) (elapsed : Nat → Int)
    (timeout maxRetries : Int) (avail : Nat → Bool) (onT onE : Bool) : Prop where
  timedOut : ∀ (k r : Nat), timeout < elapsed k →
    (check k r).next = Next.stop Outcome.timeout ∧
      tally (check k r).events = (0, 0, onT.toNat, 0)
  exhausted : ∀ (k r : Nat), elapsed k ≤ timeout → maxRetries ≤ (r : Int) →
    (check k r).next = Next.stop Outcome.exhausted ∧
      tally (check k r).events = (0, 0, 0, onE.toNat)
  found : ∀ (k r : Nat), elapsed k ≤ timeout → (r : Int) < maxRetries → avail k = true →
    (check k r).next = Next.stop Outcome.success ∧
      tally (check k r).events = (1, 1, 0, 0)
  retry : ∀ (k r : Nat), elapsed k ≤ timeout → (r : Int) < maxRetries → avail k = false →
    (check k r).next = Next.again (r + 1) ∧
      tally (check k r).events = (1, 0, 0, 0)

/-- The run ended in the terminal state `o`, and over the whole run the
callback of `o` was invoked once (a failure handler only when one is supplied)
and the other two callbacks were not invoked at all. -/
def Run.EndsWith (r : Run) (options : Options) (o : Outcome) : Prop :=
  r.final = Final.finished o ∧
  r.count Event.callback = (if o = Outcome.success then 1 else 0) ∧
  r.count Event.onTimeout = (if o = Outcome.timeout ∧ options.onTimeout = true then 1 else 0) ∧
  r.count Event.onError = (if o = Outcome.exhausted ∧ options.onError = true then 1 else 0)

/-! ## Example hosts -/

/-- A host in which neither `window` nor `global` is defined and no name can
be evaluated. -/
def Example.bareHost : Host := ⟨none, none, fun _ => EvalResult.raises⟩

/-- A browser-like host: `window` is an object holding exactly the listed
names, `global` is not declared, and the listed names are not identifiers of
the scope that encloses the poller. -/
def Example.windowHost (names : List String) : Host :=
  ⟨some (fun n => names.contains n), none, fun _ => EvalResult.raises⟩

/-- A Node-like host: `global` is an object holding exactly the listed names
and `window` is not declared. -/
def Example.nodeHost (names : List String) : Host :=
  ⟨none, some (fun n => names.contains n), fun _ => EvalResult.raises⟩

/-- Hosts over time: bare before tick `k`, then a browser-like host with the
listed names. -/
def Example.hostsFrom (k : Nat) (names : List String) (i : Nat) : Host :=
  if i < k then Example.bareHost else Example.windowHost names

/-- A host such as the JSAR runtime, in which `window` and `global` are both
objects; `window` holds the names of the first list, `global` those of the
second. -/
def Example.dualHost (inWindow inGlobal : List String) : Host :=
  ⟨some (fun n => inWindow.contains n), some (fun n => inGlobal.contains n),
    fun _ => EvalResult.raises⟩

/-! ## The call itself, and two waits in one event loop -/

/-- Console output events. -/
def Event.isLog : Event → Bool
  | Event.consoleError _ => true
  | Event.consoleLog _ => true
  | _ => false

/-- Timer events, the calls `setTimeout(check, delay)`. -/
def Event.isTimer : Event → Bool
  | Event.setTimeout _ => true
  | _ => false

/-- What `JSARAsyncLoader.waitForGlobal` does before it returns: the method
body merges the configuration, sets `retries = 0`, reads `startTime` and ends
with the statement `check();`, so the first run of `check` happens inside the
call, with `now` the reading of `Date.now()` in that run. -/
def JSARAsyncLoader.waitForGlobalCall (globalName : String) (options : Options)
    (startTime now : Int) (host : Host) : Tick :=
  JSARAsyncLoader.waitForGlobalCheck (JSARAsyncLoader.assignConfig options) options globalName
    startTime now host 0

/-- What `JSARAsyncLoader.waitForMultipleGlobals` does before it returns. -/
def JSARAsyncLoader.waitForMultipleGlobalsCall (globalNames : List String) (options : Options)
    (startTime now : Int) (host : Host) : Tick :=
  JSARAsyncLoader.waitForMultipleGlobalsCheck (JSARAsyncLoader.assignConfig options) options
    globalNames startTime now host 0

/-- What `waitForGlobal` of webgl-async-loader.js does before it returns; its
body also ends with `check();`. -/
def WebglAsyncLoader.waitForGlobalCall (globalName : String) (options : Options)
    (startTime now : Int) (host : Host) : Tick :=
  WebglAsyncLoader.waitForGlobalCheck options globalName startTime now host 0

/-- The event loop over an explicit list of observations: entry `k` is the
reading of `Date.now()` and the host seen by tick `k`. -/
def runObs (check : Int → Host → Nat → Tick) : List (Int × Host) → Nat → Run
  | [], retries => ⟨[], Final.pending retries⟩
  | (now, host) :: rest, retries =>
    match (check now host retries).next with
    | Next.stop o => ⟨[(check now host retries).events], Final.finished o⟩
    | Next.raise => ⟨[(check now host retries).events], Final.raised⟩
    | Next.again r =>
      ⟨(check now host retries).events :: (runObs check rest r).ticks,
        (runObs check rest r).final⟩

/-- Whose timer fires when two waits are in flight. -/
inductive Turn where
  | first
  | second
  deriving DecidableEq, Repr

/-- The observations a schedule gives to the ticks of one of the two waits. -/
def observedBy (who : Turn) : List (Turn × Int × Host) → List (Int × Host)
  | [] => []
  | (t, now, host) :: rest =>
    if t = who then (now, host) :: observedBy who rest else observedBy who rest

/-- A wait that was just called: no tick yet, `retries = 0`. -/
def Run.fresh : Run := ⟨[], Final.pending 0⟩

/-- The clock given by a list of observations. -/
def obsClock (obs : List (Int × Host)) (k : Nat) : Int :=
  (obs.getD k (0, Example.bareHost)).1

/-- The hosts given by a list of observations. -/
def obsHosts (obs : List (Int × Host)) (k : Nat) : Host :=
  (obs.getD k (0, Example.bareHost)).2

/-- The events of a tick that does not end the wait: no callback is invoked
and exactly one further tick is scheduled, after `delay`. -/
def RetryEvents (evs : List Event) (delay : Int) : Prop :=
  evs.count Event.callback = 0 ∧ evs.count Event.onTimeout = 0 ∧ evs.count Event.onError = 0 ∧
  evs.filter Event.isTimer = [Event.setTimeout delay]

/-- The events of a tick that ends the wait in the terminal state `o`: no
further tick is scheduled, the callback of `o` is invoked once (a failure
handler only when one is supplied) and the other two callbacks are not. -/
def TerminalEvents (evs : List Event) (options : Options) (o : Outcome) : Prop :=
  evs.filter Event.isTimer = [] ∧
  evs.count Event.callback = (if o = Outcome.success then 1 else 0) ∧
  evs.count Event.onTimeout = (if o = Outcome.timeout ∧ options.onTimeout = true then 1 else 0) ∧
  evs.count Event.onError = (if o = Outcome.exhausted ∧ options.onError = true then 1 else 0)

/-! ## The HTML fixer of fix-async-scripts.js

JavaScript strings are modelled as lists of characters.  All patterns of the
fixer are ASCII.  Indexes count characters where JavaScript counts UTF-16 code
units; the two agree on text without characters outside the Basic Multilingual
Plane, and only where an index taken in one text is applied to another can a
character outside it move a splice. -/

namespace FixAsyncScripts

/-- The field `config.webglDependencies`. -/
def webglDependencies : List (List Char) :=
  ["WebGLTestUtils".toList, "description".toList, "debug".toList,
   "runBindAttribLocationAliasingTest".toList, "wtu".toList, "testPassed".toList,
   "testFailed".toList]

/-- The field `config.loaderPath`. -/
def loaderPath : List Char := "../jsar-async-script-loader.js".toList

/-- The method `String.prototype.includes`. -/
def includes : List Char → List Char → Bool
  | [], pat => pat.isEmpty
  | c :: cs, pat => pat.isPrefixOf (c :: cs) || includes cs pat

/-- The function `needsFix`. -/
def needsFix (content : List Char) : Bool :=
  if includes content "jsar-async-script-loader.js".toList
      || includes content "JSARAsyncLoader".toList then
    false
  else
    includes content "<script src=".toList &&
      webglDependencies.any (fun dep => includes content dep && !includes content "waitFor".toList)

/-- A literal of a regular expression with the flag `i`, matched at the start
of the input; the literal is given in lower case.  For ASCII literals the flag
folds ASCII letters only. -/
def startsWithCI : List Char → List Char → Bool
  | [], _ => true
  | _ :: _, [] => false
  | p :: ps, c :: cs => c.toLower == p && startsWithCI ps cs

/-- The pattern `[^>]*>` matched at the start of the input: the matched text. -/
def matchToGt : List Char → Option (List Char)
  | [] => none
  | c :: cs =>
    if c = '>' then some [c]
    else
      match matchToGt cs with
      | some t => some (c :: t)
      | none => none

/-- The regular expression `/<head[^>]*>/i` matched at the start of the input. -/
def matchHeadAt (s : List Char) : Option (List Char) :=
  if startsWithCI "<head".toList s then
    match matchToGt (s.drop 5) with
    | some t => some (s.take 5 ++ t)
    | none => none
  else none

/-- The call `fixed.match(/<head[^>]*>/i)`: the text of the first match. -/
def findHead : List Char → Option (List Char)
  | [] => none
  | c :: cs =>
    match matchHeadAt (c :: cs) with
    | some m => some m
    | none => findHead cs

/-- The replacement text of `String.prototype.replace` with a string pattern,
read from left to right; the flag says that the previous character was a
dollar sign still to be interpreted.  `$$`, `$&`, the dollar sign followed by
a grave accent and the dollar sign followed by an apostrophe are substitution
patterns; there are no captures, so every other dollar sign stands for
itself. -/
def getSubstitution (matched before after : List Char) : Bool → List Char → List Char
  | false, [] => []
  | true, [] => ['$']
  | false, c :: tl =>
    if c = '$' then getSubstitution matched before after true tl
    else c :: getSubstitution matched before after false tl
  | true, d :: tl =>
    if d = '$' then '$' :: getSubstitution matched before after false tl
    else if d = '&' then matched ++ getSubstitution matched before after false tl
    else if d = Char.ofNat 96 then before ++ getSubstitution matched before after false tl
    else if d = Char.ofNat 39 then after ++ getSubstitution matched before after false tl
    else '$' :: d :: getSubstitution matched before after false tl

/-- The text before and the text after the first occurrence of a pattern. -/
def splitAtFirst (pat : List Char) : List Char → Option (List Char × List Char)
  | [] => if pat.isEmpty then some ([], []) else none
  | c :: cs =>
    if pat.isPrefixOf (c :: cs) then some ([], (c :: cs).drop pat.length)
    else
      match splitAtFirst pat cs with
      | some (before, after) => some (c :: before, after)
      | none => none

/-- The method `String.prototype.replace` with a string pattern: only the first
occurrence is replaced. -/
def replaceFirst (s pat replacement : List Char) : List Char :=
  match splitAtFirst pat s with
  | none => s
  | some (before, after) => before ++ getSubstitution pat before after false replacement ++ after

/-- The template `loaderScript`. -/
def loaderScript : List Char :=
  "\n<!-- JSAR异步脚本加载器 -->\n<script src=\"".toList ++ loaderPath ++ "\"></script>".toList

/-- Step 1 of `fixHtmlContent`: the loader tag is put after the first head
tag, when there is one. -/
def insertLoader (content : List Char) : List Char :=
  match findHead content with
  | some head => replaceFirst content head (head ++ loaderScript)
  | none => content

/-- The negative lookahead body `[^>]*src=` matched at the start of the input. -/
def lookaheadSrc : List Char → Bool
  | [] => false
  | c :: cs => startsWithCI "src=".toList (c :: cs) || (c != '>' && lookaheadSrc cs)

/-- The pattern `([\s\S]*?)<\/script>` matched at the start of the input: the
text of the group, the shortest text followed by the closing tag. -/
def lazyToClose : List Char → Option (List Char)
  | [] => none
  | c :: cs =>
    if startsWithCI "</script>".toList (c :: cs) then some []
    else
      match lazyToClose cs with
      | some t => some (c :: t)
      | none => none

/-- The regular expression `scriptRegex` matched at the start of the input:
the whole match and the group. -/
def matchScriptAt (s : List Char) : Option (List Char × List Char) :=
  if startsWithCI "<script".toList s then
    if lookaheadSrc (s.drop 7) then none
    else
      match matchToGt (s.drop 7) with
      | none => none
      | some tag =>
        match lazyToClose (s.drop (7 + tag.length)) with
        | none => none
        | some body => some (s.take (7 + tag.length + body.length + 9), body)
  else none

/-- One result of `scriptRegex.exec(content)`. -/
structure ScriptMatch where
  index : Nat
  fullMatch : List Char
  body : List Char
  deriving DecidableEq, Repr

/-- The loop `while ((match = scriptRegex.exec(content)) !== null)`: `i` is
the position of the input in `content`, `skip` the number of characters left
before `lastIndex`. -/
def scanScripts : List Char → Nat → Nat → List ScriptMatch
  | [], _, _ => []
  | _ :: cs, i, skip + 1 => scanScripts cs (i + 1) skip
  | c :: cs, i, 0 =>
    match matchScriptAt (c :: cs) with
    | some (full, body) => ⟨i, full, body⟩ :: scanScripts cs (i + 1) (full.length - 1)
    | none => scanScripts cs (i + 1) 0

/-- White space and line terminators of JavaScript, the characters removed by
`trim` and matched by `\s`. -/
def isWhite (c : Char) : Bool :=
  c.toNat == 9 || c.toNat == 10 || c.toNat == 11 || c.toNat == 12 || c.toNat == 13 ||
  c.toNat == 32 || c.toNat == 160 || c.toNat == 5760 ||
  (8192 ≤ c.toNat && c.toNat ≤ 8202) || c.toNat == 8232 || c.toNat == 8233 ||
  c.toNat == 8239 || c.toNat == 8287 || c.toNat == 12288 || c.toNat == 65279

/-- The method `String.prototype.trim`. -/
def trim (s : List Char) : List Char :=
  ((s.dropWhile isWhite).reverse.dropWhile isWhite).reverse

/-- An entry of the array `scripts`. -/
structure Script where
  fullMatch : List Char
  content : List Char
  index : Nat
  deriving DecidableEq, Repr

/-- The body of the loop over `scriptMatches`: empty scripts and scripts that
mention the loader are skipped, scripts that mention a dependency are kept. -/
def selectScript (m : ScriptMatch) : Option Script :=
  if (trim m.body).isEmpty || includes (trim m.body) "JSARAsyncLoader".toList then none
  else if webglDependencies.any (fun dep => includes (trim m.body) dep) then
    some ⟨m.fullMatch, trim m.body, m.index⟩
  else none

/-- The array `scripts` after the loop. -/
def selectScripts (content : List Char) : List Script :=
  (scanScripts content 0 0).filterMap selectScript

/-- The call `script.content.replace(/^"use strict";\s*/, "")`. -/
def stripUseStrict (s : List Char) : List Char :=
  if "\"use strict\";".toList.isPrefixOf s then (s.drop 13).dropWhile isWhite else s

/-- The template `wrappedScript` up to the original test code. -/
def wrapHead : List Char :=
  "<script>\n".toList ++
  "\"use strict\";\n".toList ++
  "\n".toList ++
  "// 使用JSAR异步加载器等待所有依赖就绪\n".toList ++
  "JSARAsyncLoader.waitForWebGLTestDependencies(function() \x7b\n".toList ++
  "  console.log(\x27[JSAR] All WebGL test dependencies are ready, starting test...\x27);\n".toList ++
  "  \n".toList ++
  "  // 原始测试代码\n".toList ++
  "  ".toList

/-- The template `wrappedScript` after the original test code. -/
def wrapTail : List Char :=
  "\n".toList ++
  "  \n".toList ++
  "  console.log(\x27[JSAR] Test completed\x27);\n".toList ++
  "\x7d, \x7b\n".toList ++
  "  timeout: 15000,\n".toList ++
  "  debug: true,\n".toList ++
  "  onTimeout: function() \x7b\n".toList ++
  "    console.error(\x27[JSAR] Timeout: Required WebGL test dependencies not available\x27);\n".toList ++
  "    JSARAsyncLoader.debugGlobals();\n".toList ++
  "  \x7d,\n".toList ++
  "  onError: function() \x7b\n".toList ++
  "    console.error(\x27[JSAR] Error: Failed to load WebGL test dependencies\x27);\n".toList ++
  "    JSARAsyncLoader.debugGlobals();\n".toList ++
  "  \x7d\n".toList ++
  "\x7d);\n".toList ++
  "</script>".toList

/-- The template `wrappedScript`. -/
def wrappedScript (script : Script) : List Char :=
  wrapHead ++ stripUseStrict script.content ++ wrapTail

/-- The body of `scripts.reverse().forEach`: the text of `fixed` from
`script.index` on, as long as the match, is replaced by the wrapper. -/
def splice (fixed : List Char) (script : Script) : List Char :=
  fixed.take script.index ++ wrappedScript script
    ++ fixed.drop (script.index + script.fullMatch.length)

/-- The function `fixHtmlContent`: the scripts are collected from `content`,
the wrappers are spliced into `fixed`, which already holds the loader tag. -/
def fixHtmlContent (content : List Char) : List Char :=
  (selectScripts content).reverse.foldl splice (insertLoader content)

/-- The in-place rewrite, stated on its own: `result` is `text` (which starts at
position `off` of the document) with every listed script replaced, at the
position given by its index, by its wrapper; the text between the scripts and
around them is kept. -/
inductive RewrittenInPlace : Nat → List Script → List Char → List Char → Prop where
  | done (off : Nat) (text : List Char) : RewrittenInPlace off [] text text
  | step (off : Nat) (s : Script) (ss : List Script) (gap rest result : List Char) :
      s.index = off + gap.length →
      RewrittenInPlace (s.index + s.fullMatch.length) ss rest result →
      RewrittenInPlace off (s :: ss) (gap ++ s.fullMatch ++ rest)
        (gap ++ wrappedScript s ++ result)

end FixAsyncScripts

/-! ## Further vocabulary of the pollers -/

/-- The waiting lines of the pollers, such as `Waiting... Missing: ...` of
`JSARAsyncLoader.waitForMultipleGlobals`. -/
def Event.isWaiting : Event → Bool
  | Event.consoleLog (LogLine.waiting _ _ _) => true
  | _ => false

/-- Number of waiting lines emitted in a whole run. -/
def Run.waitingLines (r : Run) : Nat :=
  (r.ticks.map (fun evs => evs.countP Event.isWaiting)).sum

/-- The events of a tick other than console lines: the existence check, the
callbacks and the timers, in program order. -/
def silent (evs : List Event) : List Event := evs.filter (fun e => !e.isLog)

/-- The array `webglGlobals` of `waitForWebGLTestGlobals`. -/
def WebglAsyncLoader.webglGlobals : List String :=
  ["WebGLTestUtils", "description", "debug", "runBindAttribLocationAliasingTest"]

/-- The object `enhancedOptions` of `waitForWebGLTestGlobals`: the three
numbers fall back to 300, 50 and 15000, and both failure handlers are always
present, the supplied one or a default that only logs. -/
def WebglAsyncLoader.enhancedOptions (options : Options) : Options :=
  ⟨some (WebglAsyncLoader.orDefault options.maxRetries 300),
   some (WebglAsyncLoader.orDefault options.retryInterval 50),
   some (WebglAsyncLoader.orDefault options.timeout 15000),
   none, true, true⟩

/-- The line logged by `waitForWebGLTestGlobals` before it starts the wait; it
is put in front of the events of tick 0, which runs inside the same call. -/
def WebglAsyncLoader.withStartLine : List (List Event) → List (List Event)
  | [] => []
  | t :: ts =>
    (Event.consoleLog (LogLine.text "🔄 Starting to wait for WebGL test globals...") :: t) :: ts

/-- The function `waitForWebGLTestGlobals`.  In its runs `Event.callback` is
the call of the function it passes on as callback (which logs and then calls
the callback of the caller), and `Event.onTimeout` / `Event.onError` are the
calls of the handlers of `enhancedOptions`. -/
def WebglAsyncLoader.waitForWebGLTestGlobals (options : Options) (startTime : Int)
    (clock : Nat → Int) (hosts : Nat → Host) (fuel : Nat) : Run :=
  ⟨WebglAsyncLoader.withStartLine
      (WebglAsyncLoader.waitForMultipleGlobals WebglAsyncLoader.webglGlobals
        (WebglAsyncLoader.enhancedOptions options) startTime clock hosts fuel).ticks,
    (WebglAsyncLoader.waitForMultipleGlobals WebglAsyncLoader.webglGlobals
      (WebglAsyncLoader.enhancedOptions options) startTime clock hosts fuel).final⟩

/-! ## The test list of test_runner.js

`getTestList` reads the file `00_test_list.txt` and turns its text into the
list of test pages.  The text read is the argument here; strings are lists of
characters, as for the HTML fixer. -/

namespace TestRunner

/-- The call `content.split('\n')`: the pieces between line feeds, one more
than there are line feeds. -/
def split : List Char → List (List Char)
  | [] => [[]]
  | c :: cs =>
    if c = Char.ofNat 10 then [] :: split cs
    else
      match split cs with
      | [] => [[c]]
      | l :: ls => (c :: l) :: ls

/-- The method `String.prototype.startsWith`. -/
def startsWith (s literal : List Char) : Bool := literal.isPrefixOf s

/-- The method `String.prototype.endsWith`. -/
def endsWith (s literal : List Char) : Bool := literal.isSuffixOf s

/-- The predicate of the first `filter`: `line.trim() && !line.startsWith('--')`;
a string is truthy when it is not empty. -/
def keepsLine (line : List Char) : Bool :=
  !(FixAsyncScripts.trim line).isEmpty && !startsWith line "--".toList

/-- Matches a literal at the start of a string and returns the rest. -/
def matchLiteral : List Char → List Char → Option (List Char)
  | [], s => some s
  | _ :: _, [] => none
  | a :: as, c :: cs => if a = c then matchLiteral as cs else none

/-- The character class `[0-9.]`. -/
def isVersionChar (c : Char) : Bool := (48 ≤ c.toNat && c.toNat ≤ 57) || c = '.'

/-- The call `line.replace(/^--min-version [0-9.]+ /, '')`: when the line starts
with the literal, followed by one or more characters of the class and then a
space, that start is removed; the space is not in the class, so the greedy run
of the class is the only candidate. -/
def stripMinVersion (line : List Char) : List Char :=
  match matchLiteral "--min-version ".toList line with
  | none => line
  | some rest =>
    match rest.takeWhile isVersionChar, rest.dropWhile isVersionChar with
    | _ :: _, sp :: after => if sp = ' ' then after else line
    | _, _ => line

/-- The function `getTestList`, as a function of the text of the list file. -/
def getTestList (content : List Char) : List (List Char) :=
  (((split content).filter keepsLine).map
    (fun line => FixAsyncScripts.trim (stripMinVersion line))).filter
    (fun line => endsWith line ".html".toList)

/-- The text whose lines are the given pieces: the pieces with one line feed
between each two of them, so that `"a\nb"` is the text of the lines `a` and
`b`, and a text that ends with a line feed has an empty last line. -/
def joinLines : List (List Char) → List Char
  | [] => []
  | [l] => l
  | l :: m :: rest => l ++ Char.ofNat 10 :: joinLines (m :: rest)

/-- The list that the description of `getTestList` states for a file with the
given lines: the trimmed forms of the non-blank lines not beginning with `--`
whose trimmed form ends with `.html`, in input order. -/
def expectedTestList (lines : List (List Char)) : List (List Char) :=
  (lines.filter (fun line =>
    decide (FixAsyncScripts.trim line ≠ []) && !startsWith line "--".toList &&
      endsWith (FixAsyncScripts.trim line) ".html".toList)).map FixAsyncScripts.trim

end TestRunner

/-! ## The matrix helpers of webgl-render-to-texture-fixed.js

A matrix is an array of sixteen numbers; entry `r * 4 + c` is named `mrc` as in
the source.  Numbers are the elements of a field, so that the arithmetic is
exact. -/

/-- An array of sixteen numbers, read as `m[r * 4 + c]`. -/
@[ext]
structure Mat4 (K : Type) where
  m00 : K
  m01 : K
  m02 : K
  m03 : K
  m10 : K
  m11 : K
  m12 : K
  m13 : K
  m20 : K
  m21 : K
  m22 : K
  m23 : K
  m30 : K
  m31 : K
  m32 : K
  m33 : K

namespace m4

/-- The 4x4 identity matrix as an array of sixteen numbers. -/
def identity {K : Type} [Field K] : Mat4 K :=
  ⟨1, 0, 0, 0,
   0, 1, 0, 0,
   0, 0, 1, 0,
   0, 0, 0, 1⟩

/-- The denominator `m00 * t0 + m10 * t1 + m20 * t2 + m30 * t3` of `inverse`,
with the locals `tmp_0` .. `tmp_11` and `t0` .. `t3` of that function. -/
def denominator {K : Type} [Field K] (m : Mat4 K) : K :=
  let m00 := m.m00; let m01 := m.m01; let m02 := m.m02; let m03 := m.m03
  let m10 := m.m10; let m11 := m.m11; let m12 := m.m12; let m13 := m.m13
  let m20 := m.m20; let m21 := m.m21; let m22 := m.m22; let m23 := m.m23
  let m30 := m.m30; let m31 := m.m31; let m32 := m.m32; let m33 := m.m33
  let tmp_0 := m22 * m33; let tmp_1 := m32 * m23; let tmp_2 := m12 * m33
  let tmp_3 := m32 * m13; let tmp_4 := m12 * m23; let tmp_5 := m22 * m13
  let tmp_6 := m02 * m33; let tmp_7 := m32 * m03; let tmp_8 := m02 * m23
  let tmp_9 := m22 * m03; let tmp_10 := m02 * m13; let tmp_11 := m12 * m03
  let t0 := (tmp_0 * m11 + tmp_3 * m21 + tmp_4 * m31) - (tmp_1 * m11 + tmp_2 * m21 + tmp_5 * m31)
  let t1 := (tmp_1 * m01 + tmp_6 * m21 + tmp_9 * m31) - (tmp_0 * m01 + tmp_7 * m21 + tmp_8 * m31)
  let t2 := (tmp_2 * m01 + tmp_7 * m11 + tmp_10 * m31) - (tmp_3 * m01 + tmp_6 * m11 + tmp_11 * m31)
  let t3 := (tmp_5 * m01 + tmp_8 * m11 + tmp_11 * m21) - (tmp_4 * m01 + tmp_9 * m11 + tmp_10 * m21)
  m00 * t0 + m10 * t1 + m20 * t2 + m30 * t3

/-- The function `m4.inverse`. -/
def inverse {K : Type} [Field K] (m : Mat4 K) : Mat4 K :=
  let m00 := m.m00; let m01 := m.m01; let m02 := m.m02; let m03 := m.m03
  let m10 := m.m10; let m11 := m.m11; let m12 := m.m12; let m13 := m.m13
  let m20 := m.m20; let m21 := m.m21; let m22 := m.m22; let m23 := m.m23
  let m30 := m.m30; let m31 := m.m31; let m32 := m.m32; let m33 := m.m33
  let tmp_0 := m22 * m33; let tmp_1 := m32 * m23; let tmp_2 := m12 * m33
  let tmp_3 := m32 * m13; let tmp_4 := m12 * m23; let tmp_5 := m22 * m13
  let tmp_6 := m02 * m33; let tmp_7 := m32 * m03; let tmp_8 := m02 * m23
  let tmp_9 := m22 * m03; let tmp_10 := m02 * m13; let tmp_11 := m12 * m03
  let tmp_12 := m20 * m31; let tmp_13 := m30 * m21; let tmp_14 := m10 * m31
  let tmp_15 := m30 * m11; let tmp_16 := m10 * m21; let tmp_17 := m20 * m11
  let tmp_18 := m00 * m31; let tmp_19 := m30 * m01; let tmp_20 := m00 * m21
  let tmp_21 := m20 * m01; let tmp_22 := m00 * m11; let tmp_23 := m10 * m01
  let t0 := (tmp_0 * m11 + tmp_3 * m21 + tmp_4 * m31) - (tmp_1 * m11 + tmp_2 * m21 + tmp_5 * m31)
  let t1 := (tmp_1 * m01 + tmp_6 * m21 + tmp_9 * m31) - (tmp_0 * m01 + tmp_7 * m21 + tmp_8 * m31)
  let t2 := (tmp_2 * m01 + tmp_7 * m11 + tmp_10 * m31) - (tmp_3 * m01 + tmp_6 * m11 + tmp_11 * m31)
  let t3 := (tmp_5 * m01 + tmp_8 * m11 + tmp_11 * m21) - (tmp_4 * m01 + tmp_9 * m11 + tmp_10 * m21)
  let d := 1 / (m00 * t0 + m10 * t1 + m20 * t2 + m30 * t3)
  ⟨d * t0, d * t1, d * t2, d * t3,
   d * ((tmp_1 * m10 + tmp_2 * m20 + tmp_5 * m30) - (tmp_0 * m10 + tmp_3 * m20 + tmp_4 * m30)),
   d * ((tmp_0 * m00 + tmp_7 * m20 + tmp_8 * m30) - (tmp_1 * m00 + tmp_6 * m20 + tmp_9 * m30)),
   d * ((tmp_3 * m00 + tmp_6 * m10 + tmp_11 * m30) - (tmp_2 * m00 + tmp_7 * m10 + tmp_10 * m30)),
   d * ((tmp_4 * m00 + tmp_9 * m10 + tmp_10 * m20) - (tmp_5 * m00 + tmp_8 * m10 + tmp_11 * m20)),
   d * ((tmp_12 * m13 + tmp_15 * m23 + tmp_16 * m33) - (tmp_13 * m13 + tmp_14 * m23 + tmp_17 * m33)),
   d * ((tmp_13 * m03 + tmp_18 * m23 + tmp_21 * m33) - (tmp_12 * m03 + tmp_19 * m23 + tmp_20 * m33)),
   d * ((tmp_14 * m03 + tmp_19 * m13 + tmp_22 * m33) - (tmp_15 * m03 + tmp_18 * m13 + tmp_23 * m33)),
   d * ((tmp_17 * m03 + tmp_20 * m13 + tmp_23 * m23) - (tmp_16 * m03 + tmp_21 * m13 + tmp_22 * m23)),
   d * ((tmp_14 * m22 + tmp_17 * m32 + tmp_13 * m12) - (tmp_16 * m32 + tmp_12 * m12 + tmp_15 * m22)),
   d * ((tmp_20 * m32 + tmp_12 * m02 + tmp_19 * m22) - (tmp_18 * m22 + tmp_21 * m32 + tmp_13 * m02)),
   d * ((tmp_18 * m12 + tmp_23 * m32 + tmp_15 * m02) - (tmp_22 * m32 + tmp_14 * m02 + tmp_19 * m12)),
   d * ((tmp_22 * m22 + tmp_16 * m02 + tmp_21 * m12) - (tmp_20 * m12 + tmp_23 * m22 + tmp_17 * m02))⟩

/-- The function `m4.multiply`. -/
def multiply {K : Type} [Field K] (a b : Mat4 K) : Mat4 K :=
  let a00 := a.m00; let a01 := a.m01; let a02 := a.m02; let a03 := a.m03
  let a10 := a.m10; let a11 := a.m11; let a12 := a.m12; let a13 := a.m13
  let a20 := a.m20; let a21 := a.m21; let a22 := a.m22; let a23 := a.m23
  let a30 := a.m30; let a31 := a.m31; let a32 := a.m32; let a33 := a.m33
  let b00 := b.m00; let b01 := b.m01; let b02 := b.m02; let b03 := b.m03
  let b10 := b.m10; let b11 := b.m11; let b12 := b.m12; let b13 := b.m13
  let b20 := b.m20; let b21 := b.m21; let b22 := b.m22; let b23 := b.m23
  let b30 := b.m30; let b31 := b.m31; let b32 := b.m32; let b33 := b.m33
  ⟨b00 * a00 + b01 * a10 + b02 * a20 + b03 * a30,
   b00 * a01 + b01 * a11 + b02 * a21 + b03 * a31,
   b00 * a02 + b01 * a12 + b02 * a22 + b03 * a32,
   b00 * a03 + b01 * a13 + b02 * a23 + b03 * a33,
   b10 * a00 + b11 * a10 + b12 * a20 + b13 * a30,
   b10 * a01 + b11 * a11 + b12 * a21 + b13 * a31,
   b10 * a02 + b11 * a12 + b12 * a22 + b13 * a32,
   b10 * a03 + b11 * a13 + b12 * a23 + b13 * a33,
   b20 * a00 + b21 * a10 + b22 * a20 + b23 * a30,
   b20 * a01 + b21 * a11 + b22 * a21 + b23 * a31,
   b20 * a02 + b21 * a12 + b22 * a22 + b23 * a32,
   b20 * a03 + b21 * a13 + b22 * a23 + b23 * a33,
   b30 * a00 + b31 * a10 + b32 * a20 + b33 * a30,
   b30 * a01 + b31 * a11 + b32 * a21 + b33 * a31,
   b30 * a02 + b31 * a12 + b32 * a22 + b33 * a32,
   b30 * a03 + b31 * a13 + b32 * a23 + b33 * a33⟩

end m4

/-- A lower triangular matrix with denominator 8. -/
def Example.triangular : Mat4 ℚ := ⟨2, 0, 0, 0, 1, 1, 0, 0, 0, 3, 1, 0, 5, 0, 7, 4⟩

/-! ## The HTML fixer of fix-webgl-async.js

`fixHtmlFile` reads a file, decides with `needsFix` whether to touch it, puts
the loader tag after the head tag, wraps one inline script and writes the file
back.  The text read and the relative path of the loader are the arguments
here, the text written is the result. -/

namespace FixWebglAsync

/-- The constant `WEBGL_DEPENDENCIES`. -/
def WEBGL_DEPENDENCIES : List (List Char) :=
  ["WebGLTestUtils".toList, "description".toList, "debug".toList,
   "runBindAttribLocationAliasingTest".toList, "wtu".toList, "testPassed".toList,
   "testFailed".toList]

/-- The function `needsFix`. -/
def needsFix (content : List Char) : Bool :=
  if FixAsyncScripts.includes content "JSARAsyncLoader".toList
      || FixAsyncScripts.includes content "jsar-async-script-loader.js".toList then
    false
  else
    WEBGL_DEPENDENCIES.any (fun dep => FixAsyncScripts.includes content dep) &&
      (FixAsyncScripts.includes content "<script src=".toList &&
        FixAsyncScripts.includes content "</script>".toList)

/-- The first match of `/<head>/i`: the text before it, the match, the text
after it. -/
def findHeadTag : List Char → Option (List Char × List Char × List Char)
  | [] => none
  | c :: cs =>
    if FixAsyncScripts.startsWithCI "<head>".toList (c :: cs) then
      some ([], (c :: cs).take 6, (c :: cs).drop 6)
    else
      match findHeadTag cs with
      | some (before, m, after) => some (c :: before, m, after)
      | none => none

/-- The replacement text of step 1, a template with the relative path of the
loader in it. -/
def loaderTag (relativePath : List Char) : List Char :=
  "<head>\n<!-- JSAR异步脚本加载器 -->\n<script src=\"".toList ++ relativePath
    ++ "\"></script>".toList

/-- Step 1 of `fixHtmlFile`: `content.replace(/<head>/i, ...)` unless the
content names the loader file already; the replacement text is read for
substitution patterns as `replace` does. -/
def insertLoader (relativePath content : List Char) : List Char :=
  if FixAsyncScripts.includes content "jsar-async-script-loader.js".toList then content
  else
    match findHeadTag content with
    | none => content
    | some (before, m, after) =>
      before ++ FixAsyncScripts.getSubstitution m before after false (loaderTag relativePath)
        ++ after

/-- The pattern `\s*<\/script>` matched at the start of the input: the length
of the match. -/
def closeAfterWhite (s : List Char) : Option Nat :=
  if "</script>".toList.isPrefixOf (s.dropWhile FixAsyncScripts.isWhite) then
    some ((s.takeWhile FixAsyncScripts.isWhite).length + 9)
  else none

/-- The pattern `([\s\S]*?)\s*<\/script>` matched at the start of the input: the
group, the shortest text after which white space and the closing tag follow,
and the length of the match. -/
def lazyBody : List Char → Option (List Char × Nat)
  | [] => none
  | c :: cs =>
    match closeAfterWhite (c :: cs) with
    | some n => some ([], n)
    | none =>
      match lazyBody cs with
      | some (body, n) => some (c :: body, n + 1)
      | none => none

/-- The regular expression `scriptPattern` matched at the start of the input:
the whole match and the group.  The white space after the opening tag is taken
greedily; giving some of it back would not bring a closing tag into reach. -/
def matchScriptAt (s : List Char) : Option (List Char × List Char) :=
  if "<script>".toList.isPrefixOf s then
    match lazyBody ((s.drop 8).dropWhile FixAsyncScripts.isWhite) with
    | some (body, n) =>
      some (s.take (8 + ((s.drop 8).takeWhile FixAsyncScripts.isWhite).length + n), body)
    | none => none
  else none

/-- The loop `while ((match = scriptPattern.exec(content)) !== null)`: `i` is
the position of the input in `content`, `skip` the number of characters left
before `lastIndex`. -/
def scanScripts : List Char → Nat → Nat → List FixAsyncScripts.ScriptMatch
  | [], _, _ => []
  | _ :: cs, i, skip + 1 => scanScripts cs (i + 1) skip
  | c :: cs, i, 0 =>
    match matchScriptAt (c :: cs) with
    | some (full, body) => ⟨i, full, body⟩ :: scanScripts cs (i + 1) (full.length - 1)
    | none => scanScripts cs (i + 1) 0

/-- The test `hasWebGLCode` of the loop. -/
def hasWebGLCode (scriptContent : List Char) : Bool :=
  WEBGL_DEPENDENCIES.any (fun dep =>
    FixAsyncScripts.includes scriptContent dep ||
    FixAsyncScripts.includes scriptContent "WebGL".toList ||
    FixAsyncScripts.includes scriptContent "description(".toList ||
    FixAsyncScripts.includes scriptContent "debug(".toList)

/-- The template `wrappedScript`; its text around the script is, character
for character, that of the template of fix-async-scripts.js. -/
def wrappedScript (scriptContent : List Char) : List Char :=
  FixAsyncScripts.wrapHead ++ scriptContent ++ FixAsyncScripts.wrapTail

/-- The loop `for (let i = matches.length - 1; i >= 0; i--)`, given the
matches in the order in which the loop visits them: a match is passed over
with `continue` or for want of test code, and the first one wrapped ends the
loop with `break`. -/
def wrapLoop (content : List Char) : List FixAsyncScripts.ScriptMatch → List Char
  | [] => content
  | scriptMatch :: rest =>
    if (FixAsyncScripts.trim scriptMatch.body).isEmpty
        || FixAsyncScripts.includes (FixAsyncScripts.trim scriptMatch.body)
            "JSARAsyncLoader".toList then
      wrapLoop content rest
    else if hasWebGLCode (FixAsyncScripts.trim scriptMatch.body) then
      content.take scriptMatch.index ++ wrappedScript (FixAsyncScripts.trim scriptMatch.body)
        ++ content.drop (scriptMatch.index + scriptMatch.fullMatch.length)
    else wrapLoop content rest

/-- The function `fixHtmlFile`: `none` when the file is skipped, otherwise the
text written back. -/
def fixHtmlFile (relativePath content : List Char) : Option (List Char) :=
  if !needsFix content then none
  else
    some (wrapLoop (insertLoader relativePath content)
      (scanScripts (insertLoader relativePath content) 0 0).reverse)

/-- A bare script block whose body qualifies as WebGL test code: the trimmed
body is not empty, does not mention the loader and passes `hasWebGLCode`. -/
def qualifies (m : FixAsyncScripts.ScriptMatch) : Bool :=
  !(FixAsyncScripts.trim m.body).isEmpty &&
  !FixAsyncScripts.includes (FixAsyncScripts.trim m.body) "JSARAsyncLoader".toList &&
  hasWebGLCode (FixAsyncScripts.trim m.body)

end FixWebglAsync

/-- A page with a loader-free external script and two inline scripts that
both call `debug`. -/
def Example.twoTestScripts : List Char :=
  "<script src=\"a.js\"></script><script>debug(1);</script><script>debug(2);</script>".toList

/-! ## The shared object and the closures of two waits

The object `JSARAsyncLoader` is one object for all waits, and the options
object of a caller may be passed to several calls.  A call of
`waitForMultipleGlobals` creates closure variables of its own.  Here the
method and its inner function `check` are given all the state they can reach
and return all of it, so that what they leave untouched is a fact to prove.
Callbacks are code of the caller; their calls are events. -/

/-- The host as the code of jsar-async-script-loader.js reads it.  The file is
one function expression with the parameter `global`, called with the window
object when `typeof window` is not "undefined" and with the `global` of the
host otherwise: inside the file `window` is the identifier of the host and
`global` is the window object when the host has one.  The host has a window
object at load time exactly when it has one at the tick. -/
def JSARAsyncLoader.moduleHost (host : Host) : Host :=
  ⟨host.window,
   match host.window with
   | some w => some w
   | none => host.global,
   host.direct⟩

/-- The data fields of the object `JSARAsyncLoader`; a callback is identified
by a number. -/
structure JSARAsyncLoader.Loader where
  loadedScripts : List String
  pendingCallbacks : List Nat
  defaultConfig : Config
  deriving DecidableEq, Repr

/-- The object as its object literal creates it. -/
def JSARAsyncLoader.Loader.initial : JSARAsyncLoader.Loader :=
  ⟨[], [], JSARAsyncLoader.defaultConfig⟩

/-- The merge `Object.assign` of an empty object, `this.defaultConfig` and the
options, for the object and the options at hand. -/
def JSARAsyncLoader.assign (defaults : Config) (options : Options) : Config :=
  ⟨options.maxRetries.getD defaults.maxRetries,
   options.retryInterval.getD defaults.retryInterval,
   options.timeout.getD defaults.timeout,
   options.debug.getD defaults.debug⟩

/-- The state every wait can reach: the object `JSARAsyncLoader` (`this` of
the method and of the arrow function `check`) and the options object passed
to the calls. -/
structure JSARAsyncLoader.Shared where
  self : JSARAsyncLoader.Loader
  options : Options
  deriving DecidableEq, Repr

/-- The closure variables of one call of `waitForMultipleGlobals`:
`globalNames`, `config`, `startTime` and the counter `retries`. -/
structure JSARAsyncLoader.Closure where
  globalNames : List String
  config : Config
  startTime : Int
  retries : Nat
  deriving DecidableEq, Repr

/-- The inner function `check` of `waitForMultipleGlobals` over the state it
can reach.  It reads `config`, `startTime`, `globalNames` and `retries` from
its closure and `onTimeout` / `onError` from the options object; its only
assignment is `retries++`. -/
def JSARAsyncLoader.checkInHeap (shared : JSARAsyncLoader.Shared)
    (c : JSARAsyncLoader.Closure) (now : Int) (host : Host) :
    JSARAsyncLoader.Shared × JSARAsyncLoader.Closure × Tick :=
  if now - c.startTime > c.config.timeout then
    (shared, c,
      ⟨emitIf c.config.debug (Event.consoleError (LogLine.timeoutWaiting c.globalNames))
        ++ emitIf shared.options.onTimeout Event.onTimeout, Next.stop Outcome.timeout⟩)
  else if (c.retries : Int) ≥ c.config.maxRetries then
    (shared, c,
      ⟨emitIf c.config.debug (Event.consoleError (LogLine.maxRetriesReached c.globalNames))
        ++ emitIf shared.options.onError Event.onError, Next.stop Outcome.exhausted⟩)
  else if c.globalNames.all (JSARAsyncLoader.globalExists host) then
    (shared, c,
      ⟨Event.probe
        :: emitIf c.config.debug (Event.consoleLog (LogLine.nowAvailable c.globalNames))
        ++ [Event.callback], Next.stop Outcome.success⟩)
  else
    (shared, ⟨c.globalNames, c.config, c.startTime, c.retries + 1⟩,
      ⟨Event.probe :: emitIf (c.config.debug && (c.retries + 1) % 10 == 0)
          (Event.consoleLog
            (LogLine.waiting (c.globalNames.filter (JSARAsyncLoader.isMissing host))
              (c.retries + 1) c.config.maxRetries))
        ++ [Event.setTimeout c.config.retryInterval], Next.again (c.retries + 1)⟩)

/-- The method `waitForMultipleGlobals` over the state it can reach: it merges
the configuration from `this.defaultConfig` and the options, creates the
closure with `retries = 0` and the reading `startTime` of the clock, and runs
`check` once. -/
def JSARAsyncLoader.waitForMultipleGlobalsInHeap (shared : JSARAsyncLoader.Shared)
    (globalNames : List String) (startTime now : Int) (host : Host) :
    JSARAsyncLoader.Shared × JSARAsyncLoader.Closure × Tick :=
  JSARAsyncLoader.checkInHeap shared
    ⟨globalNames, JSARAsyncLoader.assign shared.self.defaultConfig shared.options, startTime, 0⟩
    now host

/-- How a wait stands after a tick. -/
def Tick.final (t : Tick) : Final :=
  match t.next with
  | Next.stop o => Final.finished o
  | Next.raise => Final.raised
  | Next.again r => Final.pending r

/-- One of two waits: its closure once the method was called, and its ticks so
far; `run.final` is `pending` while the call is still to come or a timer holds
`check`. -/
structure JSARAsyncLoader.Slot where
  closure : Option JSARAsyncLoader.Closure
  run : Run
  deriving DecidableEq, Repr

/-- A wait whose call is still to come. -/
def JSARAsyncLoader.Slot.fresh : JSARAsyncLoader.Slot := ⟨none, Run.fresh⟩

/-- One turn of a wait: its first turn is the call of the method, a later turn
is its timer running `check`, and a wait that has ended has no timer left. -/
def JSARAsyncLoader.Slot.turn (shared : JSARAsyncLoader.Shared) (globalNames : List String)
    (startTime : Int) (slot : JSARAsyncLoader.Slot) (now : Int) (host : Host) :
    JSARAsyncLoader.Shared × JSARAsyncLoader.Slot :=
  match slot.closure with
  | none =>
    ((JSARAsyncLoader.waitForMultipleGlobalsInHeap shared globalNames startTime now host).1,
      ⟨some (JSARAsyncLoader.waitForMultipleGlobalsInHeap shared globalNames startTime now
          host).2.1,
        ⟨[(JSARAsyncLoader.waitForMultipleGlobalsInHeap shared globalNames startTime now
            host).2.2.events],
          (JSARAsyncLoader.waitForMultipleGlobalsInHeap shared globalNames startTime now
            host).2.2.final⟩⟩)
  | some c =>
    match slot.run.final with
    | Final.pending _ =>
      ((JSARAsyncLoader.checkInHeap shared c now host).1,
        ⟨some (JSARAsyncLoader.checkInHeap shared c now host).2.1,
          ⟨slot.run.ticks ++ [(JSARAsyncLoader.checkInHeap shared c now host).2.2.events],
            (JSARAsyncLoader.checkInHeap shared c now host).2.2.final⟩⟩)
    | _ => (shared, slot)

/-- Two waits for the same names with the same options object, and the state
they share. -/
structure JSARAsyncLoader.Heap where
  shared : JSARAsyncLoader.Shared
  first : JSARAsyncLoader.Slot
  second : JSARAsyncLoader.Slot
  deriving DecidableEq, Repr

/-- One entry of a schedule: the turn of one of the two waits, with the clock
reading and the host it observes.  The shared state a turn leaves behind is
the shared state the next turn finds. -/
def JSARAsyncLoader.Heap.step (globalNames : List String) (startA startB : Int)
    (h : JSARAsyncLoader.Heap) (entry : Turn × Int × Host) : JSARAsyncLoader.Heap :=
  match entry with
  | (Turn.first, now, host) =>
    ⟨(JSARAsyncLoader.Slot.turn h.shared globalNames startA h.first now host).1,
      (JSARAsyncLoader.Slot.turn h.shared globalNames startA h.first now host).2, h.second⟩
  | (Turn.second, now, host) =>
    ⟨(JSARAsyncLoader.Slot.turn h.shared globalNames startB h.second now host).1,
      h.first, (JSARAsyncLoader.Slot.turn h.shared globalNames startB h.second now host).2⟩

/-- The two waits under a schedule of their turns. -/
def JSARAsyncLoader.Heap.run (globalNames : List String) (startA startB : Int)
    (sched : List (Turn × Int × Host)) (h : JSARAsyncLoader.Heap) : JSARAsyncLoader.Heap :=
  sched.foldl (JSARAsyncLoader.Heap.step globalNames startA startB) h

/-- The state before either call: the object as created, the options object of
the caller, no closure. -/
def JSARAsyncLoader.Heap.initial (options : Options) : JSARAsyncLoader.Heap :=
  ⟨⟨JSARAsyncLoader.Loader.initial, options⟩, JSARAsyncLoader.Slot.fresh,
    JSARAsyncLoader.Slot.fresh⟩

/-! ## Lemmas on the event loop -/

theorem Run.count_eq_sum (r : Run) (e : Event) : r.count e = (r.perTick e).sum := rfl

theorem JSARAsyncLoader.waitForGlobalCheck_pollerTick (options : Options) (globalName : String)
    (startTime : Int) (clock : Nat → Int) (hosts : Nat → Host) :
    PollerTick
      (fun k retries => JSARAsyncLoader.waitForGlobalCheck (JSARAsyncLoader.assignConfig options)
        options globalName startTime (clock k) (hosts k) retries)
      (fun k => clock k - startTime)
      (JSARAsyncLoader.assignConfig options).timeout
      (JSARAsyncLoader.assignConfig options).maxRetries
      (fun k => JSARAsyncLoader.globalExists (hosts k) globalName)
      options.onTimeout options.onError := by
  constructor
  · intro k r h
    have h1 : clock k - startTime > (JSARAsyncLoader.assignConfig options).timeout := h
    simp only [JSARAsyncLoader.waitForGlobalCheck, if_pos h1, tally, emitIf]
    cases (JSARAsyncLoader.assignConfig options).debug <;> cases options.onTimeout <;> simp
  · intro k r h h2
    have h1 : ¬ clock k - startTime > (JSARAsyncLoader.assignConfig options).timeout := by
      simpa using h
    have h3 : (r : Int) ≥ (JSARAsyncLoader.assignConfig options).maxRetries := h2
    simp only [JSARAsyncLoader.waitForGlobalCheck, if_neg h1, if_pos h3, tally, emitIf]
    cases (JSARAsyncLoader.assignConfig options).debug <;> cases options.onError <;> simp
  · intro k r h h2 h4
    have h1 : ¬ clock k - startTime > (JSARAsyncLoader.assignConfig options).timeout := by
      simpa using h
    have h3 : ¬ (r : Int) ≥ (JSARAsyncLoader.assignConfig options).maxRetries := by
      simpa using h2
    simp only [JSARAsyncLoader.waitForGlobalCheck, if_neg h1, if_neg h3, tally, emitIf]
    simp only [] at h4
    rw [if_pos h4]
    cases (JSARAsyncLoader.assignConfig options).debug <;> simp
  · intro k r h h2 h4
    have h1 : ¬ clock k - startTime > (JSARAsyncLoader.assignConfig options).timeout := by
      simpa using h
    have h3 : ¬ (r : Int) ≥ (JSARAsyncLoader.assignConfig options).maxRetries := by
      simpa using h2
    simp only [JSARAsyncLoader.waitForGlobalCheck, if_neg h1, if_neg h3, tally, emitIf]
    simp only [] at h4
    rw [h4]
    cases (JSARAsyncLoader.assignConfig options).debug <;>
      cases ((r + 1) % 10 == 0) <;> simp

theorem JSARAsyncLoader.waitForMultipleGlobalsCheck_pollerTick (options : Options)
    (globalNames : List String) (startTime : Int) (clock : Nat → Int) (hosts : Nat → Host) :
    PollerTick
      (fun k retries => JSARAsyncLoader.waitForMultipleGlobalsCheck
        (JSARAsyncLoader.assignConfig options) options globalNames startTime (clock k) (hosts k)
        retries)
      (fun k => clock k - startTime)
      (JSARAsyncLoader.assignConfig options).timeout
      (JSARAsyncLoader.assignConfig options).maxRetries
      (fun k => globalNames.all (JSARAsyncLoader.globalExists (hosts k)))
      options.onTimeout options.onError := by
  constructor
  · intro k r h
    have h1 : clock k - startTime > (JSARAsyncLoader.assignConfig options).timeout := h
    simp only [JSARAsyncLoader.waitForMultipleGlobalsCheck, if_pos h1, tally, emitIf]
    cases (JSARAsyncLoader.assignConfig options).debug <;> cases options.onTimeout <;> simp
  · intro k r h h2
    have h1 : ¬ clock k - startTime > (JSARAsyncLoader.assignConfig options).timeout := by
      simpa using h
    have h3 : (r : Int) ≥ (JSARAsyncLoader.assignConfig options).maxRetries := h2
    simp only [JSARAsyncLoader.waitForMultipleGlobalsCheck, if_neg h1, if_pos h3, tally, emitIf]
    cases (JSARAsyncLoader.assignConfig options).debug <;> cases options.onError <;> simp
  · intro k r h h2 h4
    have h1 : ¬ clock k - startTime > (JSARAsyncLoader.assignConfig options).timeout := by
      simpa using h
    have h3 : ¬ (r : Int) ≥ (JSARAsyncLoader.assignConfig options).maxRetries := by
      simpa using h2
    simp only [JSARAsyncLoader.waitForMultipleGlobalsCheck, if_neg h1, if_neg h3, tally, emitIf]
    simp only [] at h4
    rw [if_pos h4]
    cases (JSARAsyncLoader.assignConfig options).debug <;> simp
  · intro k r h h2 h4
    have h1 : ¬ clock k - startTime > (JSARAsyncLoader.assignConfig options).timeout := by
      simpa using h
    have h3 : ¬ (r : Int) ≥ (JSARAsyncLoader.assignConfig options).maxRetries := by
      simpa using h2
    simp only [JSARAsyncLoader.waitForMultipleGlobalsCheck, if_neg h1, if_neg h3, tally, emitIf]
    simp only [] at h4
    rw [h4]
    cases (JSARAsyncLoader.assignConfig options).debug <;>
      cases ((r + 1) % 10 == 0) <;> simp

theorem drive_stop {check : Nat → Nat → Tick} {k r : Nat} {o : Outcome} (fuel : Nat)
    (h : (check k r).next = Next.stop o) :
    drive check (fuel + 1) k r = ⟨[(check k r).events], Final.finished o⟩ := by
  simp only [drive, h]

theorem drive_again {check : Nat → Nat → Tick} {k r r1 : Nat} (fuel : Nat)
    (h : (check k r).next = Next.again r1) :
    drive check (fuel + 1) k r
      = ⟨(check k r).events :: (drive check fuel (k + 1) r1).ticks,
          (drive check fuel (k + 1) r1).final⟩ := by
  simp only [drive, h]

theorem tally_eq {evs : List Event} {a b c d : Nat} (h : tally evs = (a, b, c, d)) :
    evs.count Event.probe = a ∧ evs.count Event.callback = b ∧
      evs.count Event.onTimeout = c ∧ evs.count Event.onError = d := by
  simpa [tally] using h

theorem Run.perTick_probe (r : Run) :
    r.perTick Event.probe = (r.ticks.map tally).map (fun t => t.1) := by
  simp [Run.perTick, tally, List.map_map, Function.comp_def]

theorem Run.perTick_callback (r : Run) :
    r.perTick Event.callback = (r.ticks.map tally).map (fun t => t.2.1) := by
  simp [Run.perTick, tally, List.map_map, Function.comp_def]

theorem Run.perTick_onTimeout (r : Run) :
    r.perTick Event.onTimeout = (r.ticks.map tally).map (fun t => t.2.2.1) := by
  simp [Run.perTick, tally, List.map_map, Function.comp_def]

theorem Run.perTick_onError (r : Run) :
    r.perTick Event.onError = (r.ticks.map tally).map (fun t => t.2.2.2) := by
  simp [Run.perTick, tally, List.map_map, Function.comp_def]

/-- Every run with more fuel than the retry budget leaves ends in exactly one
terminal state, and the callbacks invoked are those of that state. -/
theorem drive_finishes {check : Nat → Nat → Tick} {elapsed : Nat → Int}
    {timeout maxRetries : Int} {avail : Nat → Bool} {onT onE : Bool}
    (P : PollerTick check elapsed timeout maxRetries avail onT onE) :
    ∀ (fuel k r : Nat), maxRetries ≤ (fuel : Int) + r →
      ∃ o, (drive check (fuel + 1) k r).final = Final.finished o ∧
        (drive check (fuel + 1) k r).count Event.callback
          = (if o = Outcome.success then 1 else 0) ∧
        (drive check (fuel + 1) k r).count Event.onTimeout
          = (if o = Outcome.timeout then onT.toNat else 0) ∧
        (drive check (fuel + 1) k r).count Event.onError
          = (if o = Outcome.exhausted then onE.toNat else 0) ∧
        (o = Outcome.success → ∃ j, k ≤ j ∧ avail j = true) := by
  intro fuel
  induction fuel with
  | zero =>
    intro k r h
    by_cases ht : timeout < elapsed k
    · obtain ⟨hn, hc⟩ := P.timedOut k r ht
      obtain ⟨-, h2, h3, h4⟩ := tally_eq hc
      refine ⟨Outcome.timeout, ?_⟩
      simp [drive_stop 0 hn, Run.count, h2, h3, h4]
    · obtain ⟨hn, hc⟩ := P.exhausted k r (not_lt.mp ht) (by simpa using h)
      obtain ⟨-, h2, h3, h4⟩ := tally_eq hc
      refine ⟨Outcome.exhausted, ?_⟩
      simp [drive_stop 0 hn, Run.count, h2, h3, h4]
  | succ n ih =>
    intro k r h
    by_cases ht : timeout < elapsed k
    · obtain ⟨hn, hc⟩ := P.timedOut k r ht
      obtain ⟨-, h2, h3, h4⟩ := tally_eq hc
      refine ⟨Outcome.timeout, ?_⟩
      simp [drive_stop (n + 1) hn, Run.count, h2, h3, h4]
    · by_cases hr : maxRetries ≤ (r : Int)
      · obtain ⟨hn, hc⟩ := P.exhausted k r (not_lt.mp ht) hr
        obtain ⟨-, h2, h3, h4⟩ := tally_eq hc
        refine ⟨Outcome.exhausted, ?_⟩
        simp [drive_stop (n + 1) hn, Run.count, h2, h3, h4]
      · cases ha : avail k with
        | true =>
          obtain ⟨hn, hc⟩ := P.found k r (not_lt.mp ht) (not_le.mp hr) ha
          obtain ⟨-, h2, h3, h4⟩ := tally_eq hc
          refine ⟨Outcome.success, ?_⟩
          exact ⟨by simp [drive_stop (n + 1) hn],
            by simp [drive_stop (n + 1) hn, Run.count, h2],
            by simp [drive_stop (n + 1) hn, Run.count, h3],
            by simp [drive_stop (n + 1) hn, Run.count, h4], fun _ => ⟨k, le_refl k, ha⟩⟩
        | false =>
          obtain ⟨hn, hc⟩ := P.retry k r (not_lt.mp ht) (not_le.mp hr) ha
          obtain ⟨-, h2, h3, h4⟩ := tally_eq hc
          obtain ⟨o, ho, c1, c2, c3, c4⟩ := ih (k + 1) (r + 1) (by push_cast at h ⊢; omega)
          refine ⟨o, ?_⟩
          rw [drive_again (n + 1) hn]
          simp only [Run.count] at c1 c2 c3
          refine ⟨ho, ?_, ?_, ?_, ?_⟩
          · simp [Run.count, h2, c1]
          · simp [Run.count, h3, c2]
          · simp [Run.count, h4, c3]
          · intro hs
            obtain ⟨j, hj, hja⟩ := c4 hs
            exact ⟨j, by omega, hja⟩

/-- A stretch of `d` ticks that are within the time budget, within the retry
budget and find a binding missing is a stretch of `d` retries. -/
theorem drive_retry_stretch {check : Nat → Nat → Tick} {elapsed : Nat → Int}
    {timeout maxRetries : Int} {avail : Nat → Bool} {onT onE : Bool}
    (P : PollerTick check elapsed timeout maxRetries avail onT onE) (fuel : Nat) :
    ∀ (d k r : Nat),
      (∀ i, i < d → elapsed (k + i) ≤ timeout ∧ ((r + i : Nat) : Int) < maxRetries
        ∧ avail (k + i) = false) →
      (drive check (d + fuel) k r).final = (drive check fuel (k + d) (r + d)).final ∧
      (drive check (d + fuel) k r).ticks.map tally
        = List.replicate d (1, 0, 0, 0) ++ (drive check fuel (k + d) (r + d)).ticks.map tally := by
  intro d
  induction d with
  | zero => intro k r _; simp
  | succ d ih =>
    intro k r h
    obtain ⟨h1, h2, h3⟩ := h 0 (by omega)
    obtain ⟨hn, hc⟩ := P.retry k r (by simpa using h1) (by simpa using h2) (by simpa using h3)
    have hshift : ∀ i, i < d → elapsed (k + 1 + i) ≤ timeout
        ∧ ((r + 1 + i : Nat) : Int) < maxRetries ∧ avail (k + 1 + i) = false := by
      intro i hi
      have := h (i + 1) (by omega)
      have e1 : k + 1 + i = k + (i + 1) := by omega
      have e2 : r + 1 + i = r + (i + 1) := by omega
      rw [e1, e2]
      exact this
    obtain ⟨f1, f2⟩ := ih (k + 1) (r + 1) hshift
    have e3 : d + 1 + fuel = (d + fuel) + 1 := by omega
    have e4 : k + 1 + d = k + (d + 1) := by omega
    have e5 : r + 1 + d = r + (d + 1) := by omega
    rw [e3, drive_again (d + fuel) hn]
    rw [e4, e5] at f1 f2
    refine ⟨f1, ?_⟩
    simp only [List.map_cons, hc, f2, List.replicate_succ, List.cons_append]

/-- When tick `k` is the first tick that finds the bindings, is within both
budgets, and no earlier tick is past the time budget, the run is `k` retries
followed by the success tick. -/
theorem drive_success_at {check : Nat → Nat → Tick} {elapsed : Nat → Int}
    {timeout maxRetries : Int} {avail : Nat → Bool} {onT onE : Bool}
    (P : PollerTick check elapsed timeout maxRetries avail onT onE) (fuel k : Nat)
    (hbefore : ∀ i, i < k → elapsed i ≤ timeout ∧ avail i = false)
    (hk : elapsed k ≤ timeout) (hav : avail k = true) (hlt : (k : Int) < maxRetries) :
    (drive check (k + (fuel + 1)) 0 0).final = Final.finished Outcome.success ∧
    (drive check (k + (fuel + 1)) 0 0).ticks.map tally
      = List.replicate k (1, 0, 0, 0) ++ [(1, 1, 0, 0)] := by
  have hs := drive_retry_stretch P (fuel + 1) k 0 0 (by
    intro i hi
    obtain ⟨a, b⟩ := hbefore i hi
    refine ⟨by simpa using a, ?_, by simpa using b⟩
    push_cast
    omega)
  obtain ⟨hn, hc⟩ := P.found k k hk hlt hav
  simp only [Nat.zero_add] at hs
  rw [drive_stop fuel hn] at hs
  exact ⟨hs.1, by rw [hs.2]; simp [hc]⟩

/-- When no tick up to tick `m` is past the time budget and no tick before
tick `m` finds the bindings, a retry budget of `m` is used up by `m` retries
and tick `m` reports exhaustion. -/
theorem drive_exhausted_at {check : Nat → Nat → Tick} {elapsed : Nat → Int}
    {timeout maxRetries : Int} {avail : Nat → Bool} {onT onE : Bool}
    (P : PollerTick check elapsed timeout maxRetries avail onT onE) (fuel m : Nat)
    (hm : maxRetries = (m : Int))
    (htime : ∀ i, i ≤ m → elapsed i ≤ timeout)
    (hav : ∀ i, i < m → avail i = false) :
    (drive check (m + (fuel + 1)) 0 0).final = Final.finished Outcome.exhausted ∧
    (drive check (m + (fuel + 1)) 0 0).ticks.map tally
      = List.replicate m (1, 0, 0, 0) ++ [(0, 0, 0, onE.toNat)] := by
  have hs := drive_retry_stretch P (fuel + 1) m 0 0 (by
    intro i hi
    refine ⟨by simpa using htime i (by omega), ?_, by simpa using hav i hi⟩
    rw [hm]
    push_cast
    omega)
  obtain ⟨hn, hc⟩ := P.exhausted m m (htime m (le_refl m)) (by rw [hm])
  simp only [Nat.zero_add] at hs
  rw [drive_stop fuel hn] at hs
  exact ⟨hs.1, by rw [hs.2]; simp [hc]⟩

/-- When some tick `j` within the retry budget is past the time budget and no
earlier tick finds the bindings, the run reports a timeout. -/
theorem drive_times_out {check : Nat → Nat → Tick} {elapsed : Nat → Int}
    {timeout maxRetries : Int} {avail : Nat → Bool} {onT onE : Bool}
    (P : PollerTick check elapsed timeout maxRetries avail onT onE) (fuel j : Nat)
    (hj : timeout < elapsed j) (hjM : (j : Int) ≤ maxRetries)
    (hav : ∀ i, i < j → avail i = false) :
    ∀ (d k : Nat), k + d = j →
      (drive check (d + 1 + fuel) k k).final = Final.finished Outcome.timeout ∧
      (drive check (d + 1 + fuel) k k).count Event.callback = 0 ∧
      (drive check (d + 1 + fuel) k k).count Event.onTimeout = onT.toNat ∧
      (drive check (d + 1 + fuel) k k).count Event.onError = 0 := by
  intro d
  induction d with
  | zero =>
    intro k hk
    have hkj : k = j := by omega
    subst hkj
    obtain ⟨hn, hc⟩ := P.timedOut k k hj
    obtain ⟨-, h2, h3, h4⟩ := tally_eq hc
    have e : 0 + 1 + fuel = fuel + 1 := by omega
    rw [e, drive_stop fuel hn]
    simp [Run.count, h2, h3, h4]
  | succ d ih =>
    intro k hk
    have e : d + 1 + 1 + fuel = (d + 1 + fuel) + 1 := by omega
    by_cases ht : timeout < elapsed k
    · obtain ⟨hn, hc⟩ := P.timedOut k k ht
      obtain ⟨-, h2, h3, h4⟩ := tally_eq hc
      rw [e, drive_stop (d + 1 + fuel) hn]
      simp [Run.count, h2, h3, h4]
    · obtain ⟨hn, hc⟩ := P.retry k k (not_lt.mp ht) (by omega) (hav k (by omega))
      obtain ⟨-, h2, h3, h4⟩ := tally_eq hc
      obtain ⟨i1, i2, i3, i4⟩ := ih (k + 1) (by omega)
      rw [e, drive_again (d + 1 + fuel) hn]
      simp only [Run.count] at i2 i3 i4
      refine ⟨i1, ?_, ?_, ?_⟩
      · simp [Run.count, h2, i2]
      · simp [Run.count, h3, i3]
      · simp [Run.count, h4, i4]

theorem definedIn_iff (obj : Option (String → Bool)) (name : String) :
    definedIn obj name = true ↔ ResolvesIn obj name := by
  cases obj <;> simp [definedIn, ResolvesIn]

theorem JSARAsyncLoader.globalExists_iff (host : Host) (name : String) :
    JSARAsyncLoader.globalExists host name = true ↔ Resolves host name := by
  simp [JSARAsyncLoader.globalExists, Resolves, definedIn_iff]

theorem JSARAsyncLoader.all_globalExists_iff (host : Host) (names : List String) :
    names.all (JSARAsyncLoader.globalExists host) = true ↔ ∀ name ∈ names, Resolves host name := by
  simp [List.all_eq_true, JSARAsyncLoader.globalExists_iff]

theorem fuel_split {m : Int} {fuel : Nat} (h0 : 0 ≤ m) (h : m < (fuel : Int)) :
    ∃ f, fuel = m.toNat + (f + 1) ∧ m = (m.toNat : Int) :=
  ⟨fuel - m.toNat - 1, by omega, by omega⟩

theorem drive_endsWith {check : Nat → Nat → Tick} {elapsed : Nat → Int}
    {timeout maxRetries : Int} {avail : Nat → Bool} {options : Options}
    (P : PollerTick check elapsed timeout maxRetries avail options.onTimeout options.onError)
    (fuel : Nat) (h0 : 0 ≤ maxRetries) (hfuel : maxRetries < (fuel : Int)) :
    ∃ o, (drive check fuel 0 0).EndsWith options o ∧
      (o = Outcome.success → ∃ j, avail j = true) := by
  obtain ⟨f, hf⟩ : ∃ f, fuel = f + 1 := ⟨fuel - 1, by omega⟩
  subst hf
  obtain ⟨o, ho, c1, c2, c3, c4⟩ := drive_finishes P f 0 0 (by push_cast at hfuel ⊢; omega)
  refine ⟨o, ⟨ho, c1, ?_, ?_⟩, fun hs => ?_⟩
  · rw [c2]; cases options.onTimeout <;> simp
  · rw [c3]; cases options.onError <;> simp
  · obtain ⟨j, -, hj⟩ := c4 hs
    exact ⟨j, hj⟩

theorem Run.EndsWith.unique {r : Run} {options : Options} {o1 o2 : Outcome}
    (h1 : r.EndsWith options o1) (h2 : r.EndsWith options o2) : o1 = o2 := by
  have := h1.1.symm.trans h2.1
  exact Final.finished.inj this

theorem Run.endsWith_of_tallies {r : Run} {options : Options} {o : Outcome}
    {ts : List (Nat × Nat × Nat × Nat)}
    (hf : r.final = Final.finished o) (ht : r.ticks.map tally = ts)
    (h1 : (ts.map (fun t => t.2.1)).sum = (if o = Outcome.success then 1 else 0))
    (h2 : (ts.map (fun t => t.2.2.1)).sum
      = (if o = Outcome.timeout ∧ options.onTimeout = true then 1 else 0))
    (h3 : (ts.map (fun t => t.2.2.2)).sum
      = (if o = Outcome.exhausted ∧ options.onError = true then 1 else 0)) :
    r.EndsWith options o := by
  refine ⟨hf, ?_, ?_, ?_⟩
  · rw [Run.count_eq_sum, Run.perTick_callback, ht, h1]
  · rw [Run.count_eq_sum, Run.perTick_onTimeout, ht, h2]
  · rw [Run.count_eq_sum, Run.perTick_onError, ht, h3]

/-- What the `try`/`catch` of `waitForGlobal` (webgl-async-loader.js) computes:
the binding counts as present when the direct evaluation yields a value, or
yields `undefined` while the name resolves in `window` or `global`; a direct
evaluation that raises counts as absent whatever `window` and `global` hold. -/
theorem WebglAsyncLoader.guardedExists_iff (host : Host) (globalName : String) :
    WebglAsyncLoader.globalExists host globalName = true ↔
      WebglAsyncLoader.directEval host globalName = EvalResult.defined ∨
      (WebglAsyncLoader.directEval host globalName = EvalResult.undefinedValue ∧
        Resolves host globalName) := by
  unfold WebglAsyncLoader.globalExists
  cases h : WebglAsyncLoader.directEval host globalName <;>
    simp [Resolves, definedIn_iff]

/-! ## Claims -/

/-- C1: every wait of JSARAsyncLoader.waitForGlobal and of
JSARAsyncLoader.waitForMultipleGlobals with positive maxRetries (whatever the
retryInterval and the timeout, so in particular for positive ones), under
every clock and every evolution of the hosts, ends (once the scheduler may run
more ticks than maxRetries) in exactly one terminal outcome; the callback of
that outcome is invoked exactly once (a failure handler when supplied) and the
other two callbacks are never invoked. -/
theorem JSARAsyncLoader.wait_exactly_one_outcome
    (globalName : String) (globalNames : List String) (options : Options) (startTime : Int)
    (clock : Nat → Int) (hosts : Nat → Host) (fuel : Nat)
    (hR : 0 < (JSARAsyncLoader.assignConfig options).maxRetries)
    (hfuel : (JSARAsyncLoader.assignConfig options).maxRetries < (fuel : Int)) :
    (∃! o, (JSARAsyncLoader.waitForGlobal globalName options startTime clock hosts fuel).EndsWith
      options o) ∧
    (∃! o, (JSARAsyncLoader.waitForMultipleGlobals globalNames options startTime clock hosts
      fuel).EndsWith options o) := by
  constructor
  · obtain ⟨o, ho, -⟩ := drive_endsWith
      (JSARAsyncLoader.waitForGlobalCheck_pollerTick options globalName startTime clock hosts)
      fuel (le_of_lt hR) hfuel
    exact ⟨o, ho, fun o2 h2 => Run.EndsWith.unique h2 ho⟩
  · obtain ⟨o, ho, -⟩ := drive_endsWith
      (JSARAsyncLoader.waitForMultipleGlobalsCheck_pollerTick options globalNames startTime clock
        hosts) fuel (le_of_lt hR) hfuel
    exact ⟨o, ho, fun o2 h2 => Run.EndsWith.unique h2 ho⟩

theorem JSARAsyncLoader.wait_exactly_one_outcome_witness :
    (0 : Int) < (JSARAsyncLoader.assignConfig ⟨some 3, some 10, some 50, some false, true, true⟩).maxRetries
    ∧ (∃! o, (JSARAsyncLoader.waitForGlobal "Foo" ⟨some 3, some 10, some 50, some false, true, true⟩
        0 (idealClock 0 10) (fun _ => ⟨none, none, fun _ => EvalResult.raises⟩) 4).EndsWith
        ⟨some 3, some 10, some 50, some false, true, true⟩ o)
    ∧ (∃! o, (JSARAsyncLoader.waitForMultipleGlobals ["Foo", "Bar"]
        ⟨some 3, some 10, some 50, some false, true, true⟩
        0 (idealClock 0 10) (fun _ => ⟨none, none, fun _ => EvalResult.raises⟩) 4).EndsWith
        ⟨some 3, some 10, some 50, some false, true, true⟩ o) :=
  ⟨by decide,
    JSARAsyncLoader.wait_exactly_one_outcome "Foo" ["Foo", "Bar"]
      ⟨some 3, some 10, some 50, some false, true, true⟩ 0 (idealClock 0 10)
      (fun _ => ⟨none, none, fun _ => EvalResult.raises⟩) 4 (by decide) (by decide)⟩

/-- C2: on a tick of JSARAsyncLoader.waitForMultipleGlobals that reaches the
existence check (not past the timeout, retries below maxRetries) the success
callback is invoked (once) if and only if every requested name resolves in
window or in global; when some name does not resolve, the callback is not
invoked, retries is incremented and exactly one further tick is scheduled,
after retryInterval. -/
theorem JSARAsyncLoader.waitForMultipleGlobalsCheck_success_iff
    (config : Config) (options : Options) (globalNames : List String) (startTime now : Int)
    (host : Host) (retries : Nat)
    (ht : now - startTime ≤ config.timeout) (hr : (retries : Int) < config.maxRetries) :
    ((JSARAsyncLoader.waitForMultipleGlobalsCheck config options globalNames startTime now host
        retries).events.count Event.callback = 1
      ↔ ∀ name ∈ globalNames, Resolves host name) ∧
    ((∃ name ∈ globalNames, ¬ Resolves host name) →
      (JSARAsyncLoader.waitForMultipleGlobalsCheck config options globalNames startTime now host
        retries).events.count Event.callback = 0 ∧
      (JSARAsyncLoader.waitForMultipleGlobalsCheck config options globalNames startTime now host
        retries).next = Next.again (retries + 1) ∧
      (JSARAsyncLoader.waitForMultipleGlobalsCheck config options globalNames startTime now host
        retries).events.filter (fun e => e matches Event.setTimeout _)
        = [Event.setTimeout config.retryInterval]) := by
  have h1 : ¬ now - startTime > config.timeout := by simpa using ht
  have h3 : ¬ (retries : Int) ≥ config.maxRetries := by simpa using hr
  by_cases hall : globalNames.all (JSARAsyncLoader.globalExists host) = true
  · have hres := (JSARAsyncLoader.all_globalExists_iff host globalNames).mp hall
    simp only [JSARAsyncLoader.waitForMultipleGlobalsCheck, if_neg h1, if_neg h3, if_pos hall,
      emitIf]
    constructor
    · constructor
      · intro _; exact hres
      · intro _; cases config.debug <;> simp
    · rintro ⟨name, hmem, hno⟩
      exact absurd (hres name hmem) hno
  · have hres : ¬ ∀ name ∈ globalNames, Resolves host name :=
      fun h => hall ((JSARAsyncLoader.all_globalExists_iff host globalNames).mpr h)
    simp only [JSARAsyncLoader.waitForMultipleGlobalsCheck, if_neg h1, if_neg h3, if_neg hall,
      emitIf]
    constructor
    · constructor
      · intro h
        exfalso
        revert h
        cases config.debug <;> cases ((retries + 1) % 10 == 0) <;> simp
      · intro h; exact absurd h hres
    · intro _
      cases config.debug <;> cases ((retries + 1) % 10 == 0) <;> simp

theorem JSARAsyncLoader.waitForMultipleGlobalsCheck_success_iff_witness :
    ((5 : Int) - 0 ≤ JSARAsyncLoader.defaultConfig.timeout
      ∧ ((2 : Nat) : Int) < JSARAsyncLoader.defaultConfig.maxRetries)
    ∧ ((JSARAsyncLoader.waitForMultipleGlobalsCheck JSARAsyncLoader.defaultConfig Options.empty
          ["A", "B"] 0 5 ⟨some (fun n => n == "A"), none, fun _ => EvalResult.raises⟩
          2).events.count Event.callback = 1
        ↔ ∀ name ∈ ["A", "B"],
            Resolves ⟨some (fun n => n == "A"), none, fun _ => EvalResult.raises⟩ name) ∧
      ((∃ name ∈ ["A", "B"],
          ¬ Resolves ⟨some (fun n => n == "A"), none, fun _ => EvalResult.raises⟩ name) →
        (JSARAsyncLoader.waitForMultipleGlobalsCheck JSARAsyncLoader.defaultConfig Options.empty
          ["A", "B"] 0 5 ⟨some (fun n => n == "A"), none, fun _ => EvalResult.raises⟩
          2).events.count Event.callback = 0 ∧
        (JSARAsyncLoader.waitForMultipleGlobalsCheck JSARAsyncLoader.defaultConfig Options.empty
          ["A", "B"] 0 5 ⟨some (fun n => n == "A"), none, fun _ => EvalResult.raises⟩
          2).next = Next.again (2 + 1) ∧
        (JSARAsyncLoader.waitForMultipleGlobalsCheck JSARAsyncLoader.defaultConfig Options.empty
          ["A", "B"] 0 5 ⟨some (fun n => n == "A"), none, fun _ => EvalResult.raises⟩
          2).events.filter (fun e => e matches Event.setTimeout _)
          = [Event.setTimeout JSARAsyncLoader.defaultConfig.retryInterval]) :=
  ⟨⟨by decide, by decide⟩,
    JSARAsyncLoader.waitForMultipleGlobalsCheck_success_iff JSARAsyncLoader.defaultConfig
      Options.empty ["A", "B"] 0 5 ⟨some (fun n => n == "A"), none, fun _ => EvalResult.raises⟩ 2
      (by decide) (by decide)⟩

/-- C3: on a tick of either JSARAsyncLoader poller at which the elapsed time
exceeds timeout and retries has reached maxRetries, the tick reports timeout:
options.onTimeout is invoked (once, when supplied) and options.onError is not
invoked. -/
theorem JSARAsyncLoader.check_timeout_before_exhaustion
    (config : Config) (options : Options) (globalName : String) (globalNames : List String)
    (startTime now : Int) (host : Host) (retries : Nat)
    (ht : now - startTime > config.timeout) (_hr : (retries : Int) ≥ config.maxRetries) :
    ((JSARAsyncLoader.waitForGlobalCheck config options globalName startTime now host
        retries).next = Next.stop Outcome.timeout ∧
      (JSARAsyncLoader.waitForGlobalCheck config options globalName startTime now host
        retries).events.count Event.onTimeout = (if options.onTimeout = true then 1 else 0) ∧
      (JSARAsyncLoader.waitForGlobalCheck config options globalName startTime now host
        retries).events.count Event.onError = 0) ∧
    ((JSARAsyncLoader.waitForMultipleGlobalsCheck config options globalNames startTime now host
        retries).next = Next.stop Outcome.timeout ∧
      (JSARAsyncLoader.waitForMultipleGlobalsCheck config options globalNames startTime now host
        retries).events.count Event.onTimeout = (if options.onTimeout = true then 1 else 0) ∧
      (JSARAsyncLoader.waitForMultipleGlobalsCheck config options globalNames startTime now host
        retries).events.count Event.onError = 0) := by
  simp only [JSARAsyncLoader.waitForGlobalCheck, JSARAsyncLoader.waitForMultipleGlobalsCheck,
    if_pos ht, emitIf]
  cases config.debug <;> cases options.onTimeout <;> simp

theorem JSARAsyncLoader.check_timeout_before_exhaustion_witness :
    ((10001 : Int) - 0 > JSARAsyncLoader.defaultConfig.timeout
      ∧ ((100 : Nat) : Int) ≥ JSARAsyncLoader.defaultConfig.maxRetries)
    ∧ (JSARAsyncLoader.waitForGlobalCheck JSARAsyncLoader.defaultConfig
          ⟨none, none, none, none, true, true⟩ "Foo" 0 10001
          ⟨none, none, fun _ => EvalResult.raises⟩ 100).next = Next.stop Outcome.timeout :=
  ⟨⟨by decide, by decide⟩,
    (JSARAsyncLoader.check_timeout_before_exhaustion JSARAsyncLoader.defaultConfig
      ⟨none, none, none, none, true, true⟩ "Foo" ["Foo"] 0 10001
      ⟨none, none, fun _ => EvalResult.raises⟩ 100 (by decide) (by decide)).1.1⟩

/-- C4: in a wait of JSARAsyncLoader.waitForMultipleGlobals, when tick k is the
first tick at which all requested bindings are available, k is below
maxRetries and the elapsed time at every tick 0..k is at most timeout, then
(once the scheduler may run more than k ticks) the wait succeeds: the success
callback is invoked exactly once, on tick k, and neither options.onTimeout nor
options.onError is ever invoked. -/
theorem JSARAsyncLoader.waitForMultipleGlobals_succeeds_at_first_available
    (globalNames : List String) (options : Options) (startTime : Int)
    (clock : Nat → Int) (hosts : Nat → Host) (k fuel : Nat)
    (hfirst : ∀ i, i < k → ¬ ∀ name ∈ globalNames, Resolves (hosts i) name)
    (hk : ∀ name ∈ globalNames, Resolves (hosts k) name)
    (hlt : (k : Int) < (JSARAsyncLoader.assignConfig options).maxRetries)
    (htime : ∀ i, i ≤ k → clock i - startTime ≤ (JSARAsyncLoader.assignConfig options).timeout)
    (hfuel : k < fuel) :
    (JSARAsyncLoader.waitForMultipleGlobals globalNames options startTime clock hosts fuel).final
      = Final.finished Outcome.success ∧
    (JSARAsyncLoader.waitForMultipleGlobals globalNames options startTime clock hosts
      fuel).perTick Event.callback = List.replicate k 0 ++ [1] ∧
    (JSARAsyncLoader.waitForMultipleGlobals globalNames options startTime clock hosts
      fuel).count Event.callback = 1 ∧
    (JSARAsyncLoader.waitForMultipleGlobals globalNames options startTime clock hosts
      fuel).count Event.onTimeout = 0 ∧
    (JSARAsyncLoader.waitForMultipleGlobals globalNames options startTime clock hosts
      fuel).count Event.onError = 0 := by
  obtain ⟨f, hf⟩ : ∃ f, fuel = k + (f + 1) := ⟨fuel - k - 1, by omega⟩
  subst hf
  have P := JSARAsyncLoader.waitForMultipleGlobalsCheck_pollerTick options globalNames startTime
    clock hosts
  obtain ⟨h1, h2⟩ := drive_success_at P f k
    (fun i hi => ⟨htime i (by omega), by
      have := hfirst i hi
      rw [← JSARAsyncLoader.all_globalExists_iff] at this
      simpa using this⟩)
    (htime k (le_refl k))
    ((JSARAsyncLoader.all_globalExists_iff (hosts k) globalNames).mpr hk) hlt
  refine ⟨h1, ?_, ?_, ?_, ?_⟩
  · rw [Run.perTick_callback]
    simp only [JSARAsyncLoader.waitForMultipleGlobals]
    rw [h2]; simp
  · rw [Run.count_eq_sum, Run.perTick_callback]
    simp only [JSARAsyncLoader.waitForMultipleGlobals]
    rw [h2]; simp
  · rw [Run.count_eq_sum, Run.perTick_onTimeout]
    simp only [JSARAsyncLoader.waitForMultipleGlobals]
    rw [h2]; simp
  · rw [Run.count_eq_sum, Run.perTick_onError]
    simp only [JSARAsyncLoader.waitForMultipleGlobals]
    rw [h2]; simp

/-- C5: a wait of either JSARAsyncLoader poller with maxRetries > 0 during
which at no tick all requested bindings are available never invokes the
success callback and ends (once the scheduler may run more ticks than
maxRetries) in exactly one of the two failure outcomes, timeout or exhaustion,
whose handler is invoked once when supplied while the other is not invoked. -/
theorem JSARAsyncLoader.wait_never_available_fails
    (globalName : String) (globalNames : List String) (options : Options) (startTime : Int)
    (clock : Nat → Int) (hosts : Nat → Host) (fuel : Nat)
    (hR : 0 < (JSARAsyncLoader.assignConfig options).maxRetries)
    (hfuel : (JSARAsyncLoader.assignConfig options).maxRetries < (fuel : Int))
    (hnever : ∀ k, ¬ Resolves (hosts k) globalName)
    (hneverAll : ∀ k, ¬ ∀ name ∈ globalNames, Resolves (hosts k) name) :
    ((JSARAsyncLoader.waitForGlobal globalName options startTime clock hosts fuel).count
        Event.callback = 0 ∧
      ∃! o, (o = Outcome.timeout ∨ o = Outcome.exhausted) ∧
        (JSARAsyncLoader.waitForGlobal globalName options startTime clock hosts fuel).EndsWith
          options o) ∧
    ((JSARAsyncLoader.waitForMultipleGlobals globalNames options startTime clock hosts fuel).count
        Event.callback = 0 ∧
      ∃! o, (o = Outcome.timeout ∨ o = Outcome.exhausted) ∧
        (JSARAsyncLoader.waitForMultipleGlobals globalNames options startTime clock hosts
          fuel).EndsWith options o) := by
  constructor
  · obtain ⟨o, ho, hs⟩ := drive_endsWith
      (JSARAsyncLoader.waitForGlobalCheck_pollerTick options globalName startTime clock hosts)
      fuel (le_of_lt hR) hfuel
    have hne : o ≠ Outcome.success := by
      intro h
      obtain ⟨j, hj⟩ := hs h
      exact hnever j ((JSARAsyncLoader.globalExists_iff (hosts j) globalName).mp hj)
    refine ⟨?_, o, ⟨?_, ho⟩, fun o2 h2 => Run.EndsWith.unique h2.2 ho⟩
    · have := ho.2.1
      rw [if_neg hne] at this
      exact this
    · cases o <;> simp at hne ⊢
  · obtain ⟨o, ho, hs⟩ := drive_endsWith
      (JSARAsyncLoader.waitForMultipleGlobalsCheck_pollerTick options globalNames startTime clock
        hosts) fuel (le_of_lt hR) hfuel
    have hne : o ≠ Outcome.success := by
      intro h
      obtain ⟨j, hj⟩ := hs h
      exact hneverAll j ((JSARAsyncLoader.all_globalExists_iff (hosts j) globalNames).mp hj)
    refine ⟨?_, o, ⟨?_, ho⟩, fun o2 h2 => Run.EndsWith.unique h2.2 ho⟩
    · have := ho.2.1
      rw [if_neg hne] at this
      exact this
    · cases o <;> simp at hne ⊢

/-- C6: under ideal timers (tick k runs at elapsed time k * retryInterval) and
with the binding never available, a wait of JSARAsyncLoader.waitForGlobal with
maxRetries and retryInterval not negative (so for every positive pair) ends
with the failure whose budget runs out first in wall-clock terms: with
onTimeout when
timeout < maxRetries * retryInterval, and with onError (exhaustion) when
maxRetries * retryInterval < timeout. -/
theorem JSARAsyncLoader.waitForGlobal_ideal_timers_first_budget
    (globalName : String) (options : Options) (startTime : Int) (hosts : Nat → Host) (fuel : Nat)
    (hR : 0 ≤ (JSARAsyncLoader.assignConfig options).maxRetries)
    (hI : 0 ≤ (JSARAsyncLoader.assignConfig options).retryInterval)
    (hfuel : (JSARAsyncLoader.assignConfig options).maxRetries < (fuel : Int))
    (hnever : ∀ k, ¬ Resolves (hosts k) globalName) :
    ((JSARAsyncLoader.assignConfig options).timeout
        < (JSARAsyncLoader.assignConfig options).maxRetries
          * (JSARAsyncLoader.assignConfig options).retryInterval →
      (JSARAsyncLoader.waitForGlobal globalName options startTime
        (idealClock startTime (JSARAsyncLoader.assignConfig options).retryInterval) hosts
        fuel).EndsWith options Outcome.timeout) ∧
    ((JSARAsyncLoader.assignConfig options).maxRetries
          * (JSARAsyncLoader.assignConfig options).retryInterval
        < (JSARAsyncLoader.assignConfig options).timeout →
      (JSARAsyncLoader.waitForGlobal globalName options startTime
        (idealClock startTime (JSARAsyncLoader.assignConfig options).retryInterval) hosts
        fuel).EndsWith options Outcome.exhausted) := by
  obtain ⟨f, hf, hm⟩ := fuel_split hR hfuel
  have P := JSARAsyncLoader.waitForGlobalCheck_pollerTick options globalName startTime
    (idealClock startTime (JSARAsyncLoader.assignConfig options).retryInterval) hosts
  have hav : ∀ i, JSARAsyncLoader.globalExists (hosts i) globalName = false := by
    intro i
    have := hnever i
    rw [← JSARAsyncLoader.globalExists_iff] at this
    simpa using this
  constructor
  · intro hlt
    have e : fuel = (JSARAsyncLoader.assignConfig options).maxRetries.toNat + 1 + f := by omega
    obtain ⟨h1, h2, h3, h4⟩ := drive_times_out P f
      (JSARAsyncLoader.assignConfig options).maxRetries.toNat
      (by
        simp only [idealClock]
        rw [← hm]
        linarith)
      (by omega) (fun i _ => hav i)
      (JSARAsyncLoader.assignConfig options).maxRetries.toNat 0 (by omega)
    simp only [JSARAsyncLoader.waitForGlobal]
    rw [e]
    refine ⟨h1, by simpa using h2, ?_, by simpa using h4⟩
    rw [h3]; cases options.onTimeout <;> simp
  · intro hlt
    obtain ⟨h1, h2⟩ := drive_exhausted_at P f
      (JSARAsyncLoader.assignConfig options).maxRetries.toNat hm
      (by
        intro i hi
        simp only [idealClock]
        have hi2 : (i : Int) ≤ (JSARAsyncLoader.assignConfig options).maxRetries := by omega
        have := Int.mul_le_mul_of_nonneg_right hi2 hI
        linarith)
      (fun i _ => hav i)
    simp only [JSARAsyncLoader.waitForGlobal]
    rw [hf]
    refine Run.endsWith_of_tallies h1 h2 ?_ ?_ ?_
    · simp
    · simp
    · cases options.onError <;> simp

theorem JSARAsyncLoader.waitForMultipleGlobals_succeeds_at_first_available_witness :
    (JSARAsyncLoader.waitForMultipleGlobals ["A", "B"] Options.empty 0 (idealClock 0 20)
      (Example.hostsFrom 2 ["A", "B"]) 3).final = Final.finished Outcome.success ∧
    (JSARAsyncLoader.waitForMultipleGlobals ["A", "B"] Options.empty 0 (idealClock 0 20)
      (Example.hostsFrom 2 ["A", "B"]) 3).perTick Event.callback = List.replicate 2 0 ++ [1] ∧
    (JSARAsyncLoader.waitForMultipleGlobals ["A", "B"] Options.empty 0 (idealClock 0 20)
      (Example.hostsFrom 2 ["A", "B"]) 3).count Event.callback = 1 ∧
    (JSARAsyncLoader.waitForMultipleGlobals ["A", "B"] Options.empty 0 (idealClock 0 20)
      (Example.hostsFrom 2 ["A", "B"]) 3).count Event.onTimeout = 0 ∧
    (JSARAsyncLoader.waitForMultipleGlobals ["A", "B"] Options.empty 0 (idealClock 0 20)
      (Example.hostsFrom 2 ["A", "B"]) 3).count Event.onError = 0 :=
  JSARAsyncLoader.waitForMultipleGlobals_succeeds_at_first_available ["A", "B"] Options.empty 0
    (idealClock 0 20) (Example.hostsFrom 2 ["A", "B"]) 2 3
    (by
      intro i hi h
      have hA := h "A" (by simp)
      have hb : Example.hostsFrom 2 ["A", "B"] i = Example.bareHost := by
        simp [Example.hostsFrom, hi]
      rw [hb] at hA
      simp [Resolves, ResolvesIn, Example.bareHost] at hA)
    (by
      intro name hname
      refine Or.inl ⟨fun n => ["A", "B"].contains n, rfl, ?_⟩
      simpa using hname)
    (by decide)
    (by
      intro i hi
      simp only [idealClock, JSARAsyncLoader.assignConfig, Options.empty,
        JSARAsyncLoader.defaultConfig, Option.getD]
      omega)
    (by decide)

theorem JSARAsyncLoader.wait_never_available_fails_witness :
    ((JSARAsyncLoader.waitForGlobal "A" ⟨some 3, some 10, some 10000, some false, true, true⟩ 0
        (idealClock 0 10) (fun _ => Example.bareHost) 4).count Event.callback = 0 ∧
      ∃! o, (o = Outcome.timeout ∨ o = Outcome.exhausted) ∧
        (JSARAsyncLoader.waitForGlobal "A" ⟨some 3, some 10, some 10000, some false, true, true⟩ 0
          (idealClock 0 10) (fun _ => Example.bareHost) 4).EndsWith
          ⟨some 3, some 10, some 10000, some false, true, true⟩ o) ∧
    ((JSARAsyncLoader.waitForMultipleGlobals ["A", "B"]
        ⟨some 3, some 10, some 10000, some false, true, true⟩ 0
        (idealClock 0 10) (fun _ => Example.bareHost) 4).count Event.callback = 0 ∧
      ∃! o, (o = Outcome.timeout ∨ o = Outcome.exhausted) ∧
        (JSARAsyncLoader.waitForMultipleGlobals ["A", "B"]
          ⟨some 3, some 10, some 10000, some false, true, true⟩ 0
          (idealClock 0 10) (fun _ => Example.bareHost) 4).EndsWith
          ⟨some 3, some 10, some 10000, some false, true, true⟩ o) :=
  JSARAsyncLoader.wait_never_available_fails "A" ["A", "B"]
    ⟨some 3, some 10, some 10000, some false, true, true⟩ 0 (idealClock 0 10)
    (fun _ => Example.bareHost) 4 (by decide) (by decide)
    (by intro _ h; simp [Resolves, ResolvesIn, Example.bareHost] at h)
    (by
      intro _ h
      have hA := h "A" (by simp)
      simp [Resolves, ResolvesIn, Example.bareHost] at hA)

theorem JSARAsyncLoader.waitForGlobal_ideal_timers_first_budget_witness :
    (JSARAsyncLoader.waitForGlobal "A" ⟨some 1000, some 10, some 50, some false, true, true⟩ 0
      (idealClock 0 10) (fun _ => Example.bareHost) 1001).EndsWith
      ⟨some 1000, some 10, some 50, some false, true, true⟩ Outcome.timeout :=
  (JSARAsyncLoader.waitForGlobal_ideal_timers_first_budget "A"
    ⟨some 1000, some 10, some 50, some false, true, true⟩ 0 (fun _ => Example.bareHost) 1001
    (by decide) (by decide) (by decide)
    (by intro _ h; simp [Resolves, ResolvesIn, Example.bareHost] at h)).1 (by decide)

/-- C10: scenario 1. With maxRetries = 3, retryInterval = 10, timeout = 10000,
ideal timers and the binding never available, a wait of
JSARAsyncLoader.waitForGlobal evaluates the existence check exactly 3 times (on
ticks 0, 1, 2), then options.onError is invoked on tick 3, whose elapsed time
is 30, and options.onTimeout is never invoked. -/
theorem JSARAsyncLoader.scenario1_exhausted_after_three_checks
    (globalName : String) (debug : Option Bool) (onTimeout : Bool) (startTime : Int)
    (hosts : Nat → Host) (fuel : Nat) (hfuel : 3 < fuel)
    (hnever : ∀ k, ¬ Resolves (hosts k) globalName) :
    (JSARAsyncLoader.waitForGlobal globalName ⟨some 3, some 10, some 10000, debug, onTimeout, true⟩
      startTime (idealClock startTime 10) hosts fuel).final = Final.finished Outcome.exhausted ∧
    (JSARAsyncLoader.waitForGlobal globalName ⟨some 3, some 10, some 10000, debug, onTimeout, true⟩
      startTime (idealClock startTime 10) hosts fuel).perTick Event.probe = [1, 1, 1, 0] ∧
    (JSARAsyncLoader.waitForGlobal globalName ⟨some 3, some 10, some 10000, debug, onTimeout, true⟩
      startTime (idealClock startTime 10) hosts fuel).probes = 3 ∧
    (JSARAsyncLoader.waitForGlobal globalName ⟨some 3, some 10, some 10000, debug, onTimeout, true⟩
      startTime (idealClock startTime 10) hosts fuel).perTick Event.onError = [0, 0, 0, 1] ∧
    idealClock startTime 10 3 - startTime = 30 ∧
    (JSARAsyncLoader.waitForGlobal globalName ⟨some 3, some 10, some 10000, debug, onTimeout, true⟩
      startTime (idealClock startTime 10) hosts fuel).count Event.onTimeout = 0 := by
  obtain ⟨f, hf⟩ : ∃ f, fuel = 3 + (f + 1) := ⟨fuel - 4, by omega⟩
  subst hf
  have P := JSARAsyncLoader.waitForGlobalCheck_pollerTick
    ⟨some 3, some 10, some 10000, debug, onTimeout, true⟩ globalName startTime
    (idealClock startTime 10) hosts
  obtain ⟨h1, h2⟩ := drive_exhausted_at P f 3 (by simp [JSARAsyncLoader.assignConfig])
    (by
      intro i hi
      simp only [idealClock, JSARAsyncLoader.assignConfig, Option.getD]
      omega)
    (by
      intro i _
      have := hnever i
      rw [← JSARAsyncLoader.globalExists_iff] at this
      simpa using this)
  refine ⟨h1, ?_, ?_, ?_, ?_, ?_⟩
  · rw [Run.perTick_probe]
    simp only [JSARAsyncLoader.waitForGlobal]
    rw [h2]; simp [List.replicate]
  · rw [Run.probes, Run.count_eq_sum, Run.perTick_probe]
    simp only [JSARAsyncLoader.waitForGlobal]
    rw [h2]; simp [List.replicate]
  · rw [Run.perTick_onError]
    simp only [JSARAsyncLoader.waitForGlobal]
    rw [h2]; simp [List.replicate]
  · simp [idealClock]
  · rw [Run.count_eq_sum, Run.perTick_onTimeout]
    simp only [JSARAsyncLoader.waitForGlobal]
    rw [h2]; simp [List.replicate]

theorem JSARAsyncLoader.scenario1_exhausted_after_three_checks_witness :
    (JSARAsyncLoader.waitForGlobal "Foo" ⟨some 3, some 10, some 10000, some true, true, true⟩
      0 (idealClock 0 10) (fun _ => Example.nodeHost ["Bar"]) 4).final
      = Final.finished Outcome.exhausted ∧
    (JSARAsyncLoader.waitForGlobal "Foo" ⟨some 3, some 10, some 10000, some true, true, true⟩
      0 (idealClock 0 10) (fun _ => Example.nodeHost ["Bar"]) 4).perTick Event.onError
      = [0, 0, 0, 1] :=
  ⟨(JSARAsyncLoader.scenario1_exhausted_after_three_checks "Foo" (some true) true 0
      (fun _ => Example.nodeHost ["Bar"]) 4 (by decide)
      (by intro _ h; simp [Resolves, ResolvesIn, Example.nodeHost] at h)).1,
    (JSARAsyncLoader.scenario1_exhausted_after_three_checks "Foo" (some true) true 0
      (fun _ => Example.nodeHost ["Bar"]) 4 (by decide)
      (by intro _ h; simp [Resolves, ResolvesIn, Example.nodeHost] at h)).2.2.2.1⟩

/-- C7 (defect of the code): the tick of waitForMultipleGlobals
(webgl-async-loader.js) lets the exception of the existence check escape.  In a
browser-like host (window an object without the name, global not declared) and
in a Node-like host (window not declared) the tick at the start of the wait
raises out of `check` right after starting the existence check: retries is not
incremented, no further tick is scheduled, and the whole wait ends by the
exception.  The sibling JSARAsyncLoader.waitForMultipleGlobals retries in the
same hosts. -/
theorem WebglAsyncLoader.waitForMultipleGlobalsCheck_raises :
    WebglAsyncLoader.waitForMultipleGlobalsCheck Options.empty ["A"] 0 0
        (Example.windowHost []) 0 = ⟨[Event.probe], Next.raise⟩ ∧
    WebglAsyncLoader.waitForMultipleGlobalsCheck Options.empty ["A"] 0 0
        (Example.nodeHost ["A"]) 0 = ⟨[Event.probe], Next.raise⟩ ∧
    (WebglAsyncLoader.waitForMultipleGlobals ["A"] Options.empty 0 (idealClock 0 10)
        (fun _ => Example.windowHost []) 101).final = Final.raised ∧
    (WebglAsyncLoader.waitForMultipleGlobals ["A"] Options.empty 0 (idealClock 0 10)
        (fun _ => Example.windowHost []) 101).ticks = [[Event.probe]] ∧
    (JSARAsyncLoader.waitForMultipleGlobalsCheck JSARAsyncLoader.defaultConfig Options.empty ["A"]
        0 0 (Example.windowHost []) 0).next = Next.again 1 := by
  refine ⟨by decide, by decide, by decide, by decide, by decide⟩

/-- C8: on a tick of waitForGlobal (webgl-async-loader.js) that reaches the
existence check, a name whose direct evaluation raises does not make the tick
raise: the binding counts as not available, whatever window and global hold;
retries is incremented, the next tick is scheduled after retryInterval, and no
callback is invoked on that tick. -/
theorem WebglAsyncLoader.waitForGlobalCheck_swallows_eval_exception
    (options : Options) (globalName : String) (startTime now : Int) (host : Host) (retries : Nat)
    (ht : now - startTime ≤ WebglAsyncLoader.orDefault options.timeout 5000)
    (hr : (retries : Int) < WebglAsyncLoader.orDefault options.maxRetries 100)
    (hraise : WebglAsyncLoader.directEval host globalName = EvalResult.raises) :
    WebglAsyncLoader.globalExists host globalName = false ∧
    (WebglAsyncLoader.waitForGlobalCheck options globalName startTime now host retries).next
      = Next.again (retries + 1) ∧
    (WebglAsyncLoader.waitForGlobalCheck options globalName startTime now host retries).events
      = [Event.probe,
         Event.consoleLog (LogLine.waiting [globalName] (retries + 1)
           (WebglAsyncLoader.orDefault options.maxRetries 100)),
         Event.setTimeout (WebglAsyncLoader.orDefault options.retryInterval 10)] ∧
    Event.callback ∉
      (WebglAsyncLoader.waitForGlobalCheck options globalName startTime now host retries).events ∧
    Event.onTimeout ∉
      (WebglAsyncLoader.waitForGlobalCheck options globalName startTime now host retries).events ∧
    Event.onError ∉
      (WebglAsyncLoader.waitForGlobalCheck options globalName startTime now host retries).events := by
  have h1 : ¬ now - startTime > WebglAsyncLoader.orDefault options.timeout 5000 := by
    simpa using ht
  have h3 : ¬ (retries : Int) ≥ WebglAsyncLoader.orDefault options.maxRetries 100 := by
    simpa using hr
  have hex : WebglAsyncLoader.globalExists host globalName = false := by
    simp [WebglAsyncLoader.globalExists, hraise]
  simp [WebglAsyncLoader.waitForGlobalCheck, if_neg h1, if_neg h3, hex]

theorem WebglAsyncLoader.waitForGlobalCheck_swallows_eval_exception_witness :
    ((0 : Int) - 0 ≤ WebglAsyncLoader.orDefault Options.empty.timeout 5000
      ∧ ((0 : Nat) : Int) < WebglAsyncLoader.orDefault Options.empty.maxRetries 100
      ∧ WebglAsyncLoader.directEval Example.bareHost "Foo" = EvalResult.raises)
    ∧ (WebglAsyncLoader.waitForGlobalCheck Options.empty "Foo" 0 0 Example.bareHost 0).next
      = Next.again (0 + 1) :=
  ⟨⟨by decide, by decide, by decide⟩,
    (WebglAsyncLoader.waitForGlobalCheck_swallows_eval_exception Options.empty "Foo" 0 0
      Example.bareHost 0 (by decide) (by decide) (by decide)).2.1⟩

/-- C9 (defect of the code): the tick of waitForGlobal (webgl-async-loader.js)
does not succeed although the name resolves in one of the three checked scopes.
In a host whose window object holds Foo while the direct evaluation of Foo
raises, the exception of `eval` aborts the whole disjunction, the window and
global tests are never reached, and the tick retries.  The sibling
JSARAsyncLoader.waitForGlobal succeeds on the same host. -/
theorem WebglAsyncLoader.waitForGlobalCheck_misses_window_binding :
    ResolvesIn (Example.windowHost ["Foo"]).window "Foo" ∧
    WebglAsyncLoader.waitForGlobalCheck Options.empty "Foo" 0 0 (Example.windowHost ["Foo"]) 0
      = ⟨[Event.probe, Event.consoleLog (LogLine.waiting ["Foo"] 1 100), Event.setTimeout 10],
          Next.again 1⟩ ∧
    (WebglAsyncLoader.waitForGlobal "Foo" Options.empty 0 (idealClock 0 10)
        (fun _ => Example.windowHost ["Foo"]) 101).final = Final.finished Outcome.exhausted ∧
    (JSARAsyncLoader.waitForGlobalCheck JSARAsyncLoader.defaultConfig Options.empty "Foo" 0 0
        (Example.windowHost ["Foo"]) 0).next = Next.stop Outcome.success := by
  refine ⟨⟨_, rfl, by decide⟩, by decide, by decide, by decide⟩

/-! ## Further lemmas on the event loop -/

/-- When tick `j` is the first tick past the time budget, is within the retry
budget and no earlier tick finds the bindings, the run is `j` retries followed
by the timeout tick. -/
theorem drive_timeout_at {check : Nat → Nat → Tick} {elapsed : Nat → Int}
    {timeout maxRetries : Int} {avail : Nat → Bool} {onT onE : Bool}
    (P : PollerTick check elapsed timeout maxRetries avail onT onE) (fuel j : Nat)
    (hbefore : ∀ i, i < j → elapsed i ≤ timeout ∧ avail i = false)
    (hjM : (j : Int) ≤ maxRetries) (hj : timeout < elapsed j) :
    (drive check (j + (fuel + 1)) 0 0).final = Final.finished Outcome.timeout ∧
    (drive check (j + (fuel + 1)) 0 0).ticks.map tally
      = List.replicate j (1, 0, 0, 0) ++ [(0, 0, onT.toNat, 0)] := by
  have hs := drive_retry_stretch P (fuel + 1) j 0 0 (by
    intro i hi
    obtain ⟨a, b⟩ := hbefore i hi
    refine ⟨by simpa using a, ?_, by simpa using b⟩
    push_cast
    omega)
  obtain ⟨hn, hc⟩ := P.timedOut j j hj
  simp only [Nat.zero_add] at hs
  rw [drive_stop fuel hn] at hs
  exact ⟨hs.1, by rw [hs.2]; simp [hc]⟩

/-- Every tick of a run is a run of `check`. -/
theorem drive_ticks_mem {check : Nat → Nat → Tick} :
    ∀ (fuel k r : Nat) (evs : List Event), evs ∈ (drive check fuel k r).ticks →
      ∃ k1 r1, evs = (check k1 r1).events := by
  intro fuel
  induction fuel with
  | zero => intro k r evs h; simp [drive] at h
  | succ n ih =>
    intro k r evs h
    cases hn : (check k r).next with
    | stop o =>
      rw [drive_stop n hn] at h
      exact ⟨k, r, by simpa using h⟩
    | raise =>
      simp only [drive, hn] at h
      exact ⟨k, r, by simpa using h⟩
    | again r1 =>
      rw [drive_again n hn] at h
      rcases List.mem_cons.mp h with h | h
      · exact ⟨k, r, h⟩
      · exact ih (k + 1) r1 evs h

/-- Every tick of a run that is followed by another tick is a run of `check`
that scheduled a further tick. -/
theorem drive_ticks_dropLast {check : Nat → Nat → Tick} :
    ∀ (fuel k r : Nat) (evs : List Event), evs ∈ (drive check fuel k r).ticks.dropLast →
      ∃ k1 r1 r2, evs = (check k1 r1).events ∧ (check k1 r1).next = Next.again r2 := by
  intro fuel
  induction fuel with
  | zero => intro k r evs h; simp [drive] at h
  | succ n ih =>
    intro k r evs h
    cases hn : (check k r).next with
    | stop o =>
      rw [drive_stop n hn] at h
      simp at h
    | raise =>
      simp only [drive, hn] at h
      simp at h
    | again r1 =>
      rw [drive_again n hn] at h
      cases hrest : (drive check n (k + 1) r1).ticks with
      | nil =>
        rw [hrest] at h
        simp at h
      | cons t ts =>
        rw [hrest, List.dropLast_cons₂] at h
        rcases List.mem_cons.mp h with h | h
        · exact ⟨k, r, r1, h, hn⟩
        · exact ih (k + 1) r1 evs (by rw [hrest]; exact h)

/-- Bounds of a run in terms of the retry budget: the number of ticks and the
number of existence checks, whatever the fuel. -/
theorem drive_bounds {check : Nat → Nat → Tick} {elapsed : Nat → Int}
    {timeout maxRetries : Int} {avail : Nat → Bool} {onT onE : Bool}
    (P : PollerTick check elapsed timeout maxRetries avail onT onE) :
    ∀ (fuel k r : Nat), (r : Int) ≤ maxRetries →
      (((drive check fuel k r).ticks.length : Nat) : Int) + r ≤ maxRetries + 1 ∧
      (((drive check fuel k r).probes : Nat) : Int) + r ≤ maxRetries := by
  intro fuel
  induction fuel with
  | zero => intro k r h; simp [drive, Run.probes, Run.count]; omega
  | succ n ih =>
    intro k r h
    by_cases ht : timeout < elapsed k
    · obtain ⟨hn, hc⟩ := P.timedOut k r ht
      obtain ⟨h1, -⟩ := tally_eq hc
      simp [drive_stop n hn, Run.probes, Run.count, h1]; omega
    · by_cases hr : maxRetries ≤ (r : Int)
      · obtain ⟨hn, hc⟩ := P.exhausted k r (not_lt.mp ht) hr
        obtain ⟨h1, -⟩ := tally_eq hc
        simp [drive_stop n hn, Run.probes, Run.count, h1]; omega
      · cases ha : avail k with
        | true =>
          obtain ⟨hn, hc⟩ := P.found k r (not_lt.mp ht) (not_le.mp hr) ha
          obtain ⟨h1, -⟩ := tally_eq hc
          simp [drive_stop n hn, Run.probes, Run.count, h1]; omega
        | false =>
          obtain ⟨hn, hc⟩ := P.retry k r (not_lt.mp ht) (not_le.mp hr) ha
          obtain ⟨h1, -⟩ := tally_eq hc
          obtain ⟨i1, i2⟩ := ih (k + 1) (r + 1) (by push_cast; omega)
          rw [drive_again n hn]
          simp only [Run.probes, Run.count] at i2 ⊢
          simp only [List.length_cons, List.map_cons, List.sum_cons, h1]
          push_cast at i1 i2 ⊢
          omega

/-- At most one callback is invoked in a whole run, whatever the fuel. -/
theorem drive_callbacks_le_one {check : Nat → Nat → Tick} {elapsed : Nat → Int}
    {timeout maxRetries : Int} {avail : Nat → Bool} {onT onE : Bool}
    (P : PollerTick check elapsed timeout maxRetries avail onT onE) :
    ∀ (fuel k r : Nat),
      (drive check fuel k r).count Event.callback + (drive check fuel k r).count Event.onTimeout
        + (drive check fuel k r).count Event.onError ≤ 1 := by
  intro fuel
  induction fuel with
  | zero => intro k r; simp [drive, Run.count]
  | succ n ih =>
    intro k r
    by_cases ht : timeout < elapsed k
    · obtain ⟨hn, hc⟩ := P.timedOut k r ht
      obtain ⟨-, h2, h3, h4⟩ := tally_eq hc
      simp only [drive_stop n hn, Run.count, List.map_cons, List.map_nil, List.sum_cons,
        List.sum_nil, h2, h3, h4]
      cases onT <;> simp
    · by_cases hr : maxRetries ≤ (r : Int)
      · obtain ⟨hn, hc⟩ := P.exhausted k r (not_lt.mp ht) hr
        obtain ⟨-, h2, h3, h4⟩ := tally_eq hc
        simp only [drive_stop n hn, Run.count, List.map_cons, List.map_nil, List.sum_cons,
          List.sum_nil, h2, h3, h4]
        cases onE <;> simp
      · cases ha : avail k with
        | true =>
          obtain ⟨hn, hc⟩ := P.found k r (not_lt.mp ht) (not_le.mp hr) ha
          obtain ⟨-, h2, h3, h4⟩ := tally_eq hc
          simp [drive_stop n hn, Run.count, h2, h3, h4]
        | false =>
          obtain ⟨hn, hc⟩ := P.retry k r (not_lt.mp ht) (not_le.mp hr) ha
          obtain ⟨-, h2, h3, h4⟩ := tally_eq hc
          have := ih (k + 1) (r + 1)
          rw [drive_again n hn]
          simp only [Run.count] at this ⊢
          simp only [List.map_cons, List.sum_cons, h2, h3, h4]
          omega

/-- The four branches of `check` in `JSARAsyncLoader.waitForGlobal`. -/
theorem JSARAsyncLoader.waitForGlobalCheck_cases (config : Config) (options : Options)
    (globalName : String) (startTime now : Int) (host : Host) (retries : Nat) :
    (config.timeout < now - startTime ∧
      JSARAsyncLoader.waitForGlobalCheck config options globalName startTime now host retries
        = ⟨emitIf config.debug (Event.consoleError (LogLine.timeoutWaiting [globalName]))
            ++ emitIf options.onTimeout Event.onTimeout, Next.stop Outcome.timeout⟩) ∨
    (now - startTime ≤ config.timeout ∧ config.maxRetries ≤ (retries : Int) ∧
      JSARAsyncLoader.waitForGlobalCheck config options globalName startTime now host retries
        = ⟨emitIf config.debug (Event.consoleError (LogLine.maxRetriesReached [globalName]))
            ++ emitIf options.onError Event.onError, Next.stop Outcome.exhausted⟩) ∨
    (now - startTime ≤ config.timeout ∧ (retries : Int) < config.maxRetries ∧
      JSARAsyncLoader.globalExists host globalName = true ∧
      JSARAsyncLoader.waitForGlobalCheck config options globalName startTime now host retries
        = ⟨Event.probe :: emitIf config.debug (Event.consoleLog (LogLine.nowAvailable [globalName]))
            ++ [Event.callback], Next.stop Outcome.success⟩) ∨
    (now - startTime ≤ config.timeout ∧ (retries : Int) < config.maxRetries ∧
      JSARAsyncLoader.globalExists host globalName = false ∧
      JSARAsyncLoader.waitForGlobalCheck config options globalName startTime now host retries
        = ⟨Event.probe :: emitIf (config.debug && (retries + 1) % 10 == 0)
              (Event.consoleLog (LogLine.waiting [globalName] (retries + 1) config.maxRetries))
            ++ [Event.setTimeout config.retryInterval], Next.again (retries + 1)⟩) := by
  by_cases h1 : now - startTime > config.timeout
  · exact Or.inl ⟨h1, by simp only [JSARAsyncLoader.waitForGlobalCheck, if_pos h1]⟩
  · by_cases h2 : (retries : Int) ≥ config.maxRetries
    · exact Or.inr (Or.inl ⟨not_lt.mp h1, h2,
        by simp only [JSARAsyncLoader.waitForGlobalCheck, if_neg h1, if_pos h2]⟩)
    · cases h3 : JSARAsyncLoader.globalExists host globalName with
      | true =>
        exact Or.inr (Or.inr (Or.inl ⟨not_lt.mp h1, not_le.mp h2, rfl,
          by simp only [JSARAsyncLoader.waitForGlobalCheck, if_neg h1, if_neg h2, h3, if_true]⟩))
      | false =>
        exact Or.inr (Or.inr (Or.inr ⟨not_lt.mp h1, not_le.mp h2, rfl,
          by simp [JSARAsyncLoader.waitForGlobalCheck, if_neg h1, if_neg h2, h3]⟩))

/-- The four branches of `check` in `JSARAsyncLoader.waitForMultipleGlobals`. -/
theorem JSARAsyncLoader.waitForMultipleGlobalsCheck_cases (config : Config) (options : Options)
    (globalNames : List String) (startTime now : Int) (host : Host) (retries : Nat) :
    (config.timeout < now - startTime ∧
      JSARAsyncLoader.waitForMultipleGlobalsCheck config options globalNames startTime now host
          retries
        = ⟨emitIf config.debug (Event.consoleError (LogLine.timeoutWaiting globalNames))
            ++ emitIf options.onTimeout Event.onTimeout, Next.stop Outcome.timeout⟩) ∨
    (now - startTime ≤ config.timeout ∧ config.maxRetries ≤ (retries : Int) ∧
      JSARAsyncLoader.waitForMultipleGlobalsCheck config options globalNames startTime now host
          retries
        = ⟨emitIf config.debug (Event.consoleError (LogLine.maxRetriesReached globalNames))
            ++ emitIf options.onError Event.onError, Next.stop Outcome.exhausted⟩) ∨
    (now - startTime ≤ config.timeout ∧ (retries : Int) < config.maxRetries ∧
      globalNames.all (JSARAsyncLoader.globalExists host) = true ∧
      JSARAsyncLoader.waitForMultipleGlobalsCheck config options globalNames startTime now host
          retries
        = ⟨Event.probe :: emitIf config.debug (Event.consoleLog (LogLine.nowAvailable globalNames))
            ++ [Event.callback], Next.stop Outcome.success⟩) ∨
    (now - startTime ≤ config.timeout ∧ (retries : Int) < config.maxRetries ∧
      globalNames.all (JSARAsyncLoader.globalExists host) = false ∧
      JSARAsyncLoader.waitForMultipleGlobalsCheck config options globalNames startTime now host
          retries
        = ⟨Event.probe :: emitIf (config.debug && (retries + 1) % 10 == 0)
              (Event.consoleLog (LogLine.waiting
                (globalNames.filter (JSARAsyncLoader.isMissing host)) (retries + 1)
                config.maxRetries))
            ++ [Event.setTimeout config.retryInterval], Next.again (retries + 1)⟩) := by
  by_cases h1 : now - startTime > config.timeout
  · exact Or.inl ⟨h1, by simp only [JSARAsyncLoader.waitForMultipleGlobalsCheck, if_pos h1]⟩
  · by_cases h2 : (retries : Int) ≥ config.maxRetries
    · exact Or.inr (Or.inl ⟨not_lt.mp h1, h2,
        by simp only [JSARAsyncLoader.waitForMultipleGlobalsCheck, if_neg h1, if_pos h2]⟩)
    · cases h3 : globalNames.all (JSARAsyncLoader.globalExists host) with
      | true =>
        exact Or.inr (Or.inr (Or.inl ⟨not_lt.mp h1, not_le.mp h2, rfl,
          by simp only [JSARAsyncLoader.waitForMultipleGlobalsCheck, if_neg h1, if_neg h2, h3,
            if_true]⟩))
      | false =>
        exact Or.inr (Or.inr (Or.inr ⟨not_lt.mp h1, not_le.mp h2, rfl,
          by simp [JSARAsyncLoader.waitForMultipleGlobalsCheck, if_neg h1, if_neg h2, h3]⟩))

/-! ## Claims, continued -/

/-- C11 as stated fails: in scenario 2 (maxRetries = 1000, retryInterval = 10,
timeout = 50, ideal timers, binding never available) the tick whose elapsed
time is 50 does not invoke options.onTimeout; no tick at elapsed 50 does. -/
theorem JSARAsyncLoader.scenario2_no_timeout_at_50 :
    ¬ ∃ k, idealClock 0 10 k - 0 = 50 ∧
      ((JSARAsyncLoader.waitForGlobal "Foo" ⟨some 1000, some 10, some 50, some false, true, true⟩
        0 (idealClock 0 10) (fun _ => Example.bareHost) 1001).perTick Event.onTimeout).getD k 0
        = 1 := by
  rintro ⟨k, hk, h⟩
  have hk5 : k = 5 := by
    simp only [idealClock] at hk
    omega
  subst hk5
  revert h
  decide

/-- C11 (amended): scenario 2. With maxRetries = 1000, retryInterval = 10,
timeout = 50, ideal timers and the binding never available, a wait of
JSARAsyncLoader.waitForGlobal checks on the ticks at elapsed 0, 10, ..., 50
(the tick at 50 is not past the timeout, the test being strict), then
options.onTimeout is invoked on the tick at elapsed 60, the first tick whose
elapsed time exceeds 50, after 6 retries (fewer than 1000); options.onError is
never invoked. -/
theorem JSARAsyncLoader.scenario2_timeout_at_60
    (globalName : String) (debug : Option Bool) (onError : Bool) (startTime : Int)
    (hosts : Nat → Host) (fuel : Nat) (hfuel : 6 < fuel)
    (hnever : ∀ k, ¬ Resolves (hosts k) globalName) :
    (JSARAsyncLoader.waitForGlobal globalName ⟨some 1000, some 10, some 50, debug, true, onError⟩
      startTime (idealClock startTime 10) hosts fuel).final = Final.finished Outcome.timeout ∧
    (JSARAsyncLoader.waitForGlobal globalName ⟨some 1000, some 10, some 50, debug, true, onError⟩
      startTime (idealClock startTime 10) hosts fuel).perTick Event.onTimeout
      = [0, 0, 0, 0, 0, 0, 1] ∧
    (JSARAsyncLoader.waitForGlobal globalName ⟨some 1000, some 10, some 50, debug, true, onError⟩
      startTime (idealClock startTime 10) hosts fuel).perTick Event.probe
      = [1, 1, 1, 1, 1, 1, 0] ∧
    idealClock startTime 10 5 - startTime = 50 ∧
    idealClock startTime 10 6 - startTime = 60 ∧
    (JSARAsyncLoader.waitForGlobal globalName ⟨some 1000, some 10, some 50, debug, true, onError⟩
      startTime (idealClock startTime 10) hosts fuel).probes = 6 ∧
    (JSARAsyncLoader.waitForGlobal globalName ⟨some 1000, some 10, some 50, debug, true, onError⟩
      startTime (idealClock startTime 10) hosts fuel).count Event.onError = 0 := by
  obtain ⟨f, hf⟩ : ∃ f, fuel = 6 + (f + 1) := ⟨fuel - 7, by omega⟩
  subst hf
  have P := JSARAsyncLoader.waitForGlobalCheck_pollerTick
    ⟨some 1000, some 10, some 50, debug, true, onError⟩ globalName startTime
    (idealClock startTime 10) hosts
  obtain ⟨h1, h2⟩ := drive_timeout_at P f 6
    (by
      intro i hi
      refine ⟨?_, ?_⟩
      · simp only [idealClock, JSARAsyncLoader.assignConfig, Option.getD]
        omega
      · have := hnever i
        rw [← JSARAsyncLoader.globalExists_iff] at this
        simpa using this)
    (by simp [JSARAsyncLoader.assignConfig])
    (by simp [idealClock, JSARAsyncLoader.assignConfig])
  refine ⟨h1, ?_, ?_, ?_, ?_, ?_, ?_⟩
  · rw [Run.perTick_onTimeout]
    simp only [JSARAsyncLoader.waitForGlobal]
    rw [h2]; simp [List.replicate]
  · rw [Run.perTick_probe]
    simp only [JSARAsyncLoader.waitForGlobal]
    rw [h2]; simp [List.replicate]
  · simp [idealClock]
  · simp [idealClock]
  · rw [Run.probes, Run.count_eq_sum, Run.perTick_probe]
    simp only [JSARAsyncLoader.waitForGlobal]
    rw [h2]; simp [List.replicate]
  · rw [Run.count_eq_sum, Run.perTick_onError]
    simp only [JSARAsyncLoader.waitForGlobal]
    rw [h2]; simp [List.replicate]

theorem JSARAsyncLoader.scenario2_timeout_at_60_witness :
    (JSARAsyncLoader.waitForGlobal "Foo" ⟨some 1000, some 10, some 50, some false, true, true⟩
      0 (idealClock 0 10) (fun _ => Example.bareHost) 1001).perTick Event.onTimeout
      = [0, 0, 0, 0, 0, 0, 1] :=
  (JSARAsyncLoader.scenario2_timeout_at_60 "Foo" (some false) true 0
    (fun _ => Example.bareHost) 1001 (by decide)
    (by intro _ h; simp [Resolves, ResolvesIn, Example.bareHost] at h)).2.1

/-- C12 as stated fails: in scenario 3 (retryInterval = 10, default budgets,
ideal timers, Foo available from elapsed 25 on) the wait has ticks at elapsed
0, 10, 20 and 30; the third tick runs at elapsed 20 and does not invoke the
callback, and the tick that does is the fourth tick. -/
theorem JSARAsyncLoader.scenario3_third_tick_no_success :
    (JSARAsyncLoader.waitForGlobal "Foo" ⟨none, some 10, none, some false, true, true⟩ 0
      (idealClock 0 10)
      (fun k => if 25 ≤ idealClock 0 10 k then Example.windowHost ["Foo"] else Example.bareHost)
      101).perTick Event.callback = [0, 0, 0, 1] ∧
    (JSARAsyncLoader.waitForGlobal "Foo" ⟨none, some 10, none, some false, true, true⟩ 0
      (idealClock 0 10)
      (fun k => if 25 ≤ idealClock 0 10 k then Example.windowHost ["Foo"] else Example.bareHost)
      101).perTick Event.probe = [1, 1, 1, 1] ∧
    idealClock 0 10 2 - 0 = 20 ∧ idealClock 0 10 3 - 0 = 30 := by
  refine ⟨by decide, by decide, by decide, by decide⟩

/-- C12 (amended): scenario 3. With retryInterval = 10, budgets that do not
bind (maxRetries above 3, timeout at least 30), ideal timers and Foo available
exactly from elapsed 25 on, the success callback is invoked exactly once, on
the first tick at or after 25, which is the tick at elapsed 30; that tick is
the fourth tick of the wait, the ticks running at elapsed 0, 10, 20 and 30. -/
theorem JSARAsyncLoader.scenario3_success_on_fourth_tick
    (options : Options) (startTime : Int) (hosts : Nat → Host) (fuel : Nat)
    (hI : (JSARAsyncLoader.assignConfig options).retryInterval = 10)
    (hM : 3 < (JSARAsyncLoader.assignConfig options).maxRetries)
    (hT : 30 ≤ (JSARAsyncLoader.assignConfig options).timeout)
    (hfoo : ∀ k, Resolves (hosts k) "Foo" ↔ 25 ≤ idealClock startTime 10 k - startTime)
    (hfuel : 3 < fuel) :
    (JSARAsyncLoader.waitForGlobal "Foo" options startTime
      (idealClock startTime (JSARAsyncLoader.assignConfig options).retryInterval) hosts fuel).final = Final.finished Outcome.success ∧
    (JSARAsyncLoader.waitForGlobal "Foo" options startTime
      (idealClock startTime (JSARAsyncLoader.assignConfig options).retryInterval) hosts fuel).perTick Event.callback = [0, 0, 0, 1] ∧
    (JSARAsyncLoader.waitForGlobal "Foo" options startTime
      (idealClock startTime (JSARAsyncLoader.assignConfig options).retryInterval) hosts fuel).count Event.callback = 1 ∧
    (JSARAsyncLoader.waitForGlobal "Foo" options startTime
      (idealClock startTime (JSARAsyncLoader.assignConfig options).retryInterval) hosts fuel).perTick Event.probe = [1, 1, 1, 1] ∧
    idealClock startTime 10 2 - startTime = 20 ∧
    idealClock startTime 10 3 - startTime = 30 := by
  obtain ⟨f, hf⟩ : ∃ f, fuel = 3 + (f + 1) := ⟨fuel - 4, by omega⟩
  subst hf
  rw [hI]
  have P := JSARAsyncLoader.waitForGlobalCheck_pollerTick options "Foo" startTime
    (idealClock startTime 10) hosts
  obtain ⟨h1, h2⟩ := drive_success_at P f 3
    (by
      intro i hi
      refine ⟨?_, ?_⟩
      · simp only [idealClock]
        omega
      · have hno : ¬ Resolves (hosts i) "Foo" := by
          rw [hfoo i]
          simp only [idealClock]
          omega
        rw [← JSARAsyncLoader.globalExists_iff] at hno
        simpa using hno)
    (by simp only [idealClock]; omega)
    ((JSARAsyncLoader.globalExists_iff (hosts 3) "Foo").mpr
      ((hfoo 3).mpr (by simp only [idealClock]; omega)))
    (by exact_mod_cast hM)
  refine ⟨h1, ?_, ?_, ?_, ?_, ?_⟩
  · rw [Run.perTick_callback]
    simp only [JSARAsyncLoader.waitForGlobal]
    rw [h2]; simp [List.replicate]
  · rw [Run.count_eq_sum, Run.perTick_callback]
    simp only [JSARAsyncLoader.waitForGlobal]
    rw [h2]; simp [List.replicate]
  · rw [Run.perTick_probe]
    simp only [JSARAsyncLoader.waitForGlobal]
    rw [h2]; simp [List.replicate]
  · simp [idealClock]
  · simp [idealClock]

theorem JSARAsyncLoader.scenario3_success_on_fourth_tick_witness :
    (JSARAsyncLoader.waitForGlobal "Foo" ⟨none, some 10, none, some false, true, true⟩ 0
      (idealClock 0
        (JSARAsyncLoader.assignConfig ⟨none, some 10, none, some false, true, true⟩).retryInterval)
      (fun k => if 25 ≤ idealClock 0 10 k - 0 then Example.windowHost ["Foo"]
        else Example.bareHost) 4).perTick Event.callback = [0, 0, 0, 1] :=
  (JSARAsyncLoader.scenario3_success_on_fourth_tick
    ⟨none, some 10, none, some false, true, true⟩ 0
    (fun k => if 25 ≤ idealClock 0 10 k - 0 then Example.windowHost ["Foo"]
      else Example.bareHost) 4 (by decide) (by decide) (by decide)
    (by
      intro k
      by_cases h : 25 ≤ idealClock 0 10 k - 0
      · simp only [h, if_true, iff_true]
        exact Or.inl ⟨_, rfl, by decide⟩
      · simp only [h, if_false, iff_false]
        intro hr
        simp [Resolves, ResolvesIn, Example.bareHost] at hr)
    (by decide)).2.1

/-- C13 as stated fails: the call runs the first check before it returns.
With Foo already present, the call of JSARAsyncLoader.waitForGlobal and the
call of waitForGlobal (webgl-async-loader.js) each evaluate the existence
check and invoke the success callback inside the call; with the scheduler
never run (fuel 1) the run already holds that tick. -/
theorem JSARAsyncLoader.call_runs_first_check :
    (JSARAsyncLoader.waitForGlobalCall "Foo" Options.empty 0 0 (Example.windowHost ["Foo"])).events
      = [Event.probe, Event.consoleLog (LogLine.nowAvailable ["Foo"]), Event.callback] ∧
    (JSARAsyncLoader.waitForGlobal "Foo" Options.empty 0 (idealClock 0 20)
      (fun _ => Example.windowHost ["Foo"]) 1).count Event.callback = 1 ∧
    (JSARAsyncLoader.waitForMultipleGlobalsCall ["Foo"] Options.empty 0 0
      (Example.windowHost ["Foo"])).events
      = [Event.probe, Event.consoleLog (LogLine.nowAvailable ["Foo"]), Event.callback] ∧
    (WebglAsyncLoader.waitForGlobalCall "Foo" Options.empty 0 0
      ⟨none, none, fun _ => EvalResult.defined⟩).events
      = [Event.probe, Event.consoleLog (LogLine.nowAvailable ["Foo"]), Event.callback] := by
  refine ⟨by decide, by decide, by decide, by decide⟩

/-- C13 (amended): a call to JSARAsyncLoader.waitForGlobal or
JSARAsyncLoader.waitForMultipleGlobals runs the first check synchronously and
then returns.  Exactly one tick, tick 0, is executed inside the call: it is
the first tick of every run and the whole run when the scheduler never runs.
So at most one existence check is evaluated and at most one callback is
invoked before the call returns; the success callback is invoked inside the
call exactly when the elapsed time is within timeout, maxRetries is positive
and the requested bindings are already available.  Every further check runs
from a tick scheduled by setTimeout: a tick that does not end the wait
schedules exactly one. -/
theorem JSARAsyncLoader.call_is_first_tick
    (globalName : String) (globalNames : List String) (options : Options) (startTime : Int)
    (clock : Nat → Int) (hosts : Nat → Host) (fuel : Nat) :
    ((JSARAsyncLoader.waitForGlobal globalName options startTime clock hosts (fuel + 1)).ticks.head?
        = some (JSARAsyncLoader.waitForGlobalCall globalName options startTime (clock 0)
            (hosts 0)).events ∧
      (JSARAsyncLoader.waitForGlobal globalName options startTime clock hosts 1).ticks
        = [(JSARAsyncLoader.waitForGlobalCall globalName options startTime (clock 0)
            (hosts 0)).events] ∧
      (JSARAsyncLoader.waitForGlobalCall globalName options startTime (clock 0)
        (hosts 0)).events.count Event.probe ≤ 1 ∧
      (JSARAsyncLoader.waitForGlobalCall globalName options startTime (clock 0)
          (hosts 0)).events.count Event.callback
        + (JSARAsyncLoader.waitForGlobalCall globalName options startTime (clock 0)
          (hosts 0)).events.count Event.onTimeout
        + (JSARAsyncLoader.waitForGlobalCall globalName options startTime (clock 0)
          (hosts 0)).events.count Event.onError ≤ 1 ∧
      ((JSARAsyncLoader.waitForGlobalCall globalName options startTime (clock 0)
          (hosts 0)).events.count Event.callback = 1 ↔
        clock 0 - startTime ≤ (JSARAsyncLoader.assignConfig options).timeout ∧
        0 < (JSARAsyncLoader.assignConfig options).maxRetries ∧
        Resolves (hosts 0) globalName) ∧
      ((JSARAsyncLoader.waitForGlobalCall globalName options startTime (clock 0)
          (hosts 0)).next = Next.again 1 →
        (JSARAsyncLoader.waitForGlobalCall globalName options startTime (clock 0)
          (hosts 0)).events.filter Event.isTimer
          = [Event.setTimeout (JSARAsyncLoader.assignConfig options).retryInterval])) ∧
    ((JSARAsyncLoader.waitForMultipleGlobals globalNames options startTime clock hosts
        (fuel + 1)).ticks.head?
        = some (JSARAsyncLoader.waitForMultipleGlobalsCall globalNames options startTime (clock 0)
            (hosts 0)).events ∧
      (JSARAsyncLoader.waitForMultipleGlobals globalNames options startTime clock hosts 1).ticks
        = [(JSARAsyncLoader.waitForMultipleGlobalsCall globalNames options startTime (clock 0)
            (hosts 0)).events] ∧
      (JSARAsyncLoader.waitForMultipleGlobalsCall globalNames options startTime (clock 0)
        (hosts 0)).events.count Event.probe ≤ 1 ∧
      (JSARAsyncLoader.waitForMultipleGlobalsCall globalNames options startTime (clock 0)
          (hosts 0)).events.count Event.callback
        + (JSARAsyncLoader.waitForMultipleGlobalsCall globalNames options startTime (clock 0)
          (hosts 0)).events.count Event.onTimeout
        + (JSARAsyncLoader.waitForMultipleGlobalsCall globalNames options startTime (clock 0)
          (hosts 0)).events.count Event.onError ≤ 1 ∧
      ((JSARAsyncLoader.waitForMultipleGlobalsCall globalNames options startTime (clock 0)
          (hosts 0)).events.count Event.callback = 1 ↔
        clock 0 - startTime ≤ (JSARAsyncLoader.assignConfig options).timeout ∧
        0 < (JSARAsyncLoader.assignConfig options).maxRetries ∧
        ∀ name ∈ globalNames, Resolves (hosts 0) name) ∧
      ((JSARAsyncLoader.waitForMultipleGlobalsCall globalNames options startTime (clock 0)
          (hosts 0)).next = Next.again 1 →
        (JSARAsyncLoader.waitForMultipleGlobalsCall globalNames options startTime (clock 0)
          (hosts 0)).events.filter Event.isTimer
          = [Event.setTimeout (JSARAsyncLoader.assignConfig options).retryInterval])) := by
  constructor
  · refine ⟨?_, ?_, ?_⟩
    · simp only [JSARAsyncLoader.waitForGlobal, JSARAsyncLoader.waitForGlobalCall, drive]
      split <;> simp
    · simp only [JSARAsyncLoader.waitForGlobal, JSARAsyncLoader.waitForGlobalCall, drive]
      split <;> simp
    · simp only [JSARAsyncLoader.waitForGlobalCall, ← JSARAsyncLoader.globalExists_iff]
      rcases JSARAsyncLoader.waitForGlobalCheck_cases (JSARAsyncLoader.assignConfig options)
        options globalName startTime (clock 0) (hosts 0) 0 with
        ⟨h1, he⟩ | ⟨h1, h2, he⟩ | ⟨h1, h2, h3, he⟩ | ⟨h1, h2, h3, he⟩
      · rw [he]
        have hno : ¬ clock 0 - startTime ≤ (JSARAsyncLoader.assignConfig options).timeout :=
          not_le.mpr h1
        cases (JSARAsyncLoader.assignConfig options).debug <;> cases options.onTimeout <;>
          simp [emitIf, hno]
      · rw [he]
        have hno : ¬ 0 < (JSARAsyncLoader.assignConfig options).maxRetries := by
          push_cast at h2; omega
        cases (JSARAsyncLoader.assignConfig options).debug <;> cases options.onError <;>
          simp [emitIf, hno]
      · rw [he]
        have hyes : 0 < (JSARAsyncLoader.assignConfig options).maxRetries := by
          push_cast at h2; omega
        cases (JSARAsyncLoader.assignConfig options).debug <;>
          simp [emitIf, hyes, h1, h3]
      · rw [he]
        cases (JSARAsyncLoader.assignConfig options).debug <;>
          simp [emitIf, h3, Event.isTimer]
  · refine ⟨?_, ?_, ?_⟩
    · simp only [JSARAsyncLoader.waitForMultipleGlobals, JSARAsyncLoader.waitForMultipleGlobalsCall,
        drive]
      split <;> simp
    · simp only [JSARAsyncLoader.waitForMultipleGlobals, JSARAsyncLoader.waitForMultipleGlobalsCall,
        drive]
      split <;> simp
    · simp only [JSARAsyncLoader.waitForMultipleGlobalsCall]
      rw [← JSARAsyncLoader.all_globalExists_iff]
      rcases JSARAsyncLoader.waitForMultipleGlobalsCheck_cases
        (JSARAsyncLoader.assignConfig options) options globalNames startTime (clock 0) (hosts 0)
        0 with ⟨h1, he⟩ | ⟨h1, h2, he⟩ | ⟨h1, h2, h3, he⟩ | ⟨h1, h2, h3, he⟩
      · rw [he]
        have hno : ¬ clock 0 - startTime ≤ (JSARAsyncLoader.assignConfig options).timeout :=
          not_le.mpr h1
        cases (JSARAsyncLoader.assignConfig options).debug <;> cases options.onTimeout <;>
          simp [emitIf, hno]
      · rw [he]
        have hno : ¬ 0 < (JSARAsyncLoader.assignConfig options).maxRetries := by
          push_cast at h2; omega
        cases (JSARAsyncLoader.assignConfig options).debug <;> cases options.onError <;>
          simp [emitIf, hno]
      · rw [he]
        have hyes : 0 < (JSARAsyncLoader.assignConfig options).maxRetries := by
          push_cast at h2; omega
        cases (JSARAsyncLoader.assignConfig options).debug <;>
          simp [emitIf, hyes, h1, h3]
      · rw [he]
        cases (JSARAsyncLoader.assignConfig options).debug <;>
          simp [emitIf, h3, Event.isTimer]

/-- C14: for every wait of either JSARAsyncLoader poller with
maxRetries = N > 0, every clock, every evolution of the hosts and however long
the scheduler runs, the existence check is evaluated at most N times and at
most N + 1 ticks run; once the scheduler may run more than N ticks the wait
has reached a terminal state. -/
theorem JSARAsyncLoader.wait_bounded_by_maxRetries
    (globalName : String) (globalNames : List String) (options : Options) (startTime : Int)
    (clock : Nat → Int) (hosts : Nat → Host) (fuel : Nat)
    (hR : 0 < (JSARAsyncLoader.assignConfig options).maxRetries) :
    ((((JSARAsyncLoader.waitForGlobal globalName options startTime clock hosts fuel).probes : Nat)
          : Int) ≤ (JSARAsyncLoader.assignConfig options).maxRetries ∧
      (((JSARAsyncLoader.waitForGlobal globalName options startTime clock hosts
          fuel).ticks.length : Nat) : Int) ≤ (JSARAsyncLoader.assignConfig options).maxRetries + 1 ∧
      ((JSARAsyncLoader.assignConfig options).maxRetries < (fuel : Int) →
        ∃ o, (JSARAsyncLoader.waitForGlobal globalName options startTime clock hosts fuel).final
          = Final.finished o)) ∧
    ((((JSARAsyncLoader.waitForMultipleGlobals globalNames options startTime clock hosts
          fuel).probes : Nat) : Int) ≤ (JSARAsyncLoader.assignConfig options).maxRetries ∧
      (((JSARAsyncLoader.waitForMultipleGlobals globalNames options startTime clock hosts
          fuel).ticks.length : Nat) : Int) ≤ (JSARAsyncLoader.assignConfig options).maxRetries + 1 ∧
      ((JSARAsyncLoader.assignConfig options).maxRetries < (fuel : Int) →
        ∃ o, (JSARAsyncLoader.waitForMultipleGlobals globalNames options startTime clock hosts
          fuel).final = Final.finished o)) := by
  constructor
  · have P := JSARAsyncLoader.waitForGlobalCheck_pollerTick options globalName startTime clock
      hosts
    obtain ⟨b1, b2⟩ := drive_bounds P fuel 0 0 (by push_cast; omega)
    refine ⟨?_, ?_, ?_⟩
    · simp only [JSARAsyncLoader.waitForGlobal]; push_cast at b2; omega
    · simp only [JSARAsyncLoader.waitForGlobal]; push_cast at b1; omega
    · intro hfuel
      obtain ⟨o, ho, -⟩ := drive_endsWith P fuel (le_of_lt hR) hfuel
      exact ⟨o, ho.1⟩
  · have P := JSARAsyncLoader.waitForMultipleGlobalsCheck_pollerTick options globalNames
      startTime clock hosts
    obtain ⟨b1, b2⟩ := drive_bounds P fuel 0 0 (by push_cast; omega)
    refine ⟨?_, ?_, ?_⟩
    · simp only [JSARAsyncLoader.waitForMultipleGlobals]; push_cast at b2; omega
    · simp only [JSARAsyncLoader.waitForMultipleGlobals]; push_cast at b1; omega
    · intro hfuel
      obtain ⟨o, ho, -⟩ := drive_endsWith P fuel (le_of_lt hR) hfuel
      exact ⟨o, ho.1⟩

theorem JSARAsyncLoader.wait_bounded_by_maxRetries_witness :
    (((JSARAsyncLoader.waitForGlobal "Foo" ⟨some 3, some 10, some 10000, some false, true, true⟩ 0
        (idealClock 0 10) (fun _ => Example.bareHost) 50).probes : Nat) : Int)
      ≤ (JSARAsyncLoader.assignConfig ⟨some 3, some 10, some 10000, some false, true, true⟩).maxRetries
    ∧ (((JSARAsyncLoader.waitForGlobal "Foo" ⟨some 3, some 10, some 10000, some false, true, true⟩
        0 (idealClock 0 10) (fun _ => Example.bareHost) 50).ticks.length : Nat) : Int)
      ≤ (JSARAsyncLoader.assignConfig
          ⟨some 3, some 10, some 10000, some false, true, true⟩).maxRetries + 1 :=
  ⟨(JSARAsyncLoader.wait_bounded_by_maxRetries "Foo" ["Foo"]
      ⟨some 3, some 10, some 10000, some false, true, true⟩ 0 (idealClock 0 10)
      (fun _ => Example.bareHost) 50 (by decide)).1.1,
    (JSARAsyncLoader.wait_bounded_by_maxRetries "Foo" ["Foo"]
      ⟨some 3, some 10, some 10000, some false, true, true⟩ 0 (idealClock 0 10)
      (fun _ => Example.bareHost) 50 (by decide)).1.2.1⟩

theorem JSARAsyncLoader.waitForGlobalCheck_terminal_or_retry (config : Config)
    (options : Options) (globalName : String) (startTime now : Int) (host : Host)
    (retries : Nat) :
    (∃ o, (JSARAsyncLoader.waitForGlobalCheck config options globalName startTime now host
          retries).next = Next.stop o ∧
        TerminalEvents (JSARAsyncLoader.waitForGlobalCheck config options globalName startTime now
          host retries).events options o) ∨
    ((JSARAsyncLoader.waitForGlobalCheck config options globalName startTime now host
          retries).next = Next.again (retries + 1) ∧
        RetryEvents (JSARAsyncLoader.waitForGlobalCheck config options globalName startTime now
          host retries).events config.retryInterval) := by
  rcases JSARAsyncLoader.waitForGlobalCheck_cases config options globalName startTime now host
    retries with ⟨-, he⟩ | ⟨-, -, he⟩ | ⟨-, -, -, he⟩ | ⟨-, -, -, he⟩
  · refine Or.inl ⟨Outcome.timeout, ?_⟩
    rw [he]
    cases hd : config.debug <;> cases ht : options.onTimeout <;>
      simp [TerminalEvents, emitIf, Event.isTimer, ht]
  · refine Or.inl ⟨Outcome.exhausted, ?_⟩
    rw [he]
    cases hd : config.debug <;> cases ht : options.onError <;>
      simp [TerminalEvents, emitIf, Event.isTimer, ht]
  · refine Or.inl ⟨Outcome.success, ?_⟩
    rw [he]
    cases config.debug <;> simp [TerminalEvents, emitIf, Event.isTimer]
  · refine Or.inr ?_
    rw [he]
    cases config.debug <;> cases ((retries + 1) % 10 == 0) <;>
      simp [RetryEvents, emitIf, Event.isTimer]

theorem JSARAsyncLoader.waitForMultipleGlobalsCheck_terminal_or_retry (config : Config)
    (options : Options) (globalNames : List String) (startTime now : Int) (host : Host)
    (retries : Nat) :
    (∃ o, (JSARAsyncLoader.waitForMultipleGlobalsCheck config options globalNames startTime now
          host retries).next = Next.stop o ∧
        TerminalEvents (JSARAsyncLoader.waitForMultipleGlobalsCheck config options globalNames
          startTime now host retries).events options o) ∨
    ((JSARAsyncLoader.waitForMultipleGlobalsCheck config options globalNames startTime now host
          retries).next = Next.again (retries + 1) ∧
        RetryEvents (JSARAsyncLoader.waitForMultipleGlobalsCheck config options globalNames
          startTime now host retries).events config.retryInterval) := by
  rcases JSARAsyncLoader.waitForMultipleGlobalsCheck_cases config options globalNames startTime
    now host retries with ⟨-, he⟩ | ⟨-, -, he⟩ | ⟨-, -, -, he⟩ | ⟨-, -, -, he⟩
  · refine Or.inl ⟨Outcome.timeout, ?_⟩
    rw [he]
    cases hd : config.debug <;> cases ht : options.onTimeout <;>
      simp [TerminalEvents, emitIf, Event.isTimer, ht]
  · refine Or.inl ⟨Outcome.exhausted, ?_⟩
    rw [he]
    cases hd : config.debug <;> cases ht : options.onError <;>
      simp [TerminalEvents, emitIf, Event.isTimer, ht]
  · refine Or.inl ⟨Outcome.success, ?_⟩
    rw [he]
    cases config.debug <;> simp [TerminalEvents, emitIf, Event.isTimer]
  · refine Or.inr ?_
    rw [he]
    cases config.debug <;> cases ((retries + 1) % 10 == 0) <;>
      simp [RetryEvents, emitIf, Event.isTimer]

/-- C16: every tick of a wait of either JSARAsyncLoader poller is either
terminal (it reports exactly one outcome, invokes the callback of that outcome
and no other, and schedules no further tick) or non-terminal (it invokes no
callback, increments retries by exactly 1 and schedules exactly one further
tick with delay retryInterval); and in every run each tick that is followed by
another tick is non-terminal, so no tick runs after a terminal tick. -/
theorem JSARAsyncLoader.tick_terminal_or_retry
    (globalName : String) (globalNames : List String) (options : Options)
    (startTime : Int) (clock : Nat → Int) (hosts : Nat → Host) (fuel : Nat) :
    (∀ (now : Int) (host : Host) (retries : Nat),
      (∃ o, (JSARAsyncLoader.waitForGlobalCheck (JSARAsyncLoader.assignConfig options) options
            globalName startTime now host retries).next = Next.stop o ∧
          TerminalEvents (JSARAsyncLoader.waitForGlobalCheck (JSARAsyncLoader.assignConfig options)
            options globalName startTime now host retries).events options o) ∨
      ((JSARAsyncLoader.waitForGlobalCheck (JSARAsyncLoader.assignConfig options) options
            globalName startTime now host retries).next = Next.again (retries + 1) ∧
          RetryEvents (JSARAsyncLoader.waitForGlobalCheck (JSARAsyncLoader.assignConfig options)
            options globalName startTime now host retries).events
            (JSARAsyncLoader.assignConfig options).retryInterval)) ∧
    (∀ (now : Int) (host : Host) (retries : Nat),
      (∃ o, (JSARAsyncLoader.waitForMultipleGlobalsCheck (JSARAsyncLoader.assignConfig options)
            options globalNames startTime now host retries).next = Next.stop o ∧
          TerminalEvents (JSARAsyncLoader.waitForMultipleGlobalsCheck
            (JSARAsyncLoader.assignConfig options) options globalNames startTime now host
            retries).events options o) ∨
      ((JSARAsyncLoader.waitForMultipleGlobalsCheck (JSARAsyncLoader.assignConfig options) options
            globalNames startTime now host retries).next = Next.again (retries + 1) ∧
          RetryEvents (JSARAsyncLoader.waitForMultipleGlobalsCheck
            (JSARAsyncLoader.assignConfig options) options globalNames startTime now host
            retries).events (JSARAsyncLoader.assignConfig options).retryInterval)) ∧
    (∀ evs ∈ (JSARAsyncLoader.waitForGlobal globalName options startTime clock hosts
        fuel).ticks.dropLast,
      RetryEvents evs (JSARAsyncLoader.assignConfig options).retryInterval) ∧
    (∀ evs ∈ (JSARAsyncLoader.waitForMultipleGlobals globalNames options startTime clock hosts
        fuel).ticks.dropLast,
      RetryEvents evs (JSARAsyncLoader.assignConfig options).retryInterval) := by
  refine ⟨fun now host retries => JSARAsyncLoader.waitForGlobalCheck_terminal_or_retry _ _ _ _ _
      _ _,
    fun now host retries => JSARAsyncLoader.waitForMultipleGlobalsCheck_terminal_or_retry _ _ _ _
      _ _ _, ?_, ?_⟩
  · intro evs hmem
    obtain ⟨k1, r1, r2, he, hn⟩ := drive_ticks_dropLast fuel 0 0 evs hmem
    rcases JSARAsyncLoader.waitForGlobalCheck_terminal_or_retry
      (JSARAsyncLoader.assignConfig options) options globalName startTime (clock k1) (hosts k1)
      r1 with ⟨o, ho, -⟩ | ⟨-, hre⟩
    · rw [ho] at hn
      exact absurd hn (by simp)
    · rw [he]; exact hre
  · intro evs hmem
    obtain ⟨k1, r1, r2, he, hn⟩ := drive_ticks_dropLast fuel 0 0 evs hmem
    rcases JSARAsyncLoader.waitForMultipleGlobalsCheck_terminal_or_retry
      (JSARAsyncLoader.assignConfig options) options globalNames startTime (clock k1) (hosts k1)
      r1 with ⟨o, ho, -⟩ | ⟨-, hre⟩
    · rw [ho] at hn
      exact absurd hn (by simp)
    · rw [he]; exact hre

/-- C17: when config.debug is false, a wait of either JSARAsyncLoader poller
emits no log line at all, on any tick, for any outcome and however long the
scheduler runs; besides evaluating the existence check and scheduling ticks,
its only effect is at most one callback, the terminal one. -/
theorem JSARAsyncLoader.wait_silent_without_debug
    (globalName : String) (globalNames : List String) (options : Options) (startTime : Int)
    (clock : Nat → Int) (hosts : Nat → Host) (fuel : Nat)
    (hdebug : (JSARAsyncLoader.assignConfig options).debug = false) :
    ((∀ evs ∈ (JSARAsyncLoader.waitForGlobal globalName options startTime clock hosts fuel).ticks,
        ∀ e ∈ evs, e.isLog = false) ∧
      (JSARAsyncLoader.waitForGlobal globalName options startTime clock hosts fuel).count
          Event.callback
        + (JSARAsyncLoader.waitForGlobal globalName options startTime clock hosts fuel).count
          Event.onTimeout
        + (JSARAsyncLoader.waitForGlobal globalName options startTime clock hosts fuel).count
          Event.onError ≤ 1) ∧
    ((∀ evs ∈ (JSARAsyncLoader.waitForMultipleGlobals globalNames options startTime clock hosts
          fuel).ticks, ∀ e ∈ evs, e.isLog = false) ∧
      (JSARAsyncLoader.waitForMultipleGlobals globalNames options startTime clock hosts fuel).count
          Event.callback
        + (JSARAsyncLoader.waitForMultipleGlobals globalNames options startTime clock hosts
          fuel).count Event.onTimeout
        + (JSARAsyncLoader.waitForMultipleGlobals globalNames options startTime clock hosts
          fuel).count Event.onError ≤ 1) := by
  constructor
  · refine ⟨?_, drive_callbacks_le_one
      (JSARAsyncLoader.waitForGlobalCheck_pollerTick options globalName startTime clock hosts)
      fuel 0 0⟩
    intro evs hmem
    obtain ⟨k1, r1, hev⟩ := drive_ticks_mem fuel 0 0 evs hmem
    rw [hev]
    rcases JSARAsyncLoader.waitForGlobalCheck_cases (JSARAsyncLoader.assignConfig options)
      options globalName startTime (clock k1) (hosts k1) r1 with
      ⟨-, hc⟩ | ⟨-, -, hc⟩ | ⟨-, -, -, hc⟩ | ⟨-, -, -, hc⟩ <;>
    · rw [hc, hdebug]
      cases options.onTimeout <;> cases options.onError <;>
        simp [emitIf, Event.isLog]
  · refine ⟨?_, drive_callbacks_le_one
      (JSARAsyncLoader.waitForMultipleGlobalsCheck_pollerTick options globalNames startTime clock
        hosts) fuel 0 0⟩
    intro evs hmem
    obtain ⟨k1, r1, hev⟩ := drive_ticks_mem fuel 0 0 evs hmem
    rw [hev]
    rcases JSARAsyncLoader.waitForMultipleGlobalsCheck_cases
      (JSARAsyncLoader.assignConfig options) options globalNames startTime (clock k1) (hosts k1)
      r1 with ⟨-, hc⟩ | ⟨-, -, hc⟩ | ⟨-, -, -, hc⟩ | ⟨-, -, -, hc⟩ <;>
    · rw [hc, hdebug]
      cases options.onTimeout <;> cases options.onError <;>
        simp [emitIf, Event.isLog]

theorem JSARAsyncLoader.wait_silent_without_debug_witness :
    (JSARAsyncLoader.assignConfig ⟨some 3, some 10, some 25, some false, true, true⟩).debug = false
    ∧ (∀ evs ∈ (JSARAsyncLoader.waitForMultipleGlobals ["A", "B"]
          ⟨some 3, some 10, some 25, some false, true, true⟩ 0 (idealClock 0 10)
          (fun _ => Example.windowHost ["A"]) 10).ticks, ∀ e ∈ evs, e.isLog = false) :=
  ⟨by decide,
    (JSARAsyncLoader.wait_silent_without_debug "A" ["A", "B"]
      ⟨some 3, some 10, some 25, some false, true, true⟩ 0 (idealClock 0 10)
      (fun _ => Example.windowHost ["A"]) 10 (by decide)).2.1⟩

/-- C18: the configuration used by JSARAsyncLoader.waitForGlobal and
JSARAsyncLoader.waitForMultipleGlobals is the merge of the defaults
(maxRetries 100, retryInterval 20, timeout 10000, debug true) with the supplied
options, field by field: with options omitted it is exactly the defaults, an
absent field keeps its default, and a supplied field replaces that field and
no other. -/
theorem JSARAsyncLoader.assignConfig_defaults_overridden_fieldwise :
    JSARAsyncLoader.assignConfig Options.empty = ⟨100, 20, 10000, true⟩ ∧
    (∀ (globalName : String) (globalNames : List String) (options : Options) (startTime : Int)
      (clock : Nat → Int) (hosts : Nat → Host) (fuel : Nat),
      JSARAsyncLoader.waitForGlobal globalName options startTime clock hosts fuel
        = drive (fun k retries => JSARAsyncLoader.waitForGlobalCheck
            (JSARAsyncLoader.assignConfig options) options globalName startTime (clock k) (hosts k)
            retries) fuel 0 0 ∧
      JSARAsyncLoader.waitForMultipleGlobals globalNames options startTime clock hosts fuel
        = drive (fun k retries => JSARAsyncLoader.waitForMultipleGlobalsCheck
            (JSARAsyncLoader.assignConfig options) options globalNames startTime (clock k)
            (hosts k) retries) fuel 0 0) ∧
    (∀ (o : Options),
      (JSARAsyncLoader.assignConfig o).maxRetries = (match o.maxRetries with
        | some v => v
        | none => 100) ∧
      (JSARAsyncLoader.assignConfig o).retryInterval = (match o.retryInterval with
        | some v => v
        | none => 20) ∧
      (JSARAsyncLoader.assignConfig o).timeout = (match o.timeout with
        | some v => v
        | none => 10000) ∧
      (JSARAsyncLoader.assignConfig o).debug = (match o.debug with
        | some v => v
        | none => true)) ∧
    (∀ (o : Options) (v : Int),
      JSARAsyncLoader.assignConfig ⟨some v, o.retryInterval, o.timeout, o.debug, o.onTimeout,
          o.onError⟩
        = ⟨v, (JSARAsyncLoader.assignConfig o).retryInterval,
            (JSARAsyncLoader.assignConfig o).timeout, (JSARAsyncLoader.assignConfig o).debug⟩ ∧
      JSARAsyncLoader.assignConfig ⟨o.maxRetries, some v, o.timeout, o.debug, o.onTimeout,
          o.onError⟩
        = ⟨(JSARAsyncLoader.assignConfig o).maxRetries, v,
            (JSARAsyncLoader.assignConfig o).timeout, (JSARAsyncLoader.assignConfig o).debug⟩ ∧
      JSARAsyncLoader.assignConfig ⟨o.maxRetries, o.retryInterval, some v, o.debug, o.onTimeout,
          o.onError⟩
        = ⟨(JSARAsyncLoader.assignConfig o).maxRetries,
            (JSARAsyncLoader.assignConfig o).retryInterval, v,
            (JSARAsyncLoader.assignConfig o).debug⟩) ∧
    (∀ (o : Options) (b : Bool),
      JSARAsyncLoader.assignConfig ⟨o.maxRetries, o.retryInterval, o.timeout, some b, o.onTimeout,
          o.onError⟩
        = ⟨(JSARAsyncLoader.assignConfig o).maxRetries,
            (JSARAsyncLoader.assignConfig o).retryInterval,
            (JSARAsyncLoader.assignConfig o).timeout, b⟩) := by
  refine ⟨by decide, fun _ _ _ _ _ _ _ => ⟨rfl, rfl⟩, ?_, fun o v => ⟨rfl, rfl, rfl⟩,
    fun o b => rfl⟩
  intro o
  refine ⟨?_, ?_, ?_, ?_⟩
  · cases h : o.maxRetries <;> simp [JSARAsyncLoader.assignConfig, JSARAsyncLoader.defaultConfig, h]
  · cases h : o.retryInterval <;>
      simp [JSARAsyncLoader.assignConfig, JSARAsyncLoader.defaultConfig, h]
  · cases h : o.timeout <;> simp [JSARAsyncLoader.assignConfig, JSARAsyncLoader.defaultConfig, h]
  · cases h : o.debug <;> simp [JSARAsyncLoader.assignConfig, JSARAsyncLoader.defaultConfig, h]

theorem drive_shift (f : Nat → Nat → Tick) :
    ∀ (fuel k r : Nat), drive (fun j => f (j + 1)) fuel k r = drive f fuel (k + 1) r := by
  intro fuel
  induction fuel with
  | zero => intro k r; rfl
  | succ n ih =>
    intro k r
    simp only [drive, ih]

theorem runObs_eq_drive (check : Int → Host → Nat → Tick) :
    ∀ (obs : List (Int × Host)) (r : Nat),
      runObs check obs r
        = drive (fun k retries => check (obsClock obs k) (obsHosts obs k) retries) obs.length 0 r := by
  intro obs
  induction obs with
  | nil => intro r; rfl
  | cons o rest ih =>
    intro r
    obtain ⟨now, host⟩ := o
    have hshift : (fun j retries => check (obsClock ((now, host) :: rest) (j + 1))
        (obsHosts ((now, host) :: rest) (j + 1)) retries)
        = (fun k retries => check (obsClock rest k) (obsHosts rest k) retries) := by
      funext j retries
      rfl
    have hd : ∀ r1, drive (fun k retries => check (obsClock ((now, host) :: rest) k)
        (obsHosts ((now, host) :: rest) k) retries) rest.length (0 + 1) r1
        = drive (fun k retries => check (obsClock rest k) (obsHosts rest k) retries)
            rest.length 0 r1 := by
      intro r1
      rw [← hshift]
      exact (drive_shift (fun k retries => check (obsClock ((now, host) :: rest) k)
        (obsHosts ((now, host) :: rest) k) retries) rest.length 0 r1).symm
    have e1 : obsClock ((now, host) :: rest) 0 = now := rfl
    have e2 : obsHosts ((now, host) :: rest) 0 = host := rfl
    simp only [runObs, List.length_cons, drive, e1, e2]
    cases hn : (check now host r).next with
    | stop out => rfl
    | raise => rfl
    | again r1 =>
      simp only []
      rw [ih, hd]

/-! ## The HTML fixer -/

set_option maxRecDepth 100000 in
/-- C19 as stated fails, in two ways.  First, the wrapper does not hold the
trimmed body of a script that starts with the directive "use strict": the
directive is removed before the body is put into the wrapper, so the trimmed
body does not occur in the result.  Second, when the content has a head tag
before a script to wrap, the rewrite is not in place: the scripts are located
in the original content, the wrappers are spliced into the text that already
holds the loader tag, and the positions are not moved by the length of that
tag.  For a head holding an external script followed by an inline test script
the wrapper lands inside the inserted loader tag, which is cut in two, and the
inline script itself is left where it was, unwrapped. -/
theorem FixAsyncScripts.fixHtmlContent_not_in_place :
    (FixAsyncScripts.selectScripts "<script>\"use strict\"; debug(1);</script>".toList
        = [⟨"<script>\"use strict\"; debug(1);</script>".toList,
            "\"use strict\"; debug(1);".toList, 0⟩] ∧
      FixAsyncScripts.includes
        (FixAsyncScripts.fixHtmlContent "<script>\"use strict\"; debug(1);</script>".toList)
        "\"use strict\"; debug(1);".toList = false) ∧
    (FixAsyncScripts.needsFix
      "<head><script src=\"t.js\"></script></head><body><script>debug(\"hi\");</script></body>".toList
      = true ∧
    FixAsyncScripts.selectScripts
      "<head><script src=\"t.js\"></script></head><body><script>debug(\"hi\");</script></body>".toList
      = [⟨"<script>debug(\"hi\");</script>".toList, "debug(\"hi\");".toList, 47⟩] ∧
    FixAsyncScripts.fixHtmlContent
      "<head><script src=\"t.js\"></script></head><body><script>debug(\"hi\");</script></body>".toList
      = "<head>\n<!-- JSAR异步脚本加载器 -->\n<script src=\"../jsa".toList
        ++ FixAsyncScripts.wrappedScript
            ⟨"<script>debug(\"hi\");</script>".toList, "debug(\"hi\");".toList, 47⟩
        ++ "cript><script src=\"t.js\"></script></head><body><script>debug(\"hi\");</script></body>".toList ∧
    FixAsyncScripts.fixHtmlContent
      "<head><script src=\"t.js\"></script></head><body><script>debug(\"hi\");</script></body>".toList
      ≠ "<head>".toList ++ FixAsyncScripts.loaderScript
        ++ "<script src=\"t.js\"></script></head><body>".toList
        ++ FixAsyncScripts.wrappedScript
            ⟨"<script>debug(\"hi\");</script>".toList, "debug(\"hi\");".toList, 47⟩
        ++ "</body>".toList) := by
  refine ⟨⟨by decide, by decide⟩, by decide, by decide, by decide, by decide⟩

set_option maxRecDepth 100000 in
/-- C20 as stated fails: a content without head tag and without inline script
to wrap needs fixing, is returned unchanged by fixHtmlContent, and needs
fixing again. -/
theorem FixAsyncScripts.needsFix_again_after_fix :
    FixAsyncScripts.needsFix "<script src=\"t.js\"></script><p>debug</p>".toList = true ∧
    FixAsyncScripts.fixHtmlContent "<script src=\"t.js\"></script><p>debug</p>".toList
      = "<script src=\"t.js\"></script><p>debug</p>".toList ∧
    FixAsyncScripts.needsFix
      (FixAsyncScripts.fixHtmlContent "<script src=\"t.js\"></script><p>debug</p>".toList)
      = true := by
  refine ⟨by decide, by decide, by decide⟩

theorem FixAsyncScripts.includes_iff (s pat : List Char) :
    FixAsyncScripts.includes s pat = true ↔ pat <:+: s := by
  induction s with
  | nil => simp [FixAsyncScripts.includes, List.isEmpty_iff]
  | cons c cs ih =>
    simp only [FixAsyncScripts.includes, Bool.or_eq_true, ih, List.infix_cons_iff,
      List.isPrefixOf_iff_prefix]

theorem FixAsyncScripts.includes_append (a w b pat : List Char)
    (h : FixAsyncScripts.includes w pat = true) :
    FixAsyncScripts.includes (a ++ w ++ b) pat = true := by
  rw [FixAsyncScripts.includes_iff] at h ⊢
  obtain ⟨x, y, hxy⟩ := h
  exact ⟨a ++ x, y ++ b, by rw [← hxy]; simp⟩

theorem FixAsyncScripts.needsFix_of_loader (s : List Char)
    (h : FixAsyncScripts.includes s "jsar-async-script-loader.js".toList = true
      ∨ FixAsyncScripts.includes s "JSARAsyncLoader".toList = true) :
    FixAsyncScripts.needsFix s = false := by
  unfold FixAsyncScripts.needsFix
  rw [if_pos]
  rw [Bool.or_eq_true]
  exact h

theorem FixAsyncScripts.matchToGt_spec :
    ∀ (s t : List Char), FixAsyncScripts.matchToGt s = some t →
      t <+: s ∧ ∃ u, t = u ++ ['>'] := by
  intro s
  induction s with
  | nil => intro t h; simp [FixAsyncScripts.matchToGt] at h
  | cons c cs ih =>
    intro t h
    unfold FixAsyncScripts.matchToGt at h
    by_cases hc : c = '>'
    · rw [if_pos hc] at h
      have ht : t = [c] := by simpa using h.symm
      subst ht
      exact ⟨⟨cs, rfl⟩, [], by simp [hc]⟩
    · rw [if_neg hc] at h
      cases hm : FixAsyncScripts.matchToGt cs with
      | none => rw [hm] at h; simp at h
      | some t1 =>
        rw [hm] at h
        have ht : t = c :: t1 := by simpa using h.symm
        obtain ⟨hp, u, hu⟩ := ih t1 hm
        subst ht
        refine ⟨?_, c :: u, by rw [hu]; rfl⟩
        obtain ⟨r, hr⟩ := hp
        exact ⟨r, by rw [← hr]; rfl⟩

theorem FixAsyncScripts.matchHeadAt_spec (s m : List Char)
    (h : FixAsyncScripts.matchHeadAt s = some m) : m <+: s ∧ ∃ u, m = u ++ ['>'] := by
  unfold FixAsyncScripts.matchHeadAt at h
  split at h
  · cases hm : FixAsyncScripts.matchToGt (s.drop 5) with
    | none => rw [hm] at h; simp at h
    | some t =>
      rw [hm] at h
      have hmt : m = s.take 5 ++ t := by simpa using h.symm
      obtain ⟨⟨r, hr⟩, u, hu⟩ := FixAsyncScripts.matchToGt_spec _ _ hm
      subst hmt
      refine ⟨⟨r, ?_⟩, s.take 5 ++ u, by rw [hu]; simp⟩
      rw [List.append_assoc, hr, List.take_append_drop]
  · simp at h

theorem FixAsyncScripts.findHead_spec :
    ∀ (s m : List Char), FixAsyncScripts.findHead s = some m →
      m <:+: s ∧ ∃ u, m = u ++ ['>'] := by
  intro s
  induction s with
  | nil => intro m h; simp [FixAsyncScripts.findHead] at h
  | cons c cs ih =>
    intro m h
    unfold FixAsyncScripts.findHead at h
    cases hm : FixAsyncScripts.matchHeadAt (c :: cs) with
    | some m1 =>
      rw [hm] at h
      have hmm : m = m1 := by simpa using h.symm
      subst hmm
      obtain ⟨hp, hu⟩ := FixAsyncScripts.matchHeadAt_spec _ _ hm
      exact ⟨hp.isInfix, hu⟩
    | none =>
      rw [hm] at h
      obtain ⟨hi, hu⟩ := ih m h
      exact ⟨List.infix_cons hi, hu⟩

theorem FixAsyncScripts.splitAtFirst_found (pat : List Char) :
    ∀ (s : List Char), pat <:+: s →
      ∃ b a, FixAsyncScripts.splitAtFirst pat s = some (b, a) := by
  intro s
  induction s with
  | nil =>
    intro h
    have : pat = [] := List.infix_nil.mp h
    subst this
    exact ⟨[], [], by simp [FixAsyncScripts.splitAtFirst]⟩
  | cons c cs ih =>
    intro h
    unfold FixAsyncScripts.splitAtFirst
    by_cases hp : pat.isPrefixOf (c :: cs) = true
    · exact ⟨[], (c :: cs).drop pat.length, by rw [if_pos hp]⟩
    · rw [if_neg hp]
      rcases List.infix_cons_iff.mp h with h1 | h1
      · exact absurd (List.isPrefixOf_iff_prefix.mpr h1) hp
      · obtain ⟨b, a, hba⟩ := ih h1
        exact ⟨c :: b, a, by rw [hba]⟩

theorem FixAsyncScripts.getSubstitution_plain (matched before after : List Char) :
    ∀ (l : List Char), (∀ c ∈ l, c ≠ '$') →
      FixAsyncScripts.getSubstitution matched before after false l = l := by
  intro l
  induction l with
  | nil => intro _; rfl
  | cons c tl ih =>
    intro h
    have hc : c ≠ '$' := h c (List.mem_cons_self c tl)
    simp only [FixAsyncScripts.getSubstitution, if_neg hc]
    rw [ih (fun d hd => h d (List.mem_cons_of_mem c hd))]

theorem FixAsyncScripts.getSubstitution_append (matched before after l : List Char)
    (hl : ∀ c ∈ l, c ≠ '$') :
    ∀ (h : List Char) (flag : Bool),
      (h = [] → flag = false) → (∀ u c, h = u ++ [c] → c ≠ '$') →
      FixAsyncScripts.getSubstitution matched before after flag (h ++ l)
        = FixAsyncScripts.getSubstitution matched before after flag h ++ l := by
  intro h
  induction h with
  | nil =>
    intro flag hf _
    rw [hf rfl]
    simp [FixAsyncScripts.getSubstitution, FixAsyncScripts.getSubstitution_plain _ _ _ l hl]
  | cons c tl ih =>
    intro flag _ hlast
    have hlast_tl : ∀ u d, tl = u ++ [d] → d ≠ '$' := by
      intro u d hu
      exact hlast (c :: u) d (by rw [hu]; rfl)
    cases flag with
    | false =>
      by_cases hc : c = '$'
      · have htl : tl ≠ [] := by
          intro hnil
          exact hlast [] c (by rw [hnil]; rfl) hc
        simp only [List.cons_append, FixAsyncScripts.getSubstitution, if_pos hc]
        exact ih true (fun hnil => absurd hnil htl) hlast_tl
      · simp only [List.cons_append, FixAsyncScripts.getSubstitution, if_neg hc, List.append_eq]
        rw [ih false (fun _ => rfl) hlast_tl]
    | true =>
      simp only [List.cons_append, FixAsyncScripts.getSubstitution, List.append_eq]
      rw [ih false (fun _ => rfl) hlast_tl]
      split_ifs <;> simp

set_option maxRecDepth 100000 in
theorem FixAsyncScripts.loaderScript_facts :
    FixAsyncScripts.includes FixAsyncScripts.loaderScript "jsar-async-script-loader.js".toList = true
    ∧ (∀ c ∈ FixAsyncScripts.loaderScript, c ≠ '$')
    ∧ FixAsyncScripts.includes FixAsyncScripts.wrapHead "JSARAsyncLoader".toList = true := by
  refine ⟨by decide, by decide, by decide⟩

theorem FixAsyncScripts.insertLoader_includes (content m : List Char)
    (h : FixAsyncScripts.findHead content = some m) :
    FixAsyncScripts.includes (FixAsyncScripts.insertLoader content)
      "jsar-async-script-loader.js".toList = true := by
  obtain ⟨hinf, u, hu⟩ := FixAsyncScripts.findHead_spec content m h
  obtain ⟨b, a, hs⟩ := FixAsyncScripts.splitAtFirst_found m content hinf
  have hlast : ∀ (v : List Char) (c : Char), m = v ++ [c] → c ≠ '$' := by
    intro v c hv
    have hg := congrArg List.getLast? (hu.symm.trans hv)
    simp only [List.getLast?_append, List.getLast?_singleton, Option.or_some] at hg
    have hc : c = '>' := by simpa using hg.symm
    rw [hc]
    decide
  have hsub := FixAsyncScripts.getSubstitution_append m b a FixAsyncScripts.loaderScript
    FixAsyncScripts.loaderScript_facts.2.1 m false (fun _ => rfl) hlast
  unfold FixAsyncScripts.insertLoader
  rw [h]
  simp only [FixAsyncScripts.replaceFirst, hs, hsub]
  have := FixAsyncScripts.includes_append
    (b ++ FixAsyncScripts.getSubstitution m b a false m) FixAsyncScripts.loaderScript a
    "jsar-async-script-loader.js".toList FixAsyncScripts.loaderScript_facts.1
  simpa [List.append_assoc] using this

theorem FixAsyncScripts.splice_includes (fixed : List Char) (script : FixAsyncScripts.Script) :
    FixAsyncScripts.includes (FixAsyncScripts.splice fixed script) "JSARAsyncLoader".toList
      = true := by
  unfold FixAsyncScripts.splice
  apply FixAsyncScripts.includes_append
  unfold FixAsyncScripts.wrappedScript
  have := FixAsyncScripts.includes_append [] FixAsyncScripts.wrapHead
    (FixAsyncScripts.stripUseStrict script.content ++ FixAsyncScripts.wrapTail)
    "JSARAsyncLoader".toList FixAsyncScripts.loaderScript_facts.2.2
  simpa [List.append_assoc] using this

/-- C20 (amended): for every content that has a head tag or at least one
inline script selected for wrapping, needsFix(fixHtmlContent(content)) is
false, so the file is skipped on the next run; for a content with neither,
fixHtmlContent returns the content unchanged, so whether it needs fixing does
not change. -/
theorem FixAsyncScripts.needsFix_false_after_effective_fix (content : List Char) :
    ((FixAsyncScripts.findHead content).isSome = true
        ∨ FixAsyncScripts.selectScripts content ≠ [] →
      FixAsyncScripts.needsFix (FixAsyncScripts.fixHtmlContent content) = false) ∧
    (FixAsyncScripts.findHead content = none → FixAsyncScripts.selectScripts content = [] →
      FixAsyncScripts.fixHtmlContent content = content) := by
  constructor
  · intro h
    apply FixAsyncScripts.needsFix_of_loader
    cases hsel : FixAsyncScripts.selectScripts content with
    | nil =>
      left
      rcases h with h | h
      · obtain ⟨m, hm⟩ := Option.isSome_iff_exists.mp h
        simp only [FixAsyncScripts.fixHtmlContent, hsel, List.reverse_nil, List.foldl_nil]
        exact FixAsyncScripts.insertLoader_includes content m hm
      · exact absurd hsel h
    | cons s0 rest =>
      right
      simp only [FixAsyncScripts.fixHtmlContent, hsel, List.reverse_cons, List.foldl_append,
        List.foldl_cons, List.foldl_nil]
      exact FixAsyncScripts.splice_includes _ s0
  · intro hhead hsel
    simp [FixAsyncScripts.fixHtmlContent, FixAsyncScripts.insertLoader, hhead, hsel]

set_option maxRecDepth 100000 in
theorem FixAsyncScripts.needsFix_false_after_effective_fix_witness :
    FixAsyncScripts.needsFix
      "<body><script src=\"t.js\"></script><script>debug(\"hi\");</script></body>".toList = true ∧
    FixAsyncScripts.needsFix (FixAsyncScripts.fixHtmlContent
      "<body><script src=\"t.js\"></script><script>debug(\"hi\");</script></body>".toList) = false :=
  ⟨by decide,
    (FixAsyncScripts.needsFix_false_after_effective_fix
      "<body><script src=\"t.js\"></script><script>debug(\"hi\");</script></body>".toList).1
      (Or.inr (by decide))⟩

theorem FixAsyncScripts.splice_rewrittenInPlace {off : Nat} {ss : List FixAsyncScripts.Script}
    {text result : List Char} (h : FixAsyncScripts.RewrittenInPlace off ss text result) :
    ∀ (P : List Char), P.length = off →
      ss.reverse.foldl FixAsyncScripts.splice (P ++ text) = P ++ result := by
  induction h with
  | done off text => intro P _; rfl
  | step off s ss gap rest result hidx _ ih =>
    intro P hP
    have hlen : (P ++ gap ++ s.fullMatch).length = s.index + s.fullMatch.length := by
      simp [hidx, hP, Nat.add_assoc]
    have e1 : P ++ (gap ++ s.fullMatch ++ rest) = (P ++ gap ++ s.fullMatch) ++ rest := by
      simp [List.append_assoc]
    rw [List.reverse_cons, List.foldl_append, List.foldl_cons, List.foldl_nil, e1,
      ih (P ++ gap ++ s.fullMatch) hlen]
    unfold FixAsyncScripts.splice
    have hlen2 : (P ++ gap).length = s.index := by simp [hidx, hP]
    have t1 : ((P ++ gap ++ s.fullMatch) ++ result).take s.index = P ++ gap := by
      rw [← hlen2, List.append_assoc (P ++ gap), List.take_left]
    have t2 : ((P ++ gap ++ s.fullMatch) ++ result).drop (s.index + s.fullMatch.length)
        = result := by
      rw [← hlen, List.drop_left]
    rw [t1, t2]
    simp [List.append_assoc]

theorem FixAsyncScripts.rewrittenInPlace_shift {off : Nat} {ss : List FixAsyncScripts.Script}
    {text result : List Char} (Q : List Char)
    (h : FixAsyncScripts.RewrittenInPlace (off + Q.length) ss text result) :
    FixAsyncScripts.RewrittenInPlace off ss (Q ++ text) (Q ++ result) := by
  generalize ho : off + Q.length = o at h
  cases h with
  | done o text => exact FixAsyncScripts.RewrittenInPlace.done off _
  | step o s ss gap rest result hidx hrest =>
    have := FixAsyncScripts.RewrittenInPlace.step off s ss (Q ++ gap) rest result
      (by rw [hidx, ← ho, List.length_append]; omega) hrest
    simpa [List.append_assoc] using this

theorem FixAsyncScripts.scanScripts_skip :
    ∀ (text : List Char) (i skip : Nat),
      FixAsyncScripts.scanScripts text i skip
        = FixAsyncScripts.scanScripts (text.drop skip) (i + skip) 0 := by
  intro text
  induction text with
  | nil => intro i skip; cases skip <;> simp [FixAsyncScripts.scanScripts]
  | cons c cs ih =>
    intro i skip
    cases skip with
    | zero => simp
    | succ k =>
      simp only [FixAsyncScripts.scanScripts, List.drop_succ_cons]
      rw [ih (i + 1) k]
      congr 1
      omega

theorem FixAsyncScripts.matchScriptAt_spec (s full body : List Char)
    (h : FixAsyncScripts.matchScriptAt s = some (full, body)) :
    ∃ n, 1 ≤ n ∧ full = s.take n := by
  unfold FixAsyncScripts.matchScriptAt at h
  split at h
  · split at h
    · simp at h
    · split at h
      · simp at h
      · split at h
        · simp at h
        · simp only [Option.some.injEq, Prod.mk.injEq] at h
          refine ⟨_, ?_, h.1.symm⟩
          omega
  · simp at h

theorem FixAsyncScripts.selectScript_spec (m : FixAsyncScripts.ScriptMatch)
    (s : FixAsyncScripts.Script) (h : FixAsyncScripts.selectScript m = some s) :
    s.index = m.index ∧ s.fullMatch = m.fullMatch := by
  unfold FixAsyncScripts.selectScript at h
  split at h
  · simp at h
  · split at h
    · simp only [Option.some.injEq] at h
      rw [← h]
      exact ⟨rfl, rfl⟩
    · simp at h

theorem FixAsyncScripts.scan_rewrittenInPlace :
    ∀ (n : Nat) (text : List Char) (i : Nat), text.length = n →
      ∃ R, FixAsyncScripts.RewrittenInPlace i
        ((FixAsyncScripts.scanScripts text i 0).filterMap FixAsyncScripts.selectScript) text R := by
  intro n
  induction n using Nat.strong_induction_on with
  | _ n ih =>
    intro text i hlen
    cases text with
    | nil => exact ⟨[], by simpa [FixAsyncScripts.scanScripts] using
        FixAsyncScripts.RewrittenInPlace.done i []⟩
    | cons c cs =>
      cases hm : FixAsyncScripts.matchScriptAt (c :: cs) with
      | none =>
        obtain ⟨R, hR⟩ := ih cs.length (by simp at hlen; omega) cs (i + 1) rfl
        refine ⟨[c] ++ R, ?_⟩
        have := @FixAsyncScripts.rewrittenInPlace_shift i _ _ _ [c] (by simpa using hR)
        simpa [FixAsyncScripts.scanScripts, hm] using this
      | some fb =>
        obtain ⟨full, body⟩ := fb
        obtain ⟨k, hk, hfull⟩ := FixAsyncScripts.matchScriptAt_spec _ _ _ hm
        have hfl : 1 ≤ full.length := by
          rw [hfull, List.length_take]
          simp
          omega
        have hsplit : c :: cs = full ++ (c :: cs).drop full.length := by
          rw [hfull, List.length_take]
          by_cases hkl : k ≤ (c :: cs).length
          · rw [Nat.min_eq_left hkl, List.take_append_drop]
          · rw [Nat.min_eq_right (by omega), List.drop_length,
              List.take_of_length_le (by omega), List.append_nil]
        have hdrop : cs.drop (full.length - 1) = (c :: cs).drop full.length := by
          obtain ⟨j, hj⟩ : ∃ j, full.length = j + 1 := ⟨full.length - 1, by omega⟩
          rw [hj]
          simp
        have hscan : FixAsyncScripts.scanScripts (c :: cs) i 0
            = ⟨i, full, body⟩ :: FixAsyncScripts.scanScripts ((c :: cs).drop full.length)
                (i + full.length) 0 := by
          simp only [FixAsyncScripts.scanScripts, hm]
          rw [FixAsyncScripts.scanScripts_skip cs (i + 1) (full.length - 1), hdrop]
          congr 2
          omega
        obtain ⟨R, hR⟩ := ih ((c :: cs).drop full.length).length
          (by rw [List.length_drop]; simp at hlen ⊢; omega)
          ((c :: cs).drop full.length) (i + full.length) rfl
        rw [hscan, List.filterMap_cons]
        cases hsel : FixAsyncScripts.selectScript ⟨i, full, body⟩ with
        | none =>
          refine ⟨full ++ R, ?_⟩
          simp only []
          have := @FixAsyncScripts.rewrittenInPlace_shift i _ _ _ full hR
          rw [← hsplit] at this
          exact this
        | some s =>
          obtain ⟨hsi, hsf⟩ := FixAsyncScripts.selectScript_spec _ _ hsel
          simp only [] at hsi hsf
          refine ⟨[] ++ FixAsyncScripts.wrappedScript s ++ R, ?_⟩
          simp only []
          have := FixAsyncScripts.RewrittenInPlace.step i s
            ((FixAsyncScripts.scanScripts ((c :: cs).drop full.length) (i + full.length)
              0).filterMap FixAsyncScripts.selectScript) [] ((c :: cs).drop full.length) R
            (by simp [hsi]) (by rw [hsi, hsf]; exact hR)
          rw [hsf, List.nil_append, ← hsplit] at this
          simpa using this

theorem FixAsyncScripts.splitAtFirst_spec (pat : List Char) :
    ∀ (s before after : List Char), FixAsyncScripts.splitAtFirst pat s = some (before, after) →
      s = before ++ pat ++ after := by
  intro s
  induction s with
  | nil =>
    intro before after h
    unfold FixAsyncScripts.splitAtFirst at h
    split at h
    · rename_i hp
      simp only [Option.some.injEq, Prod.mk.injEq] at h
      rw [← h.1, ← h.2, List.isEmpty_iff.mp hp]
      rfl
    · simp at h
  | cons c cs ih =>
    intro before after h
    unfold FixAsyncScripts.splitAtFirst at h
    split at h
    · rename_i hp
      simp only [Option.some.injEq, Prod.mk.injEq] at h
      obtain ⟨t, ht⟩ := List.isPrefixOf_iff_prefix.mp hp
      rw [← h.1, ← h.2, ← ht, List.drop_left]
      rfl
    · cases hr : FixAsyncScripts.splitAtFirst pat cs with
      | none => rw [hr] at h; simp at h
      | some ba =>
        obtain ⟨b, a⟩ := ba
        rw [hr] at h
        simp only [Option.some.injEq, Prod.mk.injEq] at h
        rw [← h.1, ← h.2, ih b a hr]
        simp

/-- C19 (amended): fixHtmlContent rewrites a document in place in these two
cases.  When the content has no head tag, the result is the content with each
selected inline script (no src attribute, trimmed body not empty, not
mentioning JSARAsyncLoader, mentioning a WebGL dependency) replaced, at that
script's own position, by the JSARAsyncLoader.waitForWebGLTestDependencies
wrapper, which holds the trimmed body without a leading "use strict"
directive; every character outside the replaced scripts is unchanged.  When
the content has a head tag free of dollar signs and no script is selected, the
result is the content with the loader script tag inserted immediately after
the first head tag and nothing else changed. -/
theorem FixAsyncScripts.fixHtmlContent_in_place (content : List Char) :
    (FixAsyncScripts.findHead content = none →
      FixAsyncScripts.RewrittenInPlace 0 (FixAsyncScripts.selectScripts content) content
        (FixAsyncScripts.fixHtmlContent content)) ∧
    (∀ s, FixAsyncScripts.wrappedScript s
      = FixAsyncScripts.wrapHead ++ FixAsyncScripts.stripUseStrict s.content
        ++ FixAsyncScripts.wrapTail) ∧
    (∀ head, FixAsyncScripts.findHead content = some head →
      FixAsyncScripts.selectScripts content = [] → (∀ c ∈ head, c ≠ '$') →
      ∃ before after, FixAsyncScripts.splitAtFirst head content = some (before, after) ∧
        content = before ++ head ++ after ∧
        FixAsyncScripts.fixHtmlContent content
          = before ++ head ++ FixAsyncScripts.loaderScript ++ after) := by
  refine ⟨?_, fun _ => rfl, ?_⟩
  · intro hhead
    obtain ⟨R, hR⟩ := FixAsyncScripts.scan_rewrittenInPlace content.length content 0 rfl
    have hfold := FixAsyncScripts.splice_rewrittenInPlace hR [] rfl
    have hfix : FixAsyncScripts.fixHtmlContent content = R := by
      simp only [FixAsyncScripts.fixHtmlContent, FixAsyncScripts.insertLoader, hhead]
      simpa [FixAsyncScripts.selectScripts] using hfold
    rw [hfix]
    exact hR
  · intro head hhead hsel hdollar
    obtain ⟨hinf, -⟩ := FixAsyncScripts.findHead_spec content head hhead
    obtain ⟨b, a, hs⟩ := FixAsyncScripts.splitAtFirst_found head content hinf
    refine ⟨b, a, hs, FixAsyncScripts.splitAtFirst_spec head content b a hs, ?_⟩
    have hplain : FixAsyncScripts.getSubstitution head b a false
        (head ++ FixAsyncScripts.loaderScript) = head ++ FixAsyncScripts.loaderScript := by
      apply FixAsyncScripts.getSubstitution_plain
      intro c hc
      rcases List.mem_append.mp hc with h1 | h1
      · exact hdollar c h1
      · exact FixAsyncScripts.loaderScript_facts.2.1 c h1
    simp [FixAsyncScripts.fixHtmlContent, hsel, FixAsyncScripts.insertLoader, hhead,
      FixAsyncScripts.replaceFirst, hs, hplain, List.append_assoc]

set_option maxRecDepth 100000 in
theorem FixAsyncScripts.fixHtmlContent_in_place_witness :
    FixAsyncScripts.findHead
      "<body><script src=\"t.js\"></script><script>debug(\"hi\");</script></body>".toList = none ∧
    FixAsyncScripts.RewrittenInPlace 0
      (FixAsyncScripts.selectScripts
        "<body><script src=\"t.js\"></script><script>debug(\"hi\");</script></body>".toList)
      "<body><script src=\"t.js\"></script><script>debug(\"hi\");</script></body>".toList
      (FixAsyncScripts.fixHtmlContent
        "<body><script src=\"t.js\"></script><script>debug(\"hi\");</script></body>".toList) :=
  ⟨by decide,
    (FixAsyncScripts.fixHtmlContent_in_place
      "<body><script src=\"t.js\"></script><script>debug(\"hi\");</script></body>".toList).1
      (by decide)⟩

theorem JSARAsyncLoader.call_is_first_tick_witness :
    (JSARAsyncLoader.waitForGlobalCall "Foo" Options.empty 0 (idealClock 0 20 0)
      Example.bareHost).next = Next.again 1 ∧
    (JSARAsyncLoader.waitForGlobalCall "Foo" Options.empty 0 (idealClock 0 20 0)
      Example.bareHost).events.filter Event.isTimer
      = [Event.setTimeout (JSARAsyncLoader.assignConfig Options.empty).retryInterval] :=
  ⟨by decide,
    (JSARAsyncLoader.call_is_first_tick "Foo" ["Foo"] Options.empty 0 (idealClock 0 20)
      (fun _ => Example.bareHost) 0).1.2.2.2.2.2 (by decide)⟩

theorem JSARAsyncLoader.tick_terminal_or_retry_witness :
    [Event.probe, Event.setTimeout 10]
      ∈ (JSARAsyncLoader.waitForGlobal "Foo" ⟨some 3, some 10, some 10000, some false, true, true⟩
          0 (idealClock 0 10) (fun _ => Example.bareHost) 4).ticks.dropLast ∧
    RetryEvents [Event.probe, Event.setTimeout 10]
      (JSARAsyncLoader.assignConfig ⟨some 3, some 10, some 10000, some false, true, true⟩).retryInterval :=
  ⟨by decide,
    (JSARAsyncLoader.tick_terminal_or_retry "Foo" ["Foo"]
      ⟨some 3, some 10, some 10000, some false, true, true⟩ 0 (idealClock 0 10)
      (fun _ => Example.bareHost) 4).2.2.1 [Event.probe, Event.setTimeout 10] (by decide)⟩

/-! ## Claims on the pollers, continued -/

theorem JSARAsyncLoader.isMissing_eq_not_exists (host : Host) (name : String) :
    JSARAsyncLoader.isMissing host name = !JSARAsyncLoader.globalExists host name := by
  unfold JSARAsyncLoader.isMissing JSARAsyncLoader.globalExists undefinedIn definedIn
  cases host.window <;> cases host.global <;> simp

theorem JSARAsyncLoader.isMissing_iff (host : Host) (name : String) :
    JSARAsyncLoader.isMissing host name = true ↔ ¬ Resolves host name := by
  rw [JSARAsyncLoader.isMissing_eq_not_exists, ← JSARAsyncLoader.globalExists_iff]
  simp

/-- C22: the timeout comparison of both JSARAsyncLoader checks is strict.  A
tick reports timeout if and only if now - startTime > timeout; on a tick whose
elapsed time equals timeout exactly no timeout is reported, the tick goes on
to the retry-count check (reporting exhaustion when retries has reached
maxRetries) and, when retries is below maxRetries, to the existence check. -/
theorem JSARAsyncLoader.check_timeout_strict
    (config : Config) (options : Options) (globalName : String) (globalNames : List String)
    (startTime now : Int) (host : Host) (retries : Nat) :
    (((JSARAsyncLoader.waitForGlobalCheck config options globalName startTime now host
          retries).next = Next.stop Outcome.timeout ↔ config.timeout < now - startTime) ∧
      (now - startTime = config.timeout →
        (JSARAsyncLoader.waitForGlobalCheck config options globalName startTime now host
          retries).events.count Event.onTimeout = 0 ∧
        (config.maxRetries ≤ (retries : Int) →
          (JSARAsyncLoader.waitForGlobalCheck config options globalName startTime now host
            retries).next = Next.stop Outcome.exhausted) ∧
        ((retries : Int) < config.maxRetries →
          (JSARAsyncLoader.waitForGlobalCheck config options globalName startTime now host
            retries).events.count Event.probe = 1))) ∧
    (((JSARAsyncLoader.waitForMultipleGlobalsCheck config options globalNames startTime now host
          retries).next = Next.stop Outcome.timeout ↔ config.timeout < now - startTime) ∧
      (now - startTime = config.timeout →
        (JSARAsyncLoader.waitForMultipleGlobalsCheck config options globalNames startTime now host
          retries).events.count Event.onTimeout = 0 ∧
        (config.maxRetries ≤ (retries : Int) →
          (JSARAsyncLoader.waitForMultipleGlobalsCheck config options globalNames startTime now
            host retries).next = Next.stop Outcome.exhausted) ∧
        ((retries : Int) < config.maxRetries →
          (JSARAsyncLoader.waitForMultipleGlobalsCheck config options globalNames startTime now
            host retries).events.count Event.probe = 1))) := by
  constructor
  · rcases JSARAsyncLoader.waitForGlobalCheck_cases config options globalName startTime now host
      retries with ⟨h1, he⟩ | ⟨h1, h2, he⟩ | ⟨h1, h2, h3, he⟩ | ⟨h1, h2, h3, he⟩
    · rw [he]
      refine ⟨by simp [h1], fun heq => absurd heq (by omega)⟩
    · rw [he]
      refine ⟨by simp; omega, fun _ => ⟨?_, fun _ => rfl, fun h => absurd h (by omega)⟩⟩
      cases config.debug <;> cases options.onError <;> simp [emitIf]
    · rw [he]
      refine ⟨by simp; omega, fun _ => ⟨?_, fun h => absurd h (by omega), fun _ => ?_⟩⟩
      · cases config.debug <;> simp [emitIf]
      · cases config.debug <;> simp [emitIf]
    · rw [he]
      refine ⟨by simp; omega, fun _ => ⟨?_, fun h => absurd h (by omega), fun _ => ?_⟩⟩
      · cases config.debug <;> cases ((retries + 1) % 10 == 0) <;> simp [emitIf]
      · cases config.debug <;> cases ((retries + 1) % 10 == 0) <;> simp [emitIf]
  · rcases JSARAsyncLoader.waitForMultipleGlobalsCheck_cases config options globalNames startTime
      now host retries with ⟨h1, he⟩ | ⟨h1, h2, he⟩ | ⟨h1, h2, h3, he⟩ | ⟨h1, h2, h3, he⟩
    · rw [he]
      refine ⟨by simp [h1], fun heq => absurd heq (by omega)⟩
    · rw [he]
      refine ⟨by simp; omega, fun _ => ⟨?_, fun _ => rfl, fun h => absurd h (by omega)⟩⟩
      cases config.debug <;> cases options.onError <;> simp [emitIf]
    · rw [he]
      refine ⟨by simp; omega, fun _ => ⟨?_, fun h => absurd h (by omega), fun _ => ?_⟩⟩
      · cases config.debug <;> simp [emitIf]
      · cases config.debug <;> simp [emitIf]
    · rw [he]
      refine ⟨by simp; omega, fun _ => ⟨?_, fun h => absurd h (by omega), fun _ => ?_⟩⟩
      · cases config.debug <;> cases ((retries + 1) % 10 == 0) <;> simp [emitIf]
      · cases config.debug <;> cases ((retries + 1) % 10 == 0) <;> simp [emitIf]

theorem JSARAsyncLoader.check_timeout_strict_witness :
    ((10000 : Int) - 0 = JSARAsyncLoader.defaultConfig.timeout
      ∧ ((5 : Nat) : Int) < JSARAsyncLoader.defaultConfig.maxRetries)
    ∧ (JSARAsyncLoader.waitForGlobalCheck JSARAsyncLoader.defaultConfig Options.empty "Foo" 0
        10000 Example.bareHost 5).events.count Event.probe = 1 :=
  ⟨⟨by decide, by decide⟩,
    ((JSARAsyncLoader.check_timeout_strict JSARAsyncLoader.defaultConfig Options.empty "Foo"
      ["Foo"] 0 10000 Example.bareHost 5).1.2 (by decide)).2.2 (by decide)⟩

/-- C26: in JSARAsyncLoader.waitForMultipleGlobals the list `missing` is the
requested names filtered, in order, by the test that holds exactly of the
names that resolve neither in window nor in global; it is consistent with the
success test (allAvailable is true if and only if the list is empty), so on a
failed check, where it is computed, it is never empty. -/
theorem JSARAsyncLoader.missing_consistent_with_allAvailable
    (host : Host) (globalNames : List String) :
    List.Sublist (globalNames.filter (JSARAsyncLoader.isMissing host)) globalNames ∧
    (∀ name, JSARAsyncLoader.isMissing host name = true ↔ ¬ Resolves host name) ∧
    (∀ name, name ∈ globalNames.filter (JSARAsyncLoader.isMissing host)
      ↔ name ∈ globalNames ∧ ¬ Resolves host name) ∧
    (globalNames.all (JSARAsyncLoader.globalExists host) = true
      ↔ globalNames.filter (JSARAsyncLoader.isMissing host) = []) ∧
    (∀ (config : Config) (options : Options) (startTime now : Int) (retries : Nat),
      (JSARAsyncLoader.waitForMultipleGlobalsCheck config options globalNames startTime now host
        retries).next = Next.again (retries + 1) →
      globalNames.filter (JSARAsyncLoader.isMissing host) ≠ [] ∧
      ∀ line ∈ (JSARAsyncLoader.waitForMultipleGlobalsCheck config options globalNames startTime
          now host retries).events.filter Event.isWaiting,
        line = Event.consoleLog (LogLine.waiting
          (globalNames.filter (JSARAsyncLoader.isMissing host)) (retries + 1)
          config.maxRetries)) := by
  have hall : globalNames.all (JSARAsyncLoader.globalExists host) = true
      ↔ globalNames.filter (JSARAsyncLoader.isMissing host) = [] := by
    simp [List.filter_eq_nil_iff, List.all_eq_true, JSARAsyncLoader.isMissing_eq_not_exists]
  refine ⟨List.filter_sublist _, JSARAsyncLoader.isMissing_iff host, ?_, hall, ?_⟩
  · intro name
    simp [List.mem_filter, JSARAsyncLoader.isMissing_iff]
  · intro config options startTime now retries hnext
    rcases JSARAsyncLoader.waitForMultipleGlobalsCheck_cases config options globalNames startTime
      now host retries with ⟨-, he⟩ | ⟨-, -, he⟩ | ⟨-, -, -, he⟩ | ⟨-, -, h3, he⟩
    · rw [he] at hnext; simp at hnext
    · rw [he] at hnext; simp at hnext
    · rw [he] at hnext; simp at hnext
    · constructor
      · intro hnil
        rw [hall.mpr hnil] at h3
        exact absurd h3 (by simp)
      · rw [he]
        cases config.debug <;> cases ((retries + 1) % 10 == 0) <;>
          simp [emitIf, Event.isWaiting]

theorem JSARAsyncLoader.waitingLines_until_exhaustion (options : Options)
    (globalNames : List String) (startTime : Int) (clock : Nat → Int) (hosts : Nat → Host)
    (hdebug : (JSARAsyncLoader.assignConfig options).debug = true) :
    ∀ (fuel k r : Nat), (r : Int) ≤ (JSARAsyncLoader.assignConfig options).maxRetries →
      (drive (fun k retries => JSARAsyncLoader.waitForMultipleGlobalsCheck
          (JSARAsyncLoader.assignConfig options) options globalNames startTime (clock k)
          (hosts k) retries) fuel k r).final = Final.finished Outcome.exhausted →
      (drive (fun k retries => JSARAsyncLoader.waitForMultipleGlobalsCheck
          (JSARAsyncLoader.assignConfig options) options globalNames startTime (clock k)
          (hosts k) retries) fuel k r).waitingLines + r / 10
        = (JSARAsyncLoader.assignConfig options).maxRetries.toNat / 10 := by
  intro fuel
  induction fuel with
  | zero => intro k r _ hfin; simp [drive] at hfin
  | succ n ih =>
    intro k r hr hfin
    rcases JSARAsyncLoader.waitForMultipleGlobalsCheck_cases
      (JSARAsyncLoader.assignConfig options) options globalNames startTime (clock k) (hosts k)
      r with ⟨-, he⟩ | ⟨-, h2, he⟩ | ⟨-, -, -, he⟩ | ⟨-, h2, -, he⟩
    · have hn : ((fun k retries => JSARAsyncLoader.waitForMultipleGlobalsCheck
          (JSARAsyncLoader.assignConfig options) options globalNames startTime (clock k)
          (hosts k) retries) k r).next = Next.stop Outcome.timeout := by
        simp only [he]
      rw [drive_stop n hn] at hfin
      simp at hfin
    · have hn : ((fun k retries => JSARAsyncLoader.waitForMultipleGlobalsCheck
          (JSARAsyncLoader.assignConfig options) options globalNames startTime (clock k)
          (hosts k) retries) k r).next = Next.stop Outcome.exhausted := by
        simp only [he]
      rw [drive_stop n hn]
      simp only [Run.waitingLines, he, hdebug, List.map_cons, List.map_nil, List.sum_cons,
        List.sum_nil]
      have hc : List.countP Event.isWaiting
          (emitIf true (Event.consoleError (LogLine.maxRetriesReached globalNames))
            ++ emitIf options.onError Event.onError) = 0 := by
        cases options.onError <;> simp [emitIf, Event.isWaiting]
      rw [hc]
      omega
    · have hn : ((fun k retries => JSARAsyncLoader.waitForMultipleGlobalsCheck
          (JSARAsyncLoader.assignConfig options) options globalNames startTime (clock k)
          (hosts k) retries) k r).next = Next.stop Outcome.success := by
        simp only [he]
      rw [drive_stop n hn] at hfin
      simp at hfin
    · have hn : ((fun k retries => JSARAsyncLoader.waitForMultipleGlobalsCheck
          (JSARAsyncLoader.assignConfig options) options globalNames startTime (clock k)
          (hosts k) retries) k r).next = Next.again (r + 1) := by
        simp only [he]
      rw [drive_again n hn] at hfin ⊢
      have hrec := ih (k + 1) (r + 1) (by push_cast; omega) hfin
      simp only [Run.waitingLines] at hrec ⊢
      simp only [he, hdebug, List.map_cons, List.sum_cons]
      have hc : List.countP Event.isWaiting
          (Event.probe :: emitIf (true && (r + 1) % 10 == 0)
              (Event.consoleLog (LogLine.waiting
                (globalNames.filter (JSARAsyncLoader.isMissing (hosts k))) (r + 1)
                (JSARAsyncLoader.assignConfig options).maxRetries))
            ++ [Event.setTimeout (JSARAsyncLoader.assignConfig options).retryInterval])
          = if (r + 1) % 10 = 0 then 1 else 0 := by
        by_cases hm : (r + 1) % 10 = 0 <;> simp [emitIf, Event.isWaiting, hm]
      rw [hc]
      split_ifs with hm <;> omega

/-- C23: with config.debug true, a failed check of
JSARAsyncLoader.waitForMultipleGlobals emits a waiting line exactly when the
incremented retry count is a multiple of 10, and that line lists exactly the
requested names that resolve neither in window nor in global on that tick, in
order; a wait that runs to exhaustion with maxRetries = N emits N / 10
(rounded down) such lines. -/
theorem JSARAsyncLoader.waiting_line_every_tenth_retry
    (options : Options) (globalNames : List String) (startTime : Int) (clock : Nat → Int)
    (hosts : Nat → Host) (fuel : Nat)
    (hdebug : (JSARAsyncLoader.assignConfig options).debug = true)
    (hR : 0 < (JSARAsyncLoader.assignConfig options).maxRetries) :
    (∀ (now : Int) (host : Host) (retries : Nat),
      (JSARAsyncLoader.waitForMultipleGlobalsCheck (JSARAsyncLoader.assignConfig options) options
        globalNames startTime now host retries).next = Next.again (retries + 1) →
      (JSARAsyncLoader.waitForMultipleGlobalsCheck (JSARAsyncLoader.assignConfig options) options
        globalNames startTime now host retries).events.filter Event.isWaiting
        = (if (retries + 1) % 10 = 0 then
            [Event.consoleLog (LogLine.waiting
              (globalNames.filter (JSARAsyncLoader.isMissing host)) (retries + 1)
              (JSARAsyncLoader.assignConfig options).maxRetries)]
          else [])) ∧
    (∀ (host : Host) (name : String), name ∈ globalNames.filter (JSARAsyncLoader.isMissing host)
      ↔ name ∈ globalNames ∧ ¬ Resolves host name) ∧
    (∀ (now : Int) (host : Host) (retries : Nat) (o : Outcome),
      (JSARAsyncLoader.waitForMultipleGlobalsCheck (JSARAsyncLoader.assignConfig options) options
        globalNames startTime now host retries).next = Next.stop o →
      (JSARAsyncLoader.waitForMultipleGlobalsCheck (JSARAsyncLoader.assignConfig options) options
        globalNames startTime now host retries).events.filter Event.isWaiting = []) ∧
    ((JSARAsyncLoader.waitForMultipleGlobals globalNames options startTime clock hosts fuel).final
        = Final.finished Outcome.exhausted →
      (JSARAsyncLoader.waitForMultipleGlobals globalNames options startTime clock hosts
        fuel).waitingLines = (JSARAsyncLoader.assignConfig options).maxRetries.toNat / 10) := by
  refine ⟨?_, ?_, ?_, ?_⟩
  · intro now host retries hnext
    rcases JSARAsyncLoader.waitForMultipleGlobalsCheck_cases
      (JSARAsyncLoader.assignConfig options) options globalNames startTime now host retries with
      ⟨-, he⟩ | ⟨-, -, he⟩ | ⟨-, -, -, he⟩ | ⟨-, -, -, he⟩
    · rw [he] at hnext; simp at hnext
    · rw [he] at hnext; simp at hnext
    · rw [he] at hnext; simp at hnext
    · rw [he, hdebug]
      by_cases hm : (retries + 1) % 10 = 0 <;> simp [emitIf, Event.isWaiting, hm]
  · intro host name
    simp [List.mem_filter, JSARAsyncLoader.isMissing_iff]
  · intro now host retries o hnext
    rcases JSARAsyncLoader.waitForMultipleGlobalsCheck_cases
      (JSARAsyncLoader.assignConfig options) options globalNames startTime now host retries with
      ⟨-, he⟩ | ⟨-, -, he⟩ | ⟨-, -, -, he⟩ | ⟨-, -, -, he⟩
    · rw [he, hdebug]; cases options.onTimeout <;> simp [emitIf, Event.isWaiting]
    · rw [he, hdebug]; cases options.onError <;> simp [emitIf, Event.isWaiting]
    · rw [he, hdebug]; simp [emitIf, Event.isWaiting]
    · rw [he] at hnext; simp at hnext
  · intro hfin
    have := JSARAsyncLoader.waitingLines_until_exhaustion options globalNames startTime clock
      hosts hdebug fuel 0 0 (by push_cast; omega) hfin
    simpa [JSARAsyncLoader.waitForMultipleGlobals] using this

theorem JSARAsyncLoader.waiting_line_every_tenth_retry_witness :
    ((JSARAsyncLoader.assignConfig ⟨some 25, some 10, none, none, true, true⟩).debug = true
      ∧ 0 < (JSARAsyncLoader.assignConfig ⟨some 25, some 10, none, none, true, true⟩).maxRetries
      ∧ (JSARAsyncLoader.waitForMultipleGlobals ["A", "B"]
          ⟨some 25, some 10, none, none, true, true⟩ 0 (idealClock 0 10)
          (fun _ => Example.windowHost ["A"]) 26).final = Final.finished Outcome.exhausted)
    ∧ (JSARAsyncLoader.waitForMultipleGlobals ["A", "B"]
        ⟨some 25, some 10, none, none, true, true⟩ 0 (idealClock 0 10)
        (fun _ => Example.windowHost ["A"]) 26).waitingLines
      = (JSARAsyncLoader.assignConfig ⟨some 25, some 10, none, none, true, true⟩).maxRetries.toNat
        / 10 :=
  ⟨⟨by decide, by decide, by decide⟩,
    (JSARAsyncLoader.waiting_line_every_tenth_retry ⟨some 25, some 10, none, none, true, true⟩
      ["A", "B"] 0 (idealClock 0 10) (fun _ => Example.windowHost ["A"]) 26 (by decide)
      (by decide)).2.2.2 (by decide)⟩

theorem JSARAsyncLoader.missing_consistent_with_allAvailable_witness :
    (JSARAsyncLoader.waitForMultipleGlobalsCheck JSARAsyncLoader.defaultConfig Options.empty
        ["A", "B"] 0 0 (Example.windowHost ["A"]) 9).next = Next.again (9 + 1) ∧
    ["A", "B"].filter (JSARAsyncLoader.isMissing (Example.windowHost ["A"])) ≠ [] :=
  ⟨by decide,
    ((JSARAsyncLoader.missing_consistent_with_allAvailable (Example.windowHost ["A"])
      ["A", "B"]).2.2.2.2 JSARAsyncLoader.defaultConfig Options.empty 0 0 9 (by decide)).1⟩

/-- C27 as stated fails: with an empty name list, maxRetries > 0 and
timeout = 0, a call whose first check reads the clock one millisecond after
the start does not invoke the callback; the first tick reports timeout. -/
theorem JSARAsyncLoader.empty_list_times_out_at_zero_timeout :
    0 < (JSARAsyncLoader.assignConfig ⟨none, none, some 0, some false, true, true⟩).maxRetries ∧
    0 ≤ (JSARAsyncLoader.assignConfig ⟨none, none, some 0, some false, true, true⟩).timeout ∧
    JSARAsyncLoader.waitForMultipleGlobalsCall [] ⟨none, none, some 0, some false, true, true⟩ 0 1
        Example.bareHost = ⟨[Event.onTimeout], Next.stop Outcome.timeout⟩ ∧
    (JSARAsyncLoader.waitForMultipleGlobals [] ⟨none, none, some 0, some false, true, true⟩ 0
        (fun k => 1 + idealClock 0 20 k) (fun _ => Example.bareHost) 101).count Event.callback
      = 0 := by
  refine ⟨by decide, by decide, by decide, by decide⟩

/-- C27 (amended): for an empty name list the multi-name wait succeeds
vacuously.  JSARAsyncLoader.waitForMultipleGlobals([], cb, options) with
maxRetries > 0 whose first check reads an elapsed time of at most timeout (as
it does when timeout >= 0 and the first check reads the clock value of the
call) invokes cb on the first tick, synchronously inside the call, with zero
retries and no tick scheduled; hence JSARAsyncLoader.safeExecute(fn) with its
default dependencies [] runs fn inside the call under the same condition. -/
theorem JSARAsyncLoader.empty_list_succeeds_in_call
    (options : Options) (startTime : Int) (clock : Nat → Int) (hosts : Nat → Host) (fuel : Nat)
    (hR : 0 < (JSARAsyncLoader.assignConfig options).maxRetries)
    (hT : clock 0 - startTime ≤ (JSARAsyncLoader.assignConfig options).timeout) :
    JSARAsyncLoader.waitForMultipleGlobalsCall [] options startTime (clock 0) (hosts 0)
      = ⟨Event.probe :: emitIf (JSARAsyncLoader.assignConfig options).debug
            (Event.consoleLog (LogLine.nowAvailable [])) ++ [Event.callback],
          Next.stop Outcome.success⟩ ∧
    (JSARAsyncLoader.waitForMultipleGlobalsCall [] options startTime (clock 0)
      (hosts 0)).events.count Event.callback = 1 ∧
    (JSARAsyncLoader.waitForMultipleGlobalsCall [] options startTime (clock 0)
      (hosts 0)).events.filter Event.isTimer = [] ∧
    JSARAsyncLoader.waitForMultipleGlobals [] options startTime clock hosts (fuel + 1)
      = ⟨[(JSARAsyncLoader.waitForMultipleGlobalsCall [] options startTime (clock 0)
            (hosts 0)).events], Final.finished Outcome.success⟩ ∧
    JSARAsyncLoader.safeExecute [] options startTime clock hosts (fuel + 1)
      = ⟨[(JSARAsyncLoader.waitForMultipleGlobalsCall [] options startTime (clock 0)
            (hosts 0)).events], Final.finished Outcome.success⟩ := by
  have hcall : JSARAsyncLoader.waitForMultipleGlobalsCall [] options startTime (clock 0) (hosts 0)
      = ⟨Event.probe :: emitIf (JSARAsyncLoader.assignConfig options).debug
            (Event.consoleLog (LogLine.nowAvailable [])) ++ [Event.callback],
          Next.stop Outcome.success⟩ := by
    unfold JSARAsyncLoader.waitForMultipleGlobalsCall
    rcases JSARAsyncLoader.waitForMultipleGlobalsCheck_cases
      (JSARAsyncLoader.assignConfig options) options [] startTime (clock 0) (hosts 0) 0 with
      ⟨h1, -⟩ | ⟨-, h2, -⟩ | ⟨-, -, -, he⟩ | ⟨-, -, h3, -⟩
    · omega
    · push_cast at h2; omega
    · exact he
    · simp at h3
  have hrun : JSARAsyncLoader.waitForMultipleGlobals [] options startTime clock hosts (fuel + 1)
      = ⟨[(JSARAsyncLoader.waitForMultipleGlobalsCall [] options startTime (clock 0)
            (hosts 0)).events], Final.finished Outcome.success⟩ := by
    unfold JSARAsyncLoader.waitForMultipleGlobals
    have hn : ((fun k retries => JSARAsyncLoader.waitForMultipleGlobalsCheck
        (JSARAsyncLoader.assignConfig options) options [] startTime (clock k) (hosts k) retries)
        0 0).next = Next.stop Outcome.success := by
      have := congrArg Tick.next hcall
      simpa [JSARAsyncLoader.waitForMultipleGlobalsCall] using this
    rw [drive_stop fuel hn]
    rfl
  refine ⟨hcall, ?_, ?_, hrun, hrun⟩
  · rw [hcall]
    cases (JSARAsyncLoader.assignConfig options).debug <;> simp [emitIf]
  · rw [hcall]
    cases (JSARAsyncLoader.assignConfig options).debug <;> simp [emitIf, Event.isTimer]

theorem JSARAsyncLoader.empty_list_succeeds_in_call_witness :
    (0 < (JSARAsyncLoader.assignConfig Options.empty).maxRetries
      ∧ idealClock 0 20 0 - 0 ≤ (JSARAsyncLoader.assignConfig Options.empty).timeout)
    ∧ JSARAsyncLoader.safeExecute [] Options.empty 0 (idealClock 0 20)
        (fun _ => Example.bareHost) (0 + 1)
      = ⟨[(JSARAsyncLoader.waitForMultipleGlobalsCall [] Options.empty 0 (idealClock 0 20 0)
            Example.bareHost).events], Final.finished Outcome.success⟩ :=
  ⟨⟨by decide, by decide⟩,
    (JSARAsyncLoader.empty_list_succeeds_in_call Options.empty 0 (idealClock 0 20)
      (fun _ => Example.bareHost) 0 (by decide) (by decide)).2.2.2.2⟩

/-- C28: waitForGlobal (webgl-async-loader.js) probes the name by direct
evaluation inside its own closure, so a requested name equal to one of the
initialised local identifiers of the poller (globalName, callback, options,
maxRetries, retryInterval, timeout, retries, startTime, check, globalExists)
resolves whatever the host holds, also when no binding of that name exists in
window or global and the name is unknown outside the closure.  Every tick that
reaches the existence check then invokes the success callback; with the
default options the first tick, the one run inside the call, does so, and the
wait ends there. -/
theorem WebglAsyncLoader.closure_local_name_resolves
    (globalName : String) (host : Host)
    (hname : globalName ∈ ["globalName", "callback", "options", "maxRetries", "retryInterval",
      "timeout", "retries", "startTime", "check", "globalExists"]) :
    WebglAsyncLoader.directEval host globalName = EvalResult.defined ∧
    WebglAsyncLoader.globalExists host globalName = true ∧
    (∀ (options : Options) (startTime now : Int) (retries : Nat),
      now - startTime ≤ WebglAsyncLoader.orDefault options.timeout 5000 →
      (retries : Int) < WebglAsyncLoader.orDefault options.maxRetries 100 →
      WebglAsyncLoader.waitForGlobalCheck options globalName startTime now host retries
        = ⟨[Event.probe, Event.consoleLog (LogLine.nowAvailable [globalName]), Event.callback],
            Next.stop Outcome.success⟩) ∧
    (∀ (startTime : Int),
      WebglAsyncLoader.waitForGlobalCall globalName Options.empty startTime startTime host
        = ⟨[Event.probe, Event.consoleLog (LogLine.nowAvailable [globalName]), Event.callback],
            Next.stop Outcome.success⟩) ∧
    (∀ (startTime : Int) (clock : Nat → Int) (hosts : Nat → Host) (fuel : Nat),
      clock 0 = startTime → hosts 0 = host →
      WebglAsyncLoader.waitForGlobal globalName Options.empty startTime clock hosts (fuel + 1)
        = ⟨[[Event.probe, Event.consoleLog (LogLine.nowAvailable [globalName]),
              Event.callback]], Final.finished Outcome.success⟩) := by
  have hlocal : globalName ∈ WebglAsyncLoader.closureLocals := by
    simp only [List.mem_cons, List.mem_singleton, List.not_mem_nil, or_false] at hname
    rcases hname with h | h | h | h | h | h | h | h | h | h <;>
      simp [WebglAsyncLoader.closureLocals, h]
  have hd : WebglAsyncLoader.directEval host globalName = EvalResult.defined := by
    simp [WebglAsyncLoader.directEval, hlocal]
  have hex : WebglAsyncLoader.globalExists host globalName = true := by
    simp [WebglAsyncLoader.globalExists, hd]
  have hcheck : ∀ (options : Options) (startTime now : Int) (retries : Nat),
      now - startTime ≤ WebglAsyncLoader.orDefault options.timeout 5000 →
      (retries : Int) < WebglAsyncLoader.orDefault options.maxRetries 100 →
      WebglAsyncLoader.waitForGlobalCheck options globalName startTime now host retries
        = ⟨[Event.probe, Event.consoleLog (LogLine.nowAvailable [globalName]), Event.callback],
            Next.stop Outcome.success⟩ := by
    intro options startTime now retries ht hr
    have h1 : ¬ now - startTime > WebglAsyncLoader.orDefault options.timeout 5000 := by
      simpa using ht
    have h3 : ¬ (retries : Int) ≥ WebglAsyncLoader.orDefault options.maxRetries 100 := by
      simpa using hr
    simp [WebglAsyncLoader.waitForGlobalCheck, if_neg h1, if_neg h3, hex]
  have hfirst : ∀ (startTime : Int),
      WebglAsyncLoader.waitForGlobalCheck Options.empty globalName startTime startTime host 0
        = ⟨[Event.probe, Event.consoleLog (LogLine.nowAvailable [globalName]), Event.callback],
            Next.stop Outcome.success⟩ := by
    intro startTime
    apply hcheck
    · have h : WebglAsyncLoader.orDefault Options.empty.timeout 5000 = 5000 := by decide
      rw [h]
      omega
    · have h : WebglAsyncLoader.orDefault Options.empty.maxRetries 100 = 100 := by decide
      rw [h]
      decide
  refine ⟨hd, hex, hcheck, hfirst, ?_⟩
  intro startTime clock hosts fuel hc hh
  have hn : ((fun k retries => WebglAsyncLoader.waitForGlobalCheck Options.empty globalName
      startTime (clock k) (hosts k) retries) 0 0).next = Next.stop Outcome.success := by
    simp only [hc, hh, hfirst startTime]
  unfold WebglAsyncLoader.waitForGlobal
  rw [drive_stop fuel hn]
  simp only [hc, hh, hfirst startTime]

theorem WebglAsyncLoader.closure_local_name_resolves_witness :
    ¬ Resolves Example.bareHost "retries"
    ∧ WebglAsyncLoader.waitForGlobalCall "retries" Options.empty 0 0 Example.bareHost
      = ⟨[Event.probe, Event.consoleLog (LogLine.nowAvailable ["retries"]), Event.callback],
          Next.stop Outcome.success⟩ :=
  ⟨by simp [Resolves, ResolvesIn, Example.bareHost],
    (WebglAsyncLoader.closure_local_name_resolves "retries" Example.bareHost
      (by decide)).2.2.2.1 0⟩

theorem WebglAsyncLoader.lookups_of_objects (host : Host) (w g : String → Bool)
    (hw : host.window = some w) (hg : host.global = some g) (names : List String) :
    WebglAsyncLoader.every (WebglAsyncLoader.nameAvailable host) names
      = some (names.all (JSARAsyncLoader.globalExists host)) ∧
    WebglAsyncLoader.filter (WebglAsyncLoader.nameMissing host) names
      = some (names.filter (JSARAsyncLoader.isMissing host)) := by
  have ha : ∀ n, WebglAsyncLoader.nameAvailable host n
      = some (JSARAsyncLoader.globalExists host n) := by
    intro n
    simp only [WebglAsyncLoader.nameAvailable, WebglAsyncLoader.propDefined,
      JSARAsyncLoader.globalExists, definedIn, hw, hg]
    cases w n <;> simp
  have hm : ∀ n, WebglAsyncLoader.nameMissing host n
      = some (JSARAsyncLoader.isMissing host n) := by
    intro n
    simp only [WebglAsyncLoader.nameMissing, WebglAsyncLoader.propDefined,
      JSARAsyncLoader.isMissing, undefinedIn, hw, hg]
    cases w n <;> simp
  induction names with
  | nil => exact ⟨rfl, rfl⟩
  | cons n ns ih =>
    constructor
    · simp only [WebglAsyncLoader.every, ha n, List.all_cons]
      cases JSARAsyncLoader.globalExists host n with
      | true => simpa using ih.1
      | false => simp
    · simp only [WebglAsyncLoader.filter, hm n, ih.2, List.filter_cons]

theorem WebglAsyncLoader.objects_of_every_false (host : Host) :
    ∀ (names : List String),
      WebglAsyncLoader.every (WebglAsyncLoader.nameAvailable host) names = some false →
      ∃ w g, host.window = some w ∧ host.global = some g := by
  intro names
  induction names with
  | nil => intro h; simp [WebglAsyncLoader.every] at h
  | cons n ns ih =>
    intro h
    cases hw : host.window with
    | none =>
      simp [WebglAsyncLoader.every, WebglAsyncLoader.nameAvailable,
        WebglAsyncLoader.propDefined, hw] at h
    | some w =>
      cases hg : host.global with
      | some g => exact ⟨w, g, rfl, rfl⟩
      | none =>
        cases hwn : w n with
        | true =>
          have hav : WebglAsyncLoader.nameAvailable host n = some true := by
            simp [WebglAsyncLoader.nameAvailable, WebglAsyncLoader.propDefined, hw, hwn]
          simp only [WebglAsyncLoader.every, hav] at h
          obtain ⟨w1, g1, -, hg1⟩ := ih h
          rw [hg] at hg1
          exact absurd hg1 (by simp)
        | false =>
          simp [WebglAsyncLoader.every, WebglAsyncLoader.nameAvailable,
            WebglAsyncLoader.propDefined, hw, hg, hwn] at h

/-- The four branches of `check` in `waitForMultipleGlobals` of
webgl-async-loader.js on a host where `window` and `global` are objects. -/
theorem WebglAsyncLoader.multiCheck_branches (options : Options)
    (globalNames : List String) (startTime now : Int) (host : Host) (retries : Nat)
    (w g : String → Bool) (hw : host.window = some w) (hg : host.global = some g) :
    (WebglAsyncLoader.orDefault options.timeout 5000 < now - startTime ∧
      WebglAsyncLoader.waitForMultipleGlobalsCheck options globalNames startTime now host retries
        = ⟨Event.consoleError (LogLine.timeoutWaiting globalNames)
            :: emitIf options.onTimeout Event.onTimeout, Next.stop Outcome.timeout⟩) ∨
    (now - startTime ≤ WebglAsyncLoader.orDefault options.timeout 5000 ∧
      WebglAsyncLoader.orDefault options.maxRetries 100 ≤ (retries : Int) ∧
      WebglAsyncLoader.waitForMultipleGlobalsCheck options globalNames startTime now host retries
        = ⟨Event.consoleError (LogLine.maxRetriesReached globalNames)
            :: emitIf options.onError Event.onError, Next.stop Outcome.exhausted⟩) ∨
    (now - startTime ≤ WebglAsyncLoader.orDefault options.timeout 5000 ∧
      (retries : Int) < WebglAsyncLoader.orDefault options.maxRetries 100 ∧
      globalNames.all (JSARAsyncLoader.globalExists host) = true ∧
      WebglAsyncLoader.waitForMultipleGlobalsCheck options globalNames startTime now host retries
        = ⟨[Event.probe, Event.consoleLog (LogLine.nowAvailable globalNames), Event.callback],
            Next.stop Outcome.success⟩) ∨
    (now - startTime ≤ WebglAsyncLoader.orDefault options.timeout 5000 ∧
      (retries : Int) < WebglAsyncLoader.orDefault options.maxRetries 100 ∧
      globalNames.all (JSARAsyncLoader.globalExists host) = false ∧
      WebglAsyncLoader.waitForMultipleGlobalsCheck options globalNames startTime now host retries
        = ⟨[Event.probe,
            Event.consoleLog (LogLine.waiting
              (globalNames.filter (JSARAsyncLoader.isMissing host)) (retries + 1)
              (WebglAsyncLoader.orDefault options.maxRetries 100)),
            Event.setTimeout (WebglAsyncLoader.orDefault options.retryInterval 10)],
            Next.again (retries + 1)⟩) := by
  obtain ⟨he, hf⟩ := WebglAsyncLoader.lookups_of_objects host w g hw hg globalNames
  by_cases h1 : now - startTime > WebglAsyncLoader.orDefault options.timeout 5000
  · exact Or.inl ⟨h1, by simp only [WebglAsyncLoader.waitForMultipleGlobalsCheck, if_pos h1]⟩
  · by_cases h2 : (retries : Int) ≥ WebglAsyncLoader.orDefault options.maxRetries 100
    · exact Or.inr (Or.inl ⟨not_lt.mp h1, h2,
        by simp only [WebglAsyncLoader.waitForMultipleGlobalsCheck, if_neg h1, if_pos h2]⟩)
    · cases h3 : globalNames.all (JSARAsyncLoader.globalExists host) with
      | true =>
        refine Or.inr (Or.inr (Or.inl ⟨not_lt.mp h1, not_le.mp h2, rfl, ?_⟩))
        simp only [WebglAsyncLoader.waitForMultipleGlobalsCheck, if_neg h1, if_neg h2, he, h3]
      | false =>
        refine Or.inr (Or.inr (Or.inr ⟨not_lt.mp h1, not_le.mp h2, rfl, ?_⟩))
        simp only [WebglAsyncLoader.waitForMultipleGlobalsCheck, if_neg h1, if_neg h2, he, h3, hf]

theorem WebglAsyncLoader.multiCheck_pollerTick (options : Options)
    (globalNames : List String) (startTime : Int) (clock : Nat → Int) (hosts : Nat → Host)
    (hobj : ∀ k, ∃ w g, (hosts k).window = some w ∧ (hosts k).global = some g) :
    PollerTick
      (fun k retries => WebglAsyncLoader.waitForMultipleGlobalsCheck options globalNames
        startTime (clock k) (hosts k) retries)
      (fun k => clock k - startTime)
      (WebglAsyncLoader.orDefault options.timeout 5000)
      (WebglAsyncLoader.orDefault options.maxRetries 100)
      (fun k => globalNames.all (JSARAsyncLoader.globalExists (hosts k)))
      options.onTimeout options.onError := by
  constructor
  · intro k r h
    obtain ⟨w, g, hw, hg⟩ := hobj k
    rcases WebglAsyncLoader.multiCheck_branches options globalNames startTime
      (clock k) (hosts k) r w g hw hg with ⟨-, he⟩ | ⟨h1, -, -⟩ | ⟨h1, -, -, -⟩ | ⟨h1, -, -, -⟩
    · simp only [he, tally, emitIf]
      cases options.onTimeout <;> simp
    · exact absurd h (not_lt.mpr h1)
    · exact absurd h (not_lt.mpr h1)
    · exact absurd h (not_lt.mpr h1)
  · intro k r h h2
    obtain ⟨w, g, hw, hg⟩ := hobj k
    rcases WebglAsyncLoader.multiCheck_branches options globalNames startTime
      (clock k) (hosts k) r w g hw hg with ⟨h1, -⟩ | ⟨-, -, he⟩ | ⟨-, h3, -, -⟩ | ⟨-, h3, -, -⟩
    · exact absurd h (not_le.mpr h1)
    · simp only [he, tally, emitIf]
      cases options.onError <;> simp
    · exact absurd h2 (not_le.mpr h3)
    · exact absurd h2 (not_le.mpr h3)
  · intro k r h h2 h4
    obtain ⟨w, g, hw, hg⟩ := hobj k
    rcases WebglAsyncLoader.multiCheck_branches options globalNames startTime
      (clock k) (hosts k) r w g hw hg with ⟨h1, -⟩ | ⟨-, h3, -⟩ | ⟨-, -, -, he⟩ | ⟨-, -, h5, -⟩
    · exact absurd h (not_le.mpr h1)
    · exact absurd h2 (not_lt.mpr h3)
    · simp [he, tally]
    · simp only [] at h4
      rw [h4] at h5
      exact absurd h5 (by simp)
  · intro k r h h2 h4
    obtain ⟨w, g, hw, hg⟩ := hobj k
    rcases WebglAsyncLoader.multiCheck_branches options globalNames startTime
      (clock k) (hosts k) r w g hw hg with ⟨h1, -⟩ | ⟨-, h3, -⟩ | ⟨-, -, h5, -⟩ | ⟨-, -, -, he⟩
    · exact absurd h (not_le.mpr h1)
    · exact absurd h2 (not_lt.mpr h3)
    · simp only [] at h4
      rw [h4] at h5
      exact absurd h5 (by simp)
    · simp [he, tally]

/-- Two tick functions that agree on the continuation and on the events other
than console output give runs that end alike and agree, tick by tick, on the
events other than console output. -/
theorem drive_silent_congr (c1 c2 : Nat → Nat → Tick)
    (h : ∀ k r, (c1 k r).next = (c2 k r).next ∧
      silent (c1 k r).events = silent (c2 k r).events) :
    ∀ (fuel k r : Nat), (drive c1 fuel k r).final = (drive c2 fuel k r).final ∧
      (drive c1 fuel k r).ticks.map silent = (drive c2 fuel k r).ticks.map silent := by
  intro fuel
  induction fuel with
  | zero => intro k r; exact ⟨rfl, rfl⟩
  | succ n ih =>
    intro k r
    obtain ⟨hn, hs⟩ := h k r
    cases hc : (c2 k r).next with
    | stop o =>
      rw [drive_stop n hc, drive_stop n (hn.trans hc)]
      simp [hs]
    | raise =>
      have hc1 := hn.trans hc
      simp only [drive, hc, hc1]
      simp [hs]
    | again r1 =>
      rw [drive_again n hc, drive_again n (hn.trans hc)]
      simp [hs, ih (k + 1) r1]

theorem silent_count (evs : List Event) (e : Event) (he : e.isLog = false) :
    (silent evs).count e = evs.count e := by
  induction evs with
  | nil => rfl
  | cons a as ih =>
    simp only [silent] at ih ⊢
    rw [List.filter_cons]
    cases hl : a.isLog
    · simp only [Bool.not_false, if_true, List.count_cons, ih]
    · have hae : (a == e) = false := by
        rw [beq_eq_false_iff_ne]
        intro h
        rw [h, he] at hl
        exact absurd hl (by simp)
      simp only [Bool.not_true, Bool.false_eq_true, if_false, List.count_cons, ih, hae]
      simp

/-- One tick of the two multi-name pollers under the same fully specified
configuration on a host where `window` and `global` are objects. -/
theorem multi_tick_agreement (globalNames : List String) (m i t : Int) (debug : Option Bool)
    (onT onE : Bool) (startTime now : Int) (host : Host) (retries : Nat)
    (hm : 0 < m) (hi : 0 < i) (ht : 0 < t)
    (hobj : ∃ w g, host.window = some w ∧ host.global = some g) :
    (JSARAsyncLoader.waitForMultipleGlobalsCheck
        (JSARAsyncLoader.assignConfig ⟨some m, some i, some t, debug, onT, onE⟩)
        ⟨some m, some i, some t, debug, onT, onE⟩ globalNames startTime now host retries).next
      = (WebglAsyncLoader.waitForMultipleGlobalsCheck ⟨some m, some i, some t, debug, onT, onE⟩
          globalNames startTime now host retries).next ∧
    silent (JSARAsyncLoader.waitForMultipleGlobalsCheck
        (JSARAsyncLoader.assignConfig ⟨some m, some i, some t, debug, onT, onE⟩)
        ⟨some m, some i, some t, debug, onT, onE⟩ globalNames startTime now host retries).events
      = silent (WebglAsyncLoader.waitForMultipleGlobalsCheck
          ⟨some m, some i, some t, debug, onT, onE⟩
          globalNames startTime now host retries).events := by
  obtain ⟨w, g, hw, hg⟩ := hobj
  have hM : WebglAsyncLoader.orDefault (some m) 100 = m := by
    simp only [WebglAsyncLoader.orDefault]; rw [if_neg (by omega)]
  have hI : WebglAsyncLoader.orDefault (some i) 10 = i := by
    simp only [WebglAsyncLoader.orDefault]; rw [if_neg (by omega)]
  have hT : WebglAsyncLoader.orDefault (some t) 5000 = t := by
    simp only [WebglAsyncLoader.orDefault]; rw [if_neg (by omega)]
  rcases WebglAsyncLoader.multiCheck_branches
      ⟨some m, some i, some t, debug, onT, onE⟩ globalNames startTime now host retries w g hw hg
    with ⟨h1, he⟩ | ⟨h1, h2, he⟩ | ⟨h1, h2, h3, he⟩ | ⟨h1, h2, h3, he⟩
  · rw [he]
    simp only [hT] at h1
    simp only [JSARAsyncLoader.waitForMultipleGlobalsCheck, JSARAsyncLoader.assignConfig,
      Option.getD_some, gt_iff_lt, if_pos h1]
    cases debug.getD JSARAsyncLoader.defaultConfig.debug <;> cases onT <;>
      simp [silent, emitIf, Event.isLog]
  · rw [he]
    simp only [hT, hM] at h1 h2
    simp only [JSARAsyncLoader.waitForMultipleGlobalsCheck, JSARAsyncLoader.assignConfig,
      Option.getD_some, gt_iff_lt, if_neg (not_lt.mpr h1), ge_iff_le, if_pos h2]
    cases debug.getD JSARAsyncLoader.defaultConfig.debug <;> cases onE <;>
      simp [silent, emitIf, Event.isLog]
  · rw [he]
    simp only [hT, hM] at h1 h2
    simp only [JSARAsyncLoader.waitForMultipleGlobalsCheck, JSARAsyncLoader.assignConfig,
      Option.getD_some, gt_iff_lt, if_neg (not_lt.mpr h1), ge_iff_le, if_neg (not_le.mpr h2),
      h3, if_true]
    cases debug.getD JSARAsyncLoader.defaultConfig.debug <;>
      simp [silent, emitIf, Event.isLog]
  · rw [he]
    simp only [hT, hM, hI] at h1 h2 ⊢
    simp only [JSARAsyncLoader.waitForMultipleGlobalsCheck, JSARAsyncLoader.assignConfig,
      Option.getD_some, gt_iff_lt, if_neg (not_lt.mpr h1), ge_iff_le, if_neg (not_le.mpr h2),
      h3]
    cases (debug.getD JSARAsyncLoader.defaultConfig.debug && (retries + 1) % 10 == 0) <;>
      simp [silent, emitIf, Event.isLog]

/-- The two multi-name pollers given the same view of the host.  For every
configuration that supplies positive maxRetries, retryInterval and timeout,
every clock and every evolution of a host in which the identifiers window and
global, as each file reads them, are the same two objects, the two pollers end
in the same state and perform, tick by tick, the same sequence of events other
than console output. -/
theorem pollers_agree_on_one_view (globalNames : List String) (m i t : Int)
    (debug : Option Bool) (onT onE : Bool) (startTime : Int) (clock : Nat → Int)
    (hosts : Nat → Host) (fuel : Nat)
    (hm : 0 < m) (hi : 0 < i) (ht : 0 < t)
    (hobj : ∀ k, ∃ w g, (hosts k).window = some w ∧ (hosts k).global = some g) :
    (JSARAsyncLoader.waitForMultipleGlobals globalNames ⟨some m, some i, some t, debug, onT, onE⟩
        startTime clock hosts fuel).final
      = (WebglAsyncLoader.waitForMultipleGlobals globalNames
          ⟨some m, some i, some t, debug, onT, onE⟩ startTime clock hosts fuel).final ∧
    (JSARAsyncLoader.waitForMultipleGlobals globalNames ⟨some m, some i, some t, debug, onT, onE⟩
        startTime clock hosts fuel).ticks.map silent
      = (WebglAsyncLoader.waitForMultipleGlobals globalNames
          ⟨some m, some i, some t, debug, onT, onE⟩ startTime clock hosts fuel).ticks.map silent ∧
    ∀ e : Event, e.isLog = false →
      (JSARAsyncLoader.waitForMultipleGlobals globalNames
          ⟨some m, some i, some t, debug, onT, onE⟩ startTime clock hosts fuel).perTick e
        = (WebglAsyncLoader.waitForMultipleGlobals globalNames
            ⟨some m, some i, some t, debug, onT, onE⟩ startTime clock hosts fuel).perTick e := by
  have key := drive_silent_congr
    (fun k retries => JSARAsyncLoader.waitForMultipleGlobalsCheck
      (JSARAsyncLoader.assignConfig ⟨some m, some i, some t, debug, onT, onE⟩)
      ⟨some m, some i, some t, debug, onT, onE⟩ globalNames startTime (clock k) (hosts k) retries)
    (fun k retries => WebglAsyncLoader.waitForMultipleGlobalsCheck
      ⟨some m, some i, some t, debug, onT, onE⟩ globalNames startTime (clock k) (hosts k) retries)
    (fun k r => multi_tick_agreement globalNames m i t debug onT onE startTime (clock k)
      (hosts k) r hm hi ht (hobj k)) fuel 0 0
  refine ⟨key.1, key.2, ?_⟩
  intro e he
  have h2 := congrArg (List.map (fun evs => evs.count e)) key.2
  simp only [List.map_map, Function.comp_def, silent_count _ e he] at h2
  exact h2

theorem WebglAsyncLoader.withStartLine_tally (ticks : List (List Event)) :
    (WebglAsyncLoader.withStartLine ticks).map tally = ticks.map tally := by
  cases ticks with
  | nil => rfl
  | cons t ts => simp [WebglAsyncLoader.withStartLine, tally]

/-- The budgets of waitForWebGLTestGlobals on a host where the lookups do not
raise.  Called without options it polls with maxRetries 300, retryInterval 50
and timeout 15000.  Under ideal timers, when the existence check finds a
binding missing at every tick, ticks 0..299 each
perform one existence check and retry; tick 300 runs at elapsed 15000 ms with
300 retries made, which is not beyond the time budget (the comparison is
strict) and exhausts the retry budget: the wait ends there with the
max-retries report and onError, after exactly 300 existence checks, and
neither onTimeout nor the success callback is ever invoked. -/
theorem WebglAsyncLoader.default_budgets_end_on_tick_300 (startTime : Int)
    (hosts : Nat → Host) (fuel : Nat) (hfuel : 300 < fuel)
    (hnever : ∀ k, WebglAsyncLoader.every (WebglAsyncLoader.nameAvailable (hosts k))
      WebglAsyncLoader.webglGlobals = some false) :
    WebglAsyncLoader.enhancedOptions Options.empty
      = ⟨some 300, some 50, some 15000, none, true, true⟩ ∧
    (WebglAsyncLoader.waitForWebGLTestGlobals Options.empty startTime (idealClock startTime 50)
      hosts fuel).final = Final.finished Outcome.exhausted ∧
    (WebglAsyncLoader.waitForWebGLTestGlobals Options.empty startTime (idealClock startTime 50)
      hosts fuel).perTick Event.probe = List.replicate 300 1 ++ [0] ∧
    (WebglAsyncLoader.waitForWebGLTestGlobals Options.empty startTime (idealClock startTime 50)
      hosts fuel).probes = 300 ∧
    (WebglAsyncLoader.waitForWebGLTestGlobals Options.empty startTime (idealClock startTime 50)
      hosts fuel).perTick Event.onError = List.replicate 300 0 ++ [1] ∧
    (WebglAsyncLoader.waitForWebGLTestGlobals Options.empty startTime (idealClock startTime 50)
      hosts fuel).count Event.onTimeout = 0 ∧
    (WebglAsyncLoader.waitForWebGLTestGlobals Options.empty startTime (idealClock startTime 50)
      hosts fuel).count Event.callback = 0 ∧
    idealClock startTime 50 300 - startTime = 15000 ∧
    WebglAsyncLoader.waitForMultipleGlobalsCheck (WebglAsyncLoader.enhancedOptions Options.empty)
        WebglAsyncLoader.webglGlobals startTime (idealClock startTime 50 300) (hosts 300) 300
      = ⟨[Event.consoleError (LogLine.maxRetriesReached WebglAsyncLoader.webglGlobals),
          Event.onError], Next.stop Outcome.exhausted⟩ := by
  have hobj : ∀ k, ∃ w g, (hosts k).window = some w ∧ (hosts k).global = some g :=
    fun k => WebglAsyncLoader.objects_of_every_false (hosts k) _ (hnever k)
  have hopt : WebglAsyncLoader.enhancedOptions Options.empty
      = ⟨some 300, some 50, some 15000, none, true, true⟩ := by decide
  have hM : WebglAsyncLoader.orDefault
      (WebglAsyncLoader.enhancedOptions Options.empty).maxRetries 100 = ((300 : Nat) : Int) := by
    decide
  have hT : WebglAsyncLoader.orDefault
      (WebglAsyncLoader.enhancedOptions Options.empty).timeout 5000 = 15000 := by decide
  have P := WebglAsyncLoader.multiCheck_pollerTick
    (WebglAsyncLoader.enhancedOptions Options.empty) WebglAsyncLoader.webglGlobals startTime
    (idealClock startTime 50) hosts hobj
  have hav : ∀ k, WebglAsyncLoader.webglGlobals.all (JSARAsyncLoader.globalExists (hosts k))
      = false := by
    intro k
    obtain ⟨w, g, hw, hg⟩ := hobj k
    have h := (WebglAsyncLoader.lookups_of_objects (hosts k) w g hw hg
      WebglAsyncLoader.webglGlobals).1
    rw [hnever k] at h
    exact (Option.some.inj h).symm
  obtain ⟨f, hf⟩ : ∃ f, fuel = 300 + (f + 1) := ⟨fuel - 301, by omega⟩
  subst hf
  obtain ⟨hfin, htal⟩ := drive_exhausted_at P f 300 hM
    (by
      intro i hi
      rw [hT]
      simp only [idealClock]
      omega)
    (fun i _ => hav i)
  have hfin2 : (WebglAsyncLoader.waitForWebGLTestGlobals Options.empty startTime
      (idealClock startTime 50) hosts (300 + (f + 1))).final
      = Final.finished Outcome.exhausted := hfin
  have htal2 : (WebglAsyncLoader.waitForWebGLTestGlobals Options.empty startTime
      (idealClock startTime 50) hosts (300 + (f + 1))).ticks.map tally
      = List.replicate 300 (1, 0, 0, 0) ++ [(0, 0, 0, 1)] := by
    have h : (WebglAsyncLoader.enhancedOptions Options.empty).onError.toNat = 1 := by decide
    rw [h] at htal
    rw [← htal]
    exact WebglAsyncLoader.withStartLine_tally _
  have hlast := (P.exhausted 300 300
    (by rw [hT]; simp only [idealClock]; omega) (by rw [hM])).1
  refine ⟨hopt, hfin2, ?_, ?_, ?_, ?_, ?_, ?_, ?_⟩
  · rw [Run.perTick_probe, htal2]
    simp only [List.map_append, List.map_replicate, List.map_cons, List.map_nil]
  · rw [Run.probes, Run.count_eq_sum, Run.perTick_probe, htal2]
    simp only [List.map_append, List.map_replicate, List.map_cons, List.map_nil,
      List.sum_append, List.sum_replicate, List.sum_cons, List.sum_nil, smul_eq_mul,
      Nat.mul_one, Nat.mul_zero, Nat.add_zero]
  · rw [Run.perTick_onError, htal2]
    simp only [List.map_append, List.map_replicate, List.map_cons, List.map_nil]
  · rw [Run.count_eq_sum, Run.perTick_onTimeout, htal2]
    simp only [List.map_append, List.map_replicate, List.map_cons, List.map_nil,
      List.sum_append, List.sum_replicate, List.sum_cons, List.sum_nil, smul_eq_mul,
      Nat.mul_one, Nat.mul_zero, Nat.add_zero]
  · rw [Run.count_eq_sum, Run.perTick_callback, htal2]
    simp only [List.map_append, List.map_replicate, List.map_cons, List.map_nil,
      List.sum_append, List.sum_replicate, List.sum_cons, List.sum_nil, smul_eq_mul,
      Nat.mul_one, Nat.mul_zero, Nat.add_zero]
  · simp only [idealClock]; omega
  · rcases WebglAsyncLoader.multiCheck_branches
      (WebglAsyncLoader.enhancedOptions Options.empty) WebglAsyncLoader.webglGlobals startTime
      (idealClock startTime 50 300) (hosts 300) 300 (hobj 300).choose (hobj 300).choose_spec.choose
      (hobj 300).choose_spec.choose_spec.1 (hobj 300).choose_spec.choose_spec.2
      with ⟨h1, -⟩ | ⟨-, -, he⟩ | ⟨-, h2, -, -⟩ | ⟨-, h2, -, -⟩
    · rw [hT] at h1
      simp only [idealClock] at h1
      omega
    · rw [he]
      simp [hopt, emitIf]
    · rw [hM] at h2
      exact absurd h2 (by simp)
    · rw [hM] at h2
      exact absurd h2 (by simp)

theorem WebglAsyncLoader.default_budgets_end_on_tick_300_witness :
    300 < 301 ∧
    (WebglAsyncLoader.waitForWebGLTestGlobals Options.empty 0 (idealClock 0 50)
      (fun _ => Example.dualHost [] []) 301).probes = 300 :=
  ⟨by decide,
    (WebglAsyncLoader.default_budgets_end_on_tick_300 0 (fun _ => Example.dualHost [] []) 301
      (by decide)
      (fun _ => (by decide : WebglAsyncLoader.every
        (WebglAsyncLoader.nameAvailable (Example.dualHost [] []))
        WebglAsyncLoader.webglGlobals = some false))).2.2.2.1⟩

/-! ## The test list -/

theorem TestRunner.dashed_not_kept (line : List Char)
    (h : TestRunner.startsWith line "--".toList = true) : TestRunner.keepsLine line = false := by
  unfold TestRunner.keepsLine
  rw [h]
  simp

theorem TestRunner.stripMinVersion_of_not_dashed (line : List Char)
    (h : TestRunner.startsWith line "--".toList = false) :
    TestRunner.stripMinVersion line = line := by
  have h1 : "--min-version ".toList = '-' :: '-' :: "min-version ".toList := rfl
  have h2 : "--".toList = ['-', '-'] := rfl
  rw [h2] at h
  unfold TestRunner.stripMinVersion
  rw [h1]
  cases line with
  | nil => simp [TestRunner.matchLiteral]
  | cons a l =>
    cases l with
    | nil =>
      by_cases ha : '-' = a
      · simp [TestRunner.matchLiteral, ha]
      · simp [TestRunner.matchLiteral, ha]
    | cons b l2 =>
      by_cases ha : '-' = a
      · by_cases hb : '-' = b
        · subst ha
          subst hb
          simp [TestRunner.startsWith, List.isPrefixOf] at h
        · simp [TestRunner.matchLiteral, ha, hb]
      · simp [TestRunner.matchLiteral, ha]

theorem TestRunner.stripMinVersion_of_kept (line : List Char)
    (h : TestRunner.keepsLine line = true) : TestRunner.stripMinVersion line = line := by
  apply TestRunner.stripMinVersion_of_not_dashed
  simp only [TestRunner.keepsLine, Bool.and_eq_true, Bool.not_eq_true'] at h
  exact h.2

theorem TestRunner.split_of_line (l : List Char) (h : Char.ofNat 10 ∉ l) :
    TestRunner.split l = [l] := by
  induction l with
  | nil => rfl
  | cons c cs ih =>
    have hc : c ≠ Char.ofNat 10 := fun hc => h (by rw [hc]; exact List.mem_cons_self _ _)
    have hcs : Char.ofNat 10 ∉ cs := fun hm => h (List.mem_cons_of_mem _ hm)
    rw [TestRunner.split, if_neg hc, ih hcs]

theorem TestRunner.split_line_feed (l t : List Char) (h : Char.ofNat 10 ∉ l) :
    TestRunner.split (l ++ Char.ofNat 10 :: t) = l :: TestRunner.split t := by
  induction l with
  | nil => simp [TestRunner.split]
  | cons c cs ih =>
    have hc : c ≠ Char.ofNat 10 := fun hc => h (by rw [hc]; exact List.mem_cons_self _ _)
    have hcs : Char.ofNat 10 ∉ cs := fun hm => h (List.mem_cons_of_mem _ hm)
    rw [List.cons_append, TestRunner.split, if_neg hc, ih hcs]

/-- The call `split` gives back the lines of a text: it is the inverse of
putting line feeds between lines. -/
theorem TestRunner.split_joinLines :
    ∀ (lines : List (List Char)), lines ≠ [] → (∀ l ∈ lines, Char.ofNat 10 ∉ l) →
      TestRunner.split (TestRunner.joinLines lines) = lines := by
  intro lines
  induction lines with
  | nil => intro h _; exact absurd rfl h
  | cons l rest ih =>
    intro _ hl
    cases rest with
    | nil => exact TestRunner.split_of_line l (hl l (List.mem_cons_self _ _))
    | cons m rest2 =>
      rw [TestRunner.joinLines, TestRunner.split_line_feed _ _ (hl l (List.mem_cons_self _ _)),
        ih (by simp) (fun x hx => hl x (List.mem_cons_of_mem _ hx))]

/-- C29: in getTestList, for a list file whose text consists of the given
lines (none holding a line feed, one line feed between each two), every line
that begins with "--", the lines of the form
"--min-version <version> <name>.html" among them, is removed by the first
filter; the strip of the "--min-version" prefix leaves every line that passed
the first filter unchanged; the result is exactly the list of the trimmed
forms of the non-blank lines not beginning with "--" whose trimmed form ends
with ".html", in input order, so that every entry of the result is the
trimmed form of a line of the file that does not begin with "--". -/
theorem TestRunner.getTestList_drops_dashed_lines (content : List Char)
    (lines : List (List Char)) (hne : lines ≠ [])
    (hlines : ∀ l ∈ lines, Char.ofNat 10 ∉ l)
    (hcontent : TestRunner.joinLines lines = content) :
    TestRunner.split content = lines ∧
    (∀ line, TestRunner.startsWith line "--".toList = true →
      TestRunner.keepsLine line = false ∧
      line ∉ (TestRunner.split content).filter TestRunner.keepsLine) ∧
    (∀ (version name : List Char),
      TestRunner.keepsLine
        ("--min-version ".toList ++ version ++ [' '] ++ name ++ ".html".toList) = false) ∧
    (∀ line, TestRunner.keepsLine line = true → TestRunner.stripMinVersion line = line) ∧
    TestRunner.getTestList content
      = (lines.filter (fun line =>
          decide (FixAsyncScripts.trim line ≠ []) && !TestRunner.startsWith line "--".toList &&
            TestRunner.endsWith (FixAsyncScripts.trim line) ".html".toList)).map
          FixAsyncScripts.trim ∧
    TestRunner.getTestList content = TestRunner.expectedTestList lines ∧
    (∀ entry ∈ TestRunner.getTestList content,
      ∃ line ∈ lines,
        TestRunner.startsWith line "--".toList = false ∧ entry = FixAsyncScripts.trim line) := by
  have hsplit : TestRunner.split content = lines := by
    rw [← hcontent]
    exact TestRunner.split_joinLines lines hne hlines
  have hexp : TestRunner.getTestList content = TestRunner.expectedTestList lines := by
    unfold TestRunner.getTestList TestRunner.expectedTestList
    rw [hsplit]
    have hmap : (lines.filter TestRunner.keepsLine).map
        (fun line => FixAsyncScripts.trim (TestRunner.stripMinVersion line))
        = (lines.filter TestRunner.keepsLine).map FixAsyncScripts.trim := by
      apply List.map_congr_left
      intro line hl
      rw [TestRunner.stripMinVersion_of_kept line (List.mem_filter.mp hl).2]
    rw [hmap, List.filter_map, List.filter_filter]
    congr 1
    apply List.filter_congr
    intro line _
    simp only [TestRunner.keepsLine, Function.comp]
    cases FixAsyncScripts.trim line with
    | nil => simp
    | cons c cs =>
      cases TestRunner.startsWith line "--".toList <;> simp
  refine ⟨hsplit, ?_, ?_, TestRunner.stripMinVersion_of_kept, hexp, hexp, ?_⟩
  · intro line h
    have hk := TestRunner.dashed_not_kept line h
    refine ⟨hk, ?_⟩
    intro hm
    rw [(List.mem_filter.mp hm).2] at hk
    exact absurd hk (by simp)
  · intro version name
    apply TestRunner.dashed_not_kept
    have h1 : "--min-version ".toList = '-' :: '-' :: "min-version ".toList := rfl
    have h2 : "--".toList = ['-', '-'] := rfl
    rw [h1, h2]
    simp [TestRunner.startsWith, List.isPrefixOf]
  · intro entry he
    rw [hexp] at he
    unfold TestRunner.expectedTestList at he
    obtain ⟨line, hl, rfl⟩ := List.mem_map.mp he
    obtain ⟨hmem, hp⟩ := List.mem_filter.mp hl
    refine ⟨line, hmem, ?_, rfl⟩
    simp only [Bool.and_eq_true, Bool.not_eq_true'] at hp
    exact hp.1.2

set_option maxRecDepth 100000 in
theorem TestRunner.getTestList_drops_dashed_lines_witness :
    TestRunner.getTestList
        "a.html\n--min-version 2.0.1 b.html\n\n  c.html \nreadme.txt".toList
      = TestRunner.expectedTestList
          ["a.html".toList, "--min-version 2.0.1 b.html".toList, [], "  c.html ".toList,
            "readme.txt".toList] ∧
    TestRunner.expectedTestList
        ["a.html".toList, "--min-version 2.0.1 b.html".toList, [], "  c.html ".toList,
          "readme.txt".toList]
      = ["a.html".toList, "c.html".toList] :=
  ⟨(TestRunner.getTestList_drops_dashed_lines
      "a.html\n--min-version 2.0.1 b.html\n\n  c.html \nreadme.txt".toList
      ["a.html".toList, "--min-version 2.0.1 b.html".toList, [], "  c.html ".toList,
        "readme.txt".toList]
      (by decide) (by decide) (by decide)).2.2.2.2.2.1,
    by decide⟩

set_option maxRecDepth 100000 in
/-- A list file with a plain entry, a versioned entry, a blank line, an
indented entry and a line that is no page. -/
theorem TestRunner.getTestList_example :
    TestRunner.getTestList
      "a.html\n--min-version 2.0.1 b.html\n\n  c.html \nreadme.txt".toList
      = ["a.html".toList, "c.html".toList] := by
  decide

/-! ## The matrix inverse -/

set_option maxHeartbeats 1000000 in
theorem m4.multiply_inverse_right {K : Type} [Field K] (m : Mat4 K)
    (hdet : m4.denominator m ≠ 0) : m4.multiply m (m4.inverse m) = m4.identity := by
  generalize hD : m4.denominator m = D at hdet
  have hd : 1 / D * D = 1 := by field_simp
  simp only [m4.denominator] at hD
  ext
  all_goals
    simp only [m4.multiply, m4.inverse, m4.identity]
    rw [hD]
    generalize 1 / D = d at hd
    rw [← hD] at hd
    first
      | linear_combination hd
      | linear_combination (0 : K) * hd

set_option maxHeartbeats 1000000 in
theorem m4.multiply_inverse_left {K : Type} [Field K] (m : Mat4 K)
    (hdet : m4.denominator m ≠ 0) : m4.multiply (m4.inverse m) m = m4.identity := by
  generalize hD : m4.denominator m = D at hdet
  have hd : 1 / D * D = 1 := by field_simp
  simp only [m4.denominator] at hD
  ext
  all_goals
    simp only [m4.multiply, m4.inverse, m4.identity]
    rw [hD]
    generalize 1 / D = d at hd
    rw [← hD] at hd
    first
      | linear_combination hd
      | linear_combination (0 : K) * hd

/-- C30: over exact arithmetic (any field, the rationals and the reals among
them) the inlined m4.inverse is a true matrix inverse with respect to the
inlined m4.multiply: for every 16-element matrix m whose denominator
m00*t0 + m10*t1 + m20*t2 + m30*t3 is not zero, m4.multiply(m, m4.inverse(m))
and m4.multiply(m4.inverse(m), m) both equal the 4x4 identity matrix. -/
theorem m4.inverse_is_matrix_inverse {K : Type} [Field K] (m : Mat4 K)
    (hdet : m4.denominator m ≠ 0) :
    m4.multiply m (m4.inverse m) = m4.identity ∧
    m4.multiply (m4.inverse m) m = m4.identity :=
  ⟨m4.multiply_inverse_right m hdet, m4.multiply_inverse_left m hdet⟩

theorem m4.inverse_is_matrix_inverse_witness :
    m4.denominator Example.triangular ≠ 0 ∧
    m4.multiply Example.triangular (m4.inverse Example.triangular) = m4.identity ∧
    m4.multiply (m4.inverse Example.triangular) Example.triangular = m4.identity :=
  ⟨by norm_num [m4.denominator, Example.triangular],
    m4.inverse_is_matrix_inverse Example.triangular
      (by norm_num [m4.denominator, Example.triangular])⟩

theorem m4.inverse_example :
    m4.inverse Example.triangular
      = ⟨1/2, 0, 0, 0, -1/2, 1, 0, 0, 3/2, -3, 1, 0, -13/4, 21/4, -7/4, 1/4⟩ := by
  ext <;> norm_num [m4.inverse, Example.triangular]

/-! ## The fixer of fix-webgl-async.js -/

theorem FixWebglAsync.matchScriptAt_start (s full body : List Char)
    (h : FixWebglAsync.matchScriptAt s = some (full, body)) : ∃ post, s = full ++ post := by
  unfold FixWebglAsync.matchScriptAt at h
  split at h
  · split at h
    · simp only [Option.some.injEq, Prod.mk.injEq] at h
      obtain ⟨rfl, -⟩ := h
      exact ⟨_, (List.take_append_drop _ _).symm⟩
    · exact absurd h (by simp)
  · exact absurd h (by simp)

/-- Every match found by the scan lies in the text at its index. -/
theorem FixWebglAsync.scanScripts_at :
    ∀ (text : List Char) (i skip : Nat) (m : FixAsyncScripts.ScriptMatch),
      m ∈ FixWebglAsync.scanScripts text i skip →
      ∃ pre post, text = pre ++ m.fullMatch ++ post ∧ m.index = i + pre.length := by
  intro text
  induction text with
  | nil => intro i skip m h; simp [FixWebglAsync.scanScripts] at h
  | cons c cs ih =>
    intro i skip m h
    cases skip with
    | succ k =>
      simp only [FixWebglAsync.scanScripts] at h
      obtain ⟨pre, post, h1, h2⟩ := ih (i + 1) k m h
      exact ⟨c :: pre, post, by rw [h1]; rfl, by rw [h2, List.length_cons]; omega⟩
    | zero =>
      simp only [FixWebglAsync.scanScripts] at h
      cases hm : FixWebglAsync.matchScriptAt (c :: cs) with
      | none =>
        rw [hm] at h
        obtain ⟨pre, post, h1, h2⟩ := ih (i + 1) 0 m h
        exact ⟨c :: pre, post, by rw [h1]; rfl, by rw [h2, List.length_cons]; omega⟩
      | some fb =>
        obtain ⟨full, body⟩ := fb
        rw [hm] at h
        rcases List.mem_cons.mp h with h0 | h0
        · obtain ⟨post, hp⟩ := FixWebglAsync.matchScriptAt_start (c :: cs) full body hm
          subst h0
          exact ⟨[], post, by simpa using hp, by simp⟩
        · obtain ⟨pre, post, h1, h2⟩ := ih (i + 1) (full.length - 1) m h0
          exact ⟨c :: pre, post, by rw [h1]; rfl, by rw [h2, List.length_cons]; omega⟩

theorem FixWebglAsync.wrapLoop_pass (content : List Char) (m : FixAsyncScripts.ScriptMatch)
    (rest : List FixAsyncScripts.ScriptMatch) (h : FixWebglAsync.qualifies m = false) :
    FixWebglAsync.wrapLoop content (m :: rest) = FixWebglAsync.wrapLoop content rest := by
  unfold FixWebglAsync.qualifies at h
  rw [FixWebglAsync.wrapLoop]
  cases h1 : (FixAsyncScripts.trim m.body).isEmpty
  · cases h2 : FixAsyncScripts.includes (FixAsyncScripts.trim m.body) "JSARAsyncLoader".toList
    · rw [h1, h2] at h
      simp only [Bool.not_false, Bool.true_and] at h
      simp [h]
    · simp
  · simp

theorem FixWebglAsync.wrapLoop_hit (content : List Char) (m : FixAsyncScripts.ScriptMatch)
    (rest : List FixAsyncScripts.ScriptMatch) (h : FixWebglAsync.qualifies m = true) :
    FixWebglAsync.wrapLoop content (m :: rest)
      = content.take m.index ++ FixWebglAsync.wrappedScript (FixAsyncScripts.trim m.body)
          ++ content.drop (m.index + m.fullMatch.length) := by
  unfold FixWebglAsync.qualifies at h
  simp only [Bool.and_eq_true, Bool.not_eq_true'] at h
  obtain ⟨⟨h1, h2⟩, h3⟩ := h
  rw [FixWebglAsync.wrapLoop, h2, h3]
  simp [h1]

theorem FixWebglAsync.wrapLoop_all_pass (content : List Char) :
    ∀ (l rest : List FixAsyncScripts.ScriptMatch),
      (∀ x ∈ l, FixWebglAsync.qualifies x = false) →
      FixWebglAsync.wrapLoop content (l ++ rest) = FixWebglAsync.wrapLoop content rest := by
  intro l
  induction l with
  | nil => intro rest _; rfl
  | cons a l ih =>
    intro rest h
    rw [List.cons_append, FixWebglAsync.wrapLoop_pass content a _ (h a (List.mem_cons_self a l))]
    exact ih rest (fun x hx => h x (List.mem_cons_of_mem a hx))

theorem FixWebglAsync.wrapLoop_none_qualifies (content : List Char)
    (l : List FixAsyncScripts.ScriptMatch) (h : ∀ x ∈ l, FixWebglAsync.qualifies x = false) :
    FixWebglAsync.wrapLoop content l = content := by
  have h1 := FixWebglAsync.wrapLoop_all_pass content l [] h
  rw [List.append_nil] at h1
  rw [h1]
  rfl

/-- Content that `needsFix` rejects is skipped, and content without a
qualifying script only receives the loader tag. -/
theorem FixWebglAsync.fixHtmlFile_without_qualifying_block (relativePath content : List Char) :
    (FixWebglAsync.needsFix content = false →
      FixWebglAsync.fixHtmlFile relativePath content = none) ∧
    (FixWebglAsync.needsFix content = true →
      (∀ x ∈ FixWebglAsync.scanScripts (FixWebglAsync.insertLoader relativePath content) 0 0,
        FixWebglAsync.qualifies x = false) →
      FixWebglAsync.fixHtmlFile relativePath content
        = some (FixWebglAsync.insertLoader relativePath content)) := by
  constructor
  · intro h
    simp [FixWebglAsync.fixHtmlFile, h]
  · intro h hall
    simp only [FixWebglAsync.fixHtmlFile, h, Bool.not_true, Bool.false_eq_true, if_false]
    rw [FixWebglAsync.wrapLoop_none_qualifies _ _
      (fun x hx => hall x (List.mem_reverse.mp hx))]

set_option maxRecDepth 100000 in
/-- C21 as stated fails: in a page with two bare script blocks that both
qualify as WebGL test code, the first block in document order is left as it
is and the second, the last one, is replaced by the wrapper. -/
theorem FixWebglAsync.first_qualifying_block_left_alone :
    FixWebglAsync.needsFix Example.twoTestScripts = true ∧
    FixWebglAsync.scanScripts
        (FixWebglAsync.insertLoader "jsar-async-script-loader.js".toList Example.twoTestScripts)
        0 0
      = [⟨28, "<script>debug(1);</script>".toList, "debug(1);".toList⟩,
         ⟨54, "<script>debug(2);</script>".toList, "debug(2);".toList⟩] ∧
    FixWebglAsync.qualifies ⟨28, "<script>debug(1);</script>".toList, "debug(1);".toList⟩
      = true ∧
    FixWebglAsync.qualifies ⟨54, "<script>debug(2);</script>".toList, "debug(2);".toList⟩
      = true ∧
    FixWebglAsync.fixHtmlFile "jsar-async-script-loader.js".toList Example.twoTestScripts
      = some ("<script src=\"a.js\"></script><script>debug(1);</script>".toList
          ++ FixWebglAsync.wrappedScript "debug(2);".toList) := by
  decide

/-- C21 (amended): fixHtmlFile (fix-webgl-async.js) wraps one script only, the
last qualifying one.  For every content that needsFix accepts, when the scan
of the content (taken after the loader tag was put after the head tag) finds
bare script blocks of which at least one has a body that qualifies as WebGL
test code, exactly one block is replaced by the wrapper and it is the last
qualifying block in document order; the text before it and the text after it,
all other blocks included, are written back unchanged. -/
theorem FixWebglAsync.wraps_last_qualifying_block
    (relativePath content : List Char)
    (before after : List FixAsyncScripts.ScriptMatch) (m : FixAsyncScripts.ScriptMatch)
    (hfix : FixWebglAsync.needsFix content = true)
    (hscan : FixWebglAsync.scanScripts (FixWebglAsync.insertLoader relativePath content) 0 0
      = before ++ m :: after)
    (hm : FixWebglAsync.qualifies m = true)
    (hafter : ∀ x ∈ after, FixWebglAsync.qualifies x = false) :
    ∃ pre post,
      FixWebglAsync.insertLoader relativePath content = pre ++ m.fullMatch ++ post ∧
      pre.length = m.index ∧
      FixWebglAsync.fixHtmlFile relativePath content
        = some (pre ++ FixWebglAsync.wrappedScript (FixAsyncScripts.trim m.body) ++ post) := by
  have hmem : m ∈ FixWebglAsync.scanScripts
      (FixWebglAsync.insertLoader relativePath content) 0 0 := by
    rw [hscan]
    simp
  obtain ⟨pre, post, h1, h2⟩ := FixWebglAsync.scanScripts_at _ 0 0 m hmem
  have hi : m.index = pre.length := by omega
  refine ⟨pre, post, h1, hi.symm, ?_⟩
  simp only [FixWebglAsync.fixHtmlFile, hfix, Bool.not_true, Bool.false_eq_true, if_false]
  rw [hscan, List.reverse_append, List.reverse_cons, List.append_assoc,
    FixWebglAsync.wrapLoop_all_pass _ after.reverse _
      (fun x hx => hafter x (List.mem_reverse.mp hx)),
    List.singleton_append, FixWebglAsync.wrapLoop_hit _ m _ hm, h1, hi]
  have ht : List.take pre.length (pre ++ m.fullMatch ++ post) = pre := by
    rw [List.append_assoc, List.take_left]
  have hd : List.drop (pre.length + m.fullMatch.length) (pre ++ m.fullMatch ++ post) = post := by
    rw [← List.length_append, List.drop_left]
  rw [ht, hd]

set_option maxRecDepth 100000 in
theorem FixWebglAsync.wraps_last_qualifying_block_witness :
    ∃ pre post,
      FixWebglAsync.insertLoader "jsar-async-script-loader.js".toList Example.twoTestScripts
        = pre ++ "<script>debug(2);</script>".toList ++ post ∧
      pre.length = 54 ∧
      FixWebglAsync.fixHtmlFile "jsar-async-script-loader.js".toList Example.twoTestScripts
        = some (pre ++ FixWebglAsync.wrappedScript (FixAsyncScripts.trim "debug(2);".toList)
            ++ post) :=
  FixWebglAsync.wraps_last_qualifying_block "jsar-async-script-loader.js".toList
    Example.twoTestScripts
    [⟨28, "<script>debug(1);</script>".toList, "debug(1);".toList⟩] []
    ⟨54, "<script>debug(2);</script>".toList, "debug(2);".toList⟩
    (by decide) (by decide) (by decide) (by decide)

/-! ## The defaults of waitForWebGLTestGlobals on the hosts of the file -/

set_option maxRecDepth 100000 in
/-- C25 does not hold of the code on the hosts the file is written for.  In a
browser (window an object without the test bindings, `global` not declared)
and in Node (`window` not declared, `global` an object without the bindings)
the bindings never appear, yet the unguarded lookup in the check of
waitForMultipleGlobals raises on tick 0: waitForWebGLTestGlobals with its
defaults and ideal timers performs one existence check, schedules no tick and
invokes neither onError nor onTimeout; neither budget is ever used up. -/
theorem WebglAsyncLoader.default_wait_raises_on_first_tick :
    WebglAsyncLoader.waitForWebGLTestGlobals Options.empty 0 (idealClock 0 50)
        (fun _ => Example.windowHost []) 301
      = ⟨[[Event.consoleLog (LogLine.text "🔄 Starting to wait for WebGL test globals..."),
            Event.probe]], Final.raised⟩ ∧
    (WebglAsyncLoader.waitForWebGLTestGlobals Options.empty 0 (idealClock 0 50)
        (fun _ => Example.windowHost []) 301).probes = 1 ∧
    (WebglAsyncLoader.waitForWebGLTestGlobals Options.empty 0 (idealClock 0 50)
        (fun _ => Example.windowHost []) 301).count Event.onError = 0 ∧
    WebglAsyncLoader.waitForWebGLTestGlobals Options.empty 0 (idealClock 0 50)
        (fun _ => Example.nodeHost []) 301
      = ⟨[[Event.consoleLog (LogLine.text "🔄 Starting to wait for WebGL test globals..."),
            Event.probe]], Final.raised⟩ ∧
    (WebglAsyncLoader.waitForWebGLTestGlobals Options.empty 0 (idealClock 0 50)
        (fun _ => Example.nodeHost []) 301).count Event.onError = 0 := by
  decide

/-! ## The two multi-name pollers and the identifier `global` -/

theorem JSARAsyncLoader.all_exist_in_moduleHost (host : Host) (w g : String → Bool)
    (hw : host.window = some w) (hg : host.global = some g) (names : List String)
    (hsub : ∀ name ∈ names, g name = true → w name = true) :
    names.all (JSARAsyncLoader.globalExists (JSARAsyncLoader.moduleHost host))
      = names.all (JSARAsyncLoader.globalExists host) := by
  induction names with
  | nil => rfl
  | cons n ns ih =>
    have hn : JSARAsyncLoader.globalExists (JSARAsyncLoader.moduleHost host) n
        = JSARAsyncLoader.globalExists host n := by
      have h := hsub n (List.mem_cons_self _ _)
      simp only [JSARAsyncLoader.globalExists, JSARAsyncLoader.moduleHost, definedIn, hw, hg]
      cases hwn : w n
      · cases hgn : g n
        · rfl
        · rw [h hgn] at hwn
          exact absurd hwn (by simp)
      · simp
    rw [List.all_cons, List.all_cons, hn, ih (fun x hx => hsub x (List.mem_cons_of_mem _ hx))]

/-- One tick of the two multi-name pollers under the same fully specified
configuration, each on its own view of the host, when the two views agree on
whether all requested names exist. -/
theorem multi_tick_agreement_views (globalNames : List String) (m i t : Int)
    (debug : Option Bool) (onT onE : Bool) (startTime now : Int) (hostJ hostW : Host)
    (retries : Nat) (hm : 0 < m) (hi : 0 < i) (ht : 0 < t)
    (hobj : ∃ w g, hostW.window = some w ∧ hostW.global = some g)
    (hall : globalNames.all (JSARAsyncLoader.globalExists hostJ)
      = globalNames.all (JSARAsyncLoader.globalExists hostW)) :
    (JSARAsyncLoader.waitForMultipleGlobalsCheck
        (JSARAsyncLoader.assignConfig ⟨some m, some i, some t, debug, onT, onE⟩)
        ⟨some m, some i, some t, debug, onT, onE⟩ globalNames startTime now hostJ retries).next
      = (WebglAsyncLoader.waitForMultipleGlobalsCheck ⟨some m, some i, some t, debug, onT, onE⟩
          globalNames startTime now hostW retries).next ∧
    silent (JSARAsyncLoader.waitForMultipleGlobalsCheck
        (JSARAsyncLoader.assignConfig ⟨some m, some i, some t, debug, onT, onE⟩)
        ⟨some m, some i, some t, debug, onT, onE⟩ globalNames startTime now hostJ retries).events
      = silent (WebglAsyncLoader.waitForMultipleGlobalsCheck
          ⟨some m, some i, some t, debug, onT, onE⟩
          globalNames startTime now hostW retries).events := by
  obtain ⟨w, g, hw, hg⟩ := hobj
  have hM : WebglAsyncLoader.orDefault (some m) 100 = m := by
    simp only [WebglAsyncLoader.orDefault]; rw [if_neg (by omega)]
  have hI : WebglAsyncLoader.orDefault (some i) 10 = i := by
    simp only [WebglAsyncLoader.orDefault]; rw [if_neg (by omega)]
  have hT : WebglAsyncLoader.orDefault (some t) 5000 = t := by
    simp only [WebglAsyncLoader.orDefault]; rw [if_neg (by omega)]
  rcases WebglAsyncLoader.multiCheck_branches
      ⟨some m, some i, some t, debug, onT, onE⟩ globalNames startTime now hostW retries w g hw hg
    with ⟨h1, he⟩ | ⟨h1, h2, he⟩ | ⟨h1, h2, h3, he⟩ | ⟨h1, h2, h3, he⟩
  · rw [he]
    simp only [hT] at h1
    simp only [JSARAsyncLoader.waitForMultipleGlobalsCheck, JSARAsyncLoader.assignConfig,
      Option.getD_some, gt_iff_lt, if_pos h1]
    cases debug.getD JSARAsyncLoader.defaultConfig.debug <;> cases onT <;>
      simp [silent, emitIf, Event.isLog]
  · rw [he]
    simp only [hT, hM] at h1 h2
    simp only [JSARAsyncLoader.waitForMultipleGlobalsCheck, JSARAsyncLoader.assignConfig,
      Option.getD_some, gt_iff_lt, if_neg (not_lt.mpr h1), ge_iff_le, if_pos h2]
    cases debug.getD JSARAsyncLoader.defaultConfig.debug <;> cases onE <;>
      simp [silent, emitIf, Event.isLog]
  · rw [he]
    simp only [hT, hM] at h1 h2
    simp only [JSARAsyncLoader.waitForMultipleGlobalsCheck, JSARAsyncLoader.assignConfig,
      Option.getD_some, gt_iff_lt, if_neg (not_lt.mpr h1), ge_iff_le, if_neg (not_le.mpr h2),
      hall, h3, if_true]
    cases debug.getD JSARAsyncLoader.defaultConfig.debug <;>
      simp [silent, emitIf, Event.isLog]
  · rw [he]
    simp only [hT, hM, hI] at h1 h2 ⊢
    simp only [JSARAsyncLoader.waitForMultipleGlobalsCheck, JSARAsyncLoader.assignConfig,
      Option.getD_some, gt_iff_lt, if_neg (not_lt.mpr h1), ge_iff_le, if_neg (not_le.mpr h2),
      hall, h3]
    cases (debug.getD JSARAsyncLoader.defaultConfig.debug && (retries + 1) % 10 == 0) <;>
      simp [silent, emitIf, Event.isLog]

set_option maxRecDepth 100000 in
/-- C24 as stated fails.  In a host where window and global are two objects
and only global holds the requested name, waitForMultipleGlobals of
webgl-async-loader.js finds the name on tick 0 and invokes the callback, while
JSARAsyncLoader.waitForMultipleGlobals, for which `global` is the window
object, never finds it: with maxRetries 3 it retries three times, invokes
onError and never the callback. -/
theorem only_the_webgl_poller_reads_the_host_global :
    (WebglAsyncLoader.waitForMultipleGlobals ["A"] ⟨some 3, some 10, some 1000, some false,
        true, true⟩ 0 (idealClock 0 10) (fun _ => Example.dualHost [] ["A"]) 5).final
      = Final.finished Outcome.success ∧
    (WebglAsyncLoader.waitForMultipleGlobals ["A"] ⟨some 3, some 10, some 1000, some false,
        true, true⟩ 0 (idealClock 0 10) (fun _ => Example.dualHost [] ["A"]) 5).perTick
        Event.callback = [1] ∧
    (JSARAsyncLoader.waitForMultipleGlobals ["A"] ⟨some 3, some 10, some 1000, some false,
        true, true⟩ 0 (idealClock 0 10)
        (fun _ => JSARAsyncLoader.moduleHost (Example.dualHost [] ["A"])) 5).final
      = Final.finished Outcome.exhausted ∧
    (JSARAsyncLoader.waitForMultipleGlobals ["A"] ⟨some 3, some 10, some 1000, some false,
        true, true⟩ 0 (idealClock 0 10)
        (fun _ => JSARAsyncLoader.moduleHost (Example.dualHost [] ["A"])) 5).perTick
        Event.callback = [0, 0, 0, 0] ∧
    (JSARAsyncLoader.waitForMultipleGlobals ["A"] ⟨some 3, some 10, some 1000, some false,
        true, true⟩ 0 (idealClock 0 10)
        (fun _ => JSARAsyncLoader.moduleHost (Example.dualHost [] ["A"])) 5).perTick
        Event.onError = [0, 0, 0, 1] := by
  decide

/-- C24 (amended): the duplicated pollers differ in defaults, in console
output and in what `global` denotes (in jsar-async-script-loader.js it is the
parameter of the enclosing function, the window object whenever the host has
one).  For every fully specified config (maxRetries, retryInterval, timeout
all positive), every clock and every evolution of scopes in a host where both
window and global are defined objects and every requested name that global
holds is also held by window (as when global is the window object),
JSARAsyncLoader.waitForMultipleGlobals (jsar-async-script-loader.js) and
waitForMultipleGlobals (webgl-async-loader.js) end in the same state, invoke
the same callback on the same tick and schedule the same ticks: tick by tick
they perform the same events other than console output. -/
theorem duplicated_pollers_agree_where_window_holds_the_names
    (globalNames : List String) (m i t : Int)
    (debug : Option Bool) (onT onE : Bool) (startTime : Int) (clock : Nat → Int)
    (hosts : Nat → Host) (fuel : Nat)
    (hm : 0 < m) (hi : 0 < i) (ht : 0 < t)
    (hobj : ∀ k, ∃ w g, (hosts k).window = some w ∧ (hosts k).global = some g)
    (hsub : ∀ k w g, (hosts k).window = some w → (hosts k).global = some g →
      ∀ name ∈ globalNames, g name = true → w name = true) :
    (JSARAsyncLoader.waitForMultipleGlobals globalNames ⟨some m, some i, some t, debug, onT, onE⟩
        startTime clock (fun k => JSARAsyncLoader.moduleHost (hosts k)) fuel).final
      = (WebglAsyncLoader.waitForMultipleGlobals globalNames
          ⟨some m, some i, some t, debug, onT, onE⟩ startTime clock hosts fuel).final ∧
    (JSARAsyncLoader.waitForMultipleGlobals globalNames ⟨some m, some i, some t, debug, onT, onE⟩
        startTime clock (fun k => JSARAsyncLoader.moduleHost (hosts k)) fuel).ticks.map silent
      = (WebglAsyncLoader.waitForMultipleGlobals globalNames
          ⟨some m, some i, some t, debug, onT, onE⟩ startTime clock hosts fuel).ticks.map silent ∧
    ∀ e : Event, e.isLog = false →
      (JSARAsyncLoader.waitForMultipleGlobals globalNames
          ⟨some m, some i, some t, debug, onT, onE⟩ startTime clock
          (fun k => JSARAsyncLoader.moduleHost (hosts k)) fuel).perTick e
        = (WebglAsyncLoader.waitForMultipleGlobals globalNames
            ⟨some m, some i, some t, debug, onT, onE⟩ startTime clock hosts fuel).perTick e := by
  have key := drive_silent_congr
    (fun k retries => JSARAsyncLoader.waitForMultipleGlobalsCheck
      (JSARAsyncLoader.assignConfig ⟨some m, some i, some t, debug, onT, onE⟩)
      ⟨some m, some i, some t, debug, onT, onE⟩ globalNames startTime (clock k)
      (JSARAsyncLoader.moduleHost (hosts k)) retries)
    (fun k retries => WebglAsyncLoader.waitForMultipleGlobalsCheck
      ⟨some m, some i, some t, debug, onT, onE⟩ globalNames startTime (clock k) (hosts k) retries)
    (fun k r => by
      obtain ⟨w, g, hw, hg⟩ := hobj k
      exact multi_tick_agreement_views globalNames m i t debug onT onE startTime (clock k)
        (JSARAsyncLoader.moduleHost (hosts k)) (hosts k) r hm hi ht ⟨w, g, hw, hg⟩
        (JSARAsyncLoader.all_exist_in_moduleHost (hosts k) w g hw hg globalNames
          (hsub k w g hw hg))) fuel 0 0
  refine ⟨key.1, key.2, ?_⟩
  intro e he
  have h2 := congrArg (List.map (fun evs => evs.count e)) key.2
  simp only [List.map_map, Function.comp_def, silent_count _ e he] at h2
  exact h2

theorem duplicated_pollers_agree_where_window_holds_the_names_witness :
    (JSARAsyncLoader.waitForMultipleGlobals ["A"] ⟨some 3, some 10, some 1000, none, true, true⟩
        0 (idealClock 0 10)
        (fun _ => JSARAsyncLoader.moduleHost (Example.dualHost ["A"] ["A"])) 5).final
      = (WebglAsyncLoader.waitForMultipleGlobals ["A"]
          ⟨some 3, some 10, some 1000, none, true, true⟩ 0 (idealClock 0 10)
          (fun _ => Example.dualHost ["A"] ["A"]) 5).final :=
  (duplicated_pollers_agree_where_window_holds_the_names ["A"] 3 10 1000 none true true 0
    (idealClock 0 10) (fun _ => Example.dualHost ["A"] ["A"]) 5 (by decide) (by decide)
    (by decide) (fun _ => ⟨_, _, rfl, rfl⟩)
    (fun _ w g hw hg name hn hgn => by
      have hw1 : w = fun n => ["A"].contains n := (Option.some.inj hw).symm
      have hg1 : g = fun n => ["A"].contains n := (Option.some.inj hg).symm
      rw [hw1]
      rw [hg1] at hgn
      exact hgn)).1

/-! ## Two waits and the state they share -/

/-- What `check` does to the state it can reach: the shared state is left as
it is, the tick is the tick of `check` as transcribed above, and of the
closure only `retries` changes, to the counter of the tick scheduled. -/
theorem JSARAsyncLoader.checkInHeap_spec (shared : JSARAsyncLoader.Shared)
    (c : JSARAsyncLoader.Closure) (now : Int) (host : Host) :
    (JSARAsyncLoader.checkInHeap shared c now host).1 = shared ∧
    (JSARAsyncLoader.checkInHeap shared c now host).2.2
      = JSARAsyncLoader.waitForMultipleGlobalsCheck c.config shared.options c.globalNames
          c.startTime now host c.retries ∧
    (JSARAsyncLoader.checkInHeap shared c now host).2.1
      = ⟨c.globalNames, c.config, c.startTime,
          match (JSARAsyncLoader.waitForMultipleGlobalsCheck c.config shared.options
            c.globalNames c.startTime now host c.retries).next with
          | Next.again r => r
          | _ => c.retries⟩ := by
  obtain ⟨names, cfg, start, r⟩ := c
  unfold JSARAsyncLoader.checkInHeap JSARAsyncLoader.waitForMultipleGlobalsCheck
  split_ifs <;> simp

theorem JSARAsyncLoader.Slot.turn_shared (shared : JSARAsyncLoader.Shared)
    (globalNames : List String) (startTime : Int) (slot : JSARAsyncLoader.Slot) (now : Int)
    (host : Host) :
    (JSARAsyncLoader.Slot.turn shared globalNames startTime slot now host).1 = shared := by
  unfold JSARAsyncLoader.Slot.turn
  cases slot.closure with
  | none =>
    simp only [JSARAsyncLoader.waitForMultipleGlobalsInHeap]
    exact (JSARAsyncLoader.checkInHeap_spec shared _ now host).1
  | some c =>
    cases slot.run.final with
    | pending r =>
      simp only []
      exact (JSARAsyncLoader.checkInHeap_spec shared c now host).1
    | finished o => rfl
    | raised => rfl

theorem JSARAsyncLoader.Slot.turn_scheduled (shared : JSARAsyncLoader.Shared)
    (globalNames : List String) (start0 start : Int) (cfg : Config) (pre : List (List Event))
    (r r0 : Nat) (now : Int) (host : Host) :
    (JSARAsyncLoader.Slot.turn shared globalNames start0
        ⟨some ⟨globalNames, cfg, start, r⟩, ⟨pre, Final.pending r0⟩⟩ now host).2
      = ⟨some ⟨globalNames, cfg, start,
            match (JSARAsyncLoader.waitForMultipleGlobalsCheck cfg shared.options globalNames
              start now host r).next with
            | Next.again r1 => r1
            | _ => r⟩,
          ⟨pre ++ [(JSARAsyncLoader.waitForMultipleGlobalsCheck cfg shared.options globalNames
              start now host r).events],
            (JSARAsyncLoader.waitForMultipleGlobalsCheck cfg shared.options globalNames
              start now host r).final⟩⟩ := by
  obtain ⟨-, h2, h3⟩ := JSARAsyncLoader.checkInHeap_spec shared
    ⟨globalNames, cfg, start, r⟩ now host
  simp only [JSARAsyncLoader.Slot.turn, h2, h3]

theorem JSARAsyncLoader.Slot.turn_fresh (shared : JSARAsyncLoader.Shared)
    (globalNames : List String) (start : Int) (now : Int) (host : Host) :
    (JSARAsyncLoader.Slot.turn shared globalNames start JSARAsyncLoader.Slot.fresh now host).2
      = (JSARAsyncLoader.Slot.turn shared globalNames start
          ⟨some ⟨globalNames, JSARAsyncLoader.assign shared.self.defaultConfig shared.options,
            start, 0⟩, ⟨[], Final.pending 0⟩⟩ now host).2 := by
  simp [JSARAsyncLoader.Slot.turn, JSARAsyncLoader.Slot.fresh,
    JSARAsyncLoader.waitForMultipleGlobalsInHeap]

theorem JSARAsyncLoader.Slot.turns_ended (shared : JSARAsyncLoader.Shared)
    (globalNames : List String) (start0 : Int) (c : JSARAsyncLoader.Closure) (run : Run)
    (h : ∀ r, run.final ≠ Final.pending r) :
    ∀ (obs : List (Int × Host)),
      obs.foldl (fun sl o => (JSARAsyncLoader.Slot.turn shared globalNames start0 sl o.1 o.2).2)
        (⟨some c, run⟩ : JSARAsyncLoader.Slot) = ⟨some c, run⟩ := by
  intro obs
  induction obs with
  | nil => rfl
  | cons o rest ih =>
    have hstep : (JSARAsyncLoader.Slot.turn shared globalNames start0 ⟨some c, run⟩ o.1 o.2).2
        = ⟨some c, run⟩ := by
      unfold JSARAsyncLoader.Slot.turn
      cases hf : run.final with
      | pending r => exact absurd hf (h r)
      | finished out => simp [hf]
      | raised => simp [hf]
    rw [List.foldl_cons, hstep]
    exact ih

/-- The turns of a wait whose timer is scheduled, one after the other: its
ticks are those of the event loop over what it observes, and its closure
keeps its names, configuration and start time. -/
theorem JSARAsyncLoader.Slot.turns_scheduled (shared : JSARAsyncLoader.Shared)
    (globalNames : List String) (start0 start : Int) (cfg : Config) :
    ∀ (obs : List (Int × Host)) (pre : List (List Event)) (r : Nat),
      ∃ r1,
        obs.foldl (fun sl o =>
            (JSARAsyncLoader.Slot.turn shared globalNames start0 sl o.1 o.2).2)
            (⟨some ⟨globalNames, cfg, start, r⟩, ⟨pre, Final.pending r⟩⟩ : JSARAsyncLoader.Slot)
          = ⟨some ⟨globalNames, cfg, start, r1⟩,
              ⟨pre ++ (runObs (JSARAsyncLoader.waitForMultipleGlobalsCheck cfg shared.options
                  globalNames start) obs r).ticks,
                (runObs (JSARAsyncLoader.waitForMultipleGlobalsCheck cfg shared.options
                  globalNames start) obs r).final⟩⟩ ∧
        ∀ r2, (runObs (JSARAsyncLoader.waitForMultipleGlobalsCheck cfg shared.options
            globalNames start) obs r).final = Final.pending r2 → r1 = r2 := by
  intro obs
  induction obs with
  | nil =>
    intro pre r
    exact ⟨r, by simp [runObs], by intro r2 h; simpa [runObs] using h⟩
  | cons o rest ih =>
    intro pre r
    obtain ⟨now, host⟩ := o
    rw [List.foldl_cons, JSARAsyncLoader.Slot.turn_scheduled]
    cases hn : (JSARAsyncLoader.waitForMultipleGlobalsCheck cfg shared.options globalNames
        start now host r).next with
    | stop out =>
      refine ⟨r, ?_, ?_⟩
      · simp only [Tick.final, hn]
        rw [JSARAsyncLoader.Slot.turns_ended shared globalNames start0 _ _ (by intro r1; simp)]
        simp [runObs, hn]
      · intro r2 h
        simp [runObs, hn] at h
    | raise =>
      refine ⟨r, ?_, ?_⟩
      · simp only [Tick.final, hn]
        rw [JSARAsyncLoader.Slot.turns_ended shared globalNames start0 _ _ (by intro r1; simp)]
        simp [runObs, hn]
      · intro r2 h
        simp [runObs, hn] at h
    | again ra =>
      obtain ⟨r1, h1, h2⟩ := ih (pre ++ [(JSARAsyncLoader.waitForMultipleGlobalsCheck cfg
        shared.options globalNames start now host r).events]) ra
      refine ⟨r1, ?_, ?_⟩
      · simp only [Tick.final, hn]
        rw [h1]
        simp [runObs, hn]
      · intro r2 h
        apply h2
        simpa [runObs, hn] using h

/-- The turns of a wait from before its call. -/
theorem JSARAsyncLoader.Slot.turns_fresh (shared : JSARAsyncLoader.Shared)
    (globalNames : List String) (start : Int) (obs : List (Int × Host)) :
    (obs.foldl (fun sl o => (JSARAsyncLoader.Slot.turn shared globalNames start sl o.1 o.2).2)
        JSARAsyncLoader.Slot.fresh).run
      = runObs (JSARAsyncLoader.waitForMultipleGlobalsCheck
          (JSARAsyncLoader.assign shared.self.defaultConfig shared.options) shared.options
          globalNames start) obs 0 ∧
    ∀ c, (obs.foldl (fun sl o =>
        (JSARAsyncLoader.Slot.turn shared globalNames start sl o.1 o.2).2)
        JSARAsyncLoader.Slot.fresh).closure = some c →
      c.globalNames = globalNames ∧
      c.config = JSARAsyncLoader.assign shared.self.defaultConfig shared.options ∧
      c.startTime = start ∧
      ∀ r, (obs.foldl (fun sl o =>
          (JSARAsyncLoader.Slot.turn shared globalNames start sl o.1 o.2).2)
          JSARAsyncLoader.Slot.fresh).run.final = Final.pending r → c.retries = r := by
  cases obs with
  | nil =>
    refine ⟨rfl, ?_⟩
    intro c hc
    simp [JSARAsyncLoader.Slot.fresh] at hc
  | cons o rest =>
    have hfirst : (o :: rest).foldl (fun sl o =>
          (JSARAsyncLoader.Slot.turn shared globalNames start sl o.1 o.2).2)
          JSARAsyncLoader.Slot.fresh
        = (o :: rest).foldl (fun sl o =>
          (JSARAsyncLoader.Slot.turn shared globalNames start sl o.1 o.2).2)
          ⟨some ⟨globalNames, JSARAsyncLoader.assign shared.self.defaultConfig shared.options,
            start, 0⟩, ⟨[], Final.pending 0⟩⟩ := by
      rw [List.foldl_cons, List.foldl_cons, JSARAsyncLoader.Slot.turn_fresh]
    obtain ⟨r1, h1, h2⟩ := JSARAsyncLoader.Slot.turns_scheduled shared globalNames start start
      (JSARAsyncLoader.assign shared.self.defaultConfig shared.options) (o :: rest) [] 0
    rw [hfirst, h1]
    refine ⟨by simp, ?_⟩
    intro c hc
    simp only [Option.some.injEq] at hc
    subst hc
    exact ⟨rfl, rfl, rfl, fun r hr => h2 r hr⟩

/-- Under every schedule the shared state stays what it was, and each wait
goes through its own turns only. -/
theorem JSARAsyncLoader.Heap.run_spec (globalNames : List String) (startA startB : Int) :
    ∀ (sched : List (Turn × Int × Host)) (h : JSARAsyncLoader.Heap),
      (JSARAsyncLoader.Heap.run globalNames startA startB sched h).shared = h.shared ∧
      (JSARAsyncLoader.Heap.run globalNames startA startB sched h).first
        = (observedBy Turn.first sched).foldl (fun sl o =>
            (JSARAsyncLoader.Slot.turn h.shared globalNames startA sl o.1 o.2).2) h.first ∧
      (JSARAsyncLoader.Heap.run globalNames startA startB sched h).second
        = (observedBy Turn.second sched).foldl (fun sl o =>
            (JSARAsyncLoader.Slot.turn h.shared globalNames startB sl o.1 o.2).2) h.second := by
  intro sched
  induction sched with
  | nil => intro h; exact ⟨rfl, rfl, rfl⟩
  | cons e rest ih =>
    intro h
    obtain ⟨t, now, host⟩ := e
    have hrun : JSARAsyncLoader.Heap.run globalNames startA startB ((t, now, host) :: rest) h
        = JSARAsyncLoader.Heap.run globalNames startA startB rest
            (JSARAsyncLoader.Heap.step globalNames startA startB h (t, now, host)) := rfl
    obtain ⟨i1, i2, i3⟩ := ih (JSARAsyncLoader.Heap.step globalNames startA startB h
      (t, now, host))
    rw [hrun, i1, i2, i3]
    cases t with
    | first =>
      simp only [JSARAsyncLoader.Heap.step, JSARAsyncLoader.Slot.turn_shared, observedBy,
        if_true, List.foldl_cons]
      simp
    | second =>
      simp only [JSARAsyncLoader.Heap.step, JSARAsyncLoader.Slot.turn_shared, observedBy,
        if_true, List.foldl_cons]
      simp

/-- C15: two waits started with the same request and config are independent.
With the object JSARAsyncLoader and the options object shared by both calls
of waitForMultipleGlobals, under every schedule of the turns of the two waits
(the call of each wait being its first turn): no turn changes the shared
object or the options; the ticks, retry counter and outcome of each wait are
those of the wait run alone on the clock readings and hosts observed at its
own turns, so a function only of its names, config, start time and those
observations; the closure of a wait holds its own names, merged config, start
time and retry counter; and a wait is in the same state under every other
schedule that gives it the same observations, whether the other wait is not
run at all, run before it or interleaved with it. -/
theorem JSARAsyncLoader.waits_independent_in_shared_heap
    (globalNames : List String) (options : Options) (startA startB : Int)
    (sched : List (Turn × Int × Host)) :
    (JSARAsyncLoader.Heap.run globalNames startA startB sched
        (JSARAsyncLoader.Heap.initial options)).shared
      = ⟨JSARAsyncLoader.Loader.initial, options⟩ ∧
    (JSARAsyncLoader.Heap.run globalNames startA startB sched
        (JSARAsyncLoader.Heap.initial options)).first.run
      = JSARAsyncLoader.waitForMultipleGlobals globalNames options startA
          (obsClock (observedBy Turn.first sched)) (obsHosts (observedBy Turn.first sched))
          (observedBy Turn.first sched).length ∧
    (JSARAsyncLoader.Heap.run globalNames startA startB sched
        (JSARAsyncLoader.Heap.initial options)).second.run
      = JSARAsyncLoader.waitForMultipleGlobals globalNames options startB
          (obsClock (observedBy Turn.second sched)) (obsHosts (observedBy Turn.second sched))
          (observedBy Turn.second sched).length ∧
    (∀ c, (JSARAsyncLoader.Heap.run globalNames startA startB sched
        (JSARAsyncLoader.Heap.initial options)).first.closure = some c →
      c.globalNames = globalNames ∧ c.config = JSARAsyncLoader.assignConfig options ∧
      c.startTime = startA ∧
      ∀ r, (JSARAsyncLoader.Heap.run globalNames startA startB sched
        (JSARAsyncLoader.Heap.initial options)).first.run.final = Final.pending r →
        c.retries = r) ∧
    (∀ c, (JSARAsyncLoader.Heap.run globalNames startA startB sched
        (JSARAsyncLoader.Heap.initial options)).second.closure = some c →
      c.globalNames = globalNames ∧ c.config = JSARAsyncLoader.assignConfig options ∧
      c.startTime = startB ∧
      ∀ r, (JSARAsyncLoader.Heap.run globalNames startA startB sched
        (JSARAsyncLoader.Heap.initial options)).second.run.final = Final.pending r →
        c.retries = r) ∧
    (∀ (startC : Int) (other : List (Turn × Int × Host)),
      observedBy Turn.first other = observedBy Turn.first sched →
      (JSARAsyncLoader.Heap.run globalNames startA startC other
          (JSARAsyncLoader.Heap.initial options)).first
        = (JSARAsyncLoader.Heap.run globalNames startA startB sched
          (JSARAsyncLoader.Heap.initial options)).first) ∧
    (∀ (startC : Int) (other : List (Turn × Int × Host)),
      observedBy Turn.second other = observedBy Turn.second sched →
      (JSARAsyncLoader.Heap.run globalNames startC startB other
          (JSARAsyncLoader.Heap.initial options)).second
        = (JSARAsyncLoader.Heap.run globalNames startA startB sched
          (JSARAsyncLoader.Heap.initial options)).second) := by
  obtain ⟨h1, h2, h3⟩ := JSARAsyncLoader.Heap.run_spec globalNames startA startB sched
    (JSARAsyncLoader.Heap.initial options)
  have hcfg : JSARAsyncLoader.assign
      (JSARAsyncLoader.Heap.initial options).shared.self.defaultConfig
      (JSARAsyncLoader.Heap.initial options).shared.options
      = JSARAsyncLoader.assignConfig options := rfl
  have hopt : (JSARAsyncLoader.Heap.initial options).shared.options = options := rfl
  have fA := JSARAsyncLoader.Slot.turns_fresh (JSARAsyncLoader.Heap.initial options).shared
    globalNames startA (observedBy Turn.first sched)
  have fB := JSARAsyncLoader.Slot.turns_fresh (JSARAsyncLoader.Heap.initial options).shared
    globalNames startB (observedBy Turn.second sched)
  rw [hcfg, hopt] at fA fB
  have hfirst : (JSARAsyncLoader.Heap.initial options).first = JSARAsyncLoader.Slot.fresh := rfl
  have hsecond : (JSARAsyncLoader.Heap.initial options).second = JSARAsyncLoader.Slot.fresh :=
    rfl
  rw [hfirst] at h2
  rw [hsecond] at h3
  refine ⟨h1, ?_, ?_, ?_, ?_, ?_, ?_⟩
  · rw [h2, fA.1, runObs_eq_drive]
    rfl
  · rw [h3, fB.1, runObs_eq_drive]
    rfl
  · rw [h2]
    exact fA.2
  · rw [h3]
    exact fB.2
  · intro startC other hobs
    rw [h2, (JSARAsyncLoader.Heap.run_spec globalNames startA startC other
      (JSARAsyncLoader.Heap.initial options)).2.1, hfirst, hobs]
  · intro startC other hobs
    rw [h3, (JSARAsyncLoader.Heap.run_spec globalNames startC startB other
      (JSARAsyncLoader.Heap.initial options)).2.2, hsecond, hobs]

/-- Two waits for a name that appears at the third observation of each, with
turns taken alternately: both end with success after two retries, and the
shared object is as it was. -/
theorem JSARAsyncLoader.heap_example :
    (JSARAsyncLoader.Heap.run ["A"] 0 5
        [(Turn.first, 0, Example.bareHost), (Turn.second, 5, Example.bareHost),
          (Turn.first, 20, Example.bareHost), (Turn.second, 25, Example.bareHost),
          (Turn.first, 40, Example.windowHost ["A"]),
          (Turn.second, 45, Example.windowHost ["A"])]
        (JSARAsyncLoader.Heap.initial ⟨none, none, none, some false, false, false⟩))
      = ⟨⟨JSARAsyncLoader.Loader.initial, ⟨none, none, none, some false, false, false⟩⟩,
          ⟨some ⟨["A"], ⟨100, 20, 10000, false⟩, 0, 2⟩,
            ⟨[[Event.probe, Event.setTimeout 20], [Event.probe, Event.setTimeout 20],
              [Event.probe, Event.callback]], Final.finished Outcome.success⟩⟩,
          ⟨some ⟨["A"], ⟨100, 20, 10000, false⟩, 5, 2⟩,
            ⟨[[Event.probe, Event.setTimeout 20], [Event.probe, Event.setTimeout 20],
              [Event.probe, Event.callback]], Final.finished Outcome.success⟩⟩⟩ := by
  decide
